import Mathlib

/-!
# RasterVectorStudio: the browser-side editors

A shallow embedding of the three Paper.js front ends of the repository

* `src/web/paperjs_editor_advanced.js` (class `ProfessionalPaperEditor`),
* `src/web/paperjs_editor.js` (class `PaperJSEditor`),
* `src/web/paperjs_editor_pro.js` (the `tools` table, `window.activateTool`,
  `window.loadSvg`),

and of the svgcanvas page `src/web/editor.js`, together with the properties of
the undo history, the selection, the tool dispatch, the eyedropper, the host
notifications, the style state, the drawing gestures, the document load, the
fit to the canvas, the background grid and the fallback viewer that the
specification states about them.

## Modelling conventions

* JavaScript objects have identity and mutable fields.  A scene item is a
  reference (a `Nat`); the fields of every item object live in a heap
  `objects : Nat → Item`, and the active layer is the list `children` of the
  references it holds, in layer order.  An item removed from the layer keeps
  its fields in the heap, exactly as a detached JavaScript object does.
* Two scenes are equal when they serialize to the same text (`exportJSON`).
* JavaScript arrays are lists in index order: `push` appends at the end, `pop`
  removes the last element and `shift` the first.
* Answers of the embedded engine and of the browser that a handler asks for
  while it runs (the result of `hitTest`, of `prompt`, of `Date.now`) travel
  with the event that triggers the handler.
* A handler that can be left by an exception returns an `Outcome`: the state at
  the moment the handler is left, and whether it was left by an exception.
* The elements of the page (status line, cursor style, selection counter,
  colour inputs, tool buttons) and the console are presentation only; writes
  to them are not part of the state.
* Coordinates and sizes are exact rationals.  The bounds of a set of items are
  the box around their segment points; the size of the view is a parameter of
  the functions that read it.
-/

namespace RasterVectorStudio

/-! ## Scene items -/

/-- A point of the canvas (`paper.Point`). -/
structure Point where
  x : Rat
  y : Rat
  deriving DecidableEq

/-- A colour object (`paper.Color`): the CSS text it was built from and its alpha. -/
structure Color where
  css : String
  alpha : Rat
  deriving DecidableEq

/-- The fields of a scene item that the editors read or write. -/
structure Item where
  className : String
  name : Option String
  fillColor : Option Color
  strokeColor : Option Color
  strokeWidth : Rat
  selected : Bool
  locked : Bool
  visible : Bool
  segments : List Point
  content : String
  fontSize : Rat
  opacity : Rat
  deriving DecidableEq

/-- A freshly constructed item of the given class, before any style is applied. -/
def Item.blank (className : String) : Item :=
  { className := className, name := none, fillColor := none, strokeColor := none,
    strokeWidth := 1, selected := false, locked := false, visible := true,
    segments := [], content := "", fontSize := 12, opacity := 1 }

/-- The project of the embedded engine: the heap of item objects and the
children of the active layer. `nextId` is the next unused reference. -/
structure Project where
  objects : Nat → Item
  children : List Nat
  nextId : Nat

/-- A serialized scene: the fields of the items of the active layer, in layer
order. The text carries no object identity. -/
abbrev Snapshot := List Item

/-- Modelled from the spec: `paper.project.exportJSON()` of the embedded engine,
taken as an exact save of the scene: every item of the active layer with all
its fields, in layer order. -/
def exportJSON (p : Project) : Snapshot :=
  p.children.map p.objects

/-- Engine method `item.remove()`: the item leaves the layer; the object itself is untouched. -/
def Project.remove (p : Project) (i : Nat) : Project :=
  { p with children := p.children.filter (fun j => j != i) }

/-- Overwrite the fields of object `i`. -/
def Project.setItem (p : Project) (i : Nat) (it : Item) : Project :=
  { p with objects := Function.update p.objects i it }

/-- Apply `f` to the fields of object `i`. -/
def Project.modify (p : Project) (i : Nat) (f : Item → Item) : Project :=
  p.setItem i (f (p.objects i))

/-- Construct a new item and insert it at the top of the active layer,
as the engine's item constructors do. Returns the project and the new reference. -/
def Project.create (p : Project) (it : Item) : Project × Nat :=
  ({ objects := Function.update p.objects p.nextId it,
     children := p.children ++ [p.nextId],
     nextId := p.nextId + 1 }, p.nextId)

/-- Modelled from the spec: `paper.project.importJSON(json)` of the embedded
engine, taken as an exact restore of the scene: the active layer holds the
recorded items again, each with its recorded fields, in the recorded order.
The items are new objects; the objects of the replaced scene are detached. -/
def importJSON (json : Snapshot) (p : Project) : Project :=
  json.foldl (fun q it => (q.create it).1) { p with children := [] }

/-- The state a handler is left in, and whether it was left by an exception. -/
structure Outcome (σ : Type) where
  state : σ
  threw : Bool

/-! ## ProfessionalPaperEditor (`paperjs_editor_advanced.js`) -/

/-- The `currentColors` object. -/
structure CurrentColors where
  fill : String
  stroke : String
  deriving DecidableEq

/-- The `currentProperties` object. -/
structure CurrentProperties where
  strokeWidth : Rat
  fillOpacity : Rat
  strokeOpacity : Rat
  deriving DecidableEq

/-- The state of a `ProfessionalPaperEditor` together with the parts of the
engine that its methods touch. -/
structure Editor where
  /-- Field `paper.project` of the engine. -/
  project : Project
  /-- Field `paper.view.zoom`. -/
  viewZoom : Rat
  /-- Field `paper.view.center`. -/
  viewCenter : Point
  currentTool : String
  currentColors : CurrentColors
  currentProperties : CurrentProperties
  selectedItems : List Nat
  isDrawing : Bool
  currentPath : Option Nat
  undoStack : List Snapshot
  redoStack : List Snapshot
  /-- Arguments of the calls of `notifyColorPicked`, oldest first (`none` is `null`). -/
  colorPicked : List (Option String)

namespace Editor

/-- The fields assigned by the constructor, over a given project:
`currentTool` is `'select'`, the selection and both history stacks are empty. -/
def constructed (p : Project) : Editor :=
  { project := p, viewZoom := 1, viewCenter := ⟨400, 300⟩,
    currentTool := "select",
    currentColors := { fill := "#3498db", stroke := "#2c3e50" },
    currentProperties := { strokeWidth := 2, fillOpacity := 1, strokeOpacity := 1 },
    selectedItems := [], isDrawing := false, currentPath := none,
    undoStack := [], redoStack := [],
    colorPicked := [] }

/-! ### Undo / redo -/

/-- Method `saveState()`. -/
def saveState (s : Editor) : Editor :=
  let state := exportJSON s.project
  let pushed := s.undoStack ++ [state]
  let capped := if pushed.length > 50 then pushed.tail else pushed
  { s with undoStack := capped, redoStack := [] }

/-- Method `undo()`. -/
def undo (s : Editor) : Editor :=
  if s.undoStack.length > 0 then
    match s.undoStack.getLast? with
    | some previousState =>
      { s with redoStack := s.redoStack ++ [exportJSON s.project],
               undoStack := s.undoStack.dropLast,
               project := importJSON previousState s.project }
    | none => s
  else s

/-- Method `redo()`. -/
def redo (s : Editor) : Editor :=
  if s.redoStack.length > 0 then
    match s.redoStack.getLast? with
    | some nextState =>
      { s with undoStack := s.undoStack ++ [exportJSON s.project],
               redoStack := s.redoStack.dropLast,
               project := importJSON nextState s.project }
    | none => s
  else s

end Editor

/-! ### Style -/

/-- Modelled from the spec: the engine's colour constructor `new paper.Color(text)`,
which raises on malformed input. `valid` tells which texts it accepts;
`none` stands for the raised exception. -/
def newColor (valid : String → Bool) (text : String) : Option Color :=
  if valid text then some { css := text, alpha := 1 } else none

/-- Engine method `color.toCSS(true)`: the hex text of a colour. -/
def Color.toCSS (c : Color) : String := c.css

/-- Set the alpha of a colour that is present (`if (item.fillColor) item.fillColor.alpha = a`). -/
def setAlpha (c : Option Color) (a : Rat) : Option Color :=
  c.map (fun col => { col with alpha := a })

namespace Editor

/-- Method `applyCurrentStyle(item)`. The two colour constructions can raise; the
assignments made before the exception stay. -/
def applyCurrentStyle (valid : String → Bool) (s : Editor) (item : Option Nat) :
    Outcome Editor :=
  match item with
  | none => ⟨s, false⟩
  | some i =>
    match newColor valid s.currentColors.fill with
    | none => ⟨s, true⟩
    | some fc =>
      let p1 := s.project.modify i (fun it => { it with fillColor := some fc })
      match newColor valid s.currentColors.stroke with
      | none => ⟨{ s with project := p1 }, true⟩
      | some sc =>
        let p2 := p1.modify i (fun it =>
          { it with strokeColor := some sc, strokeWidth := s.currentProperties.strokeWidth })
        let p3 := p2.modify i (fun it =>
          { it with fillColor := setAlpha it.fillColor s.currentProperties.fillOpacity })
        let p4 := p3.modify i (fun it =>
          { it with strokeColor := setAlpha it.strokeColor s.currentProperties.strokeOpacity })
        ⟨{ s with project := p4 }, false⟩

/-- The loop `items.forEach(item => this.applyCurrentStyle(item))`: an exception
leaves the loop at once. -/
def applyCurrentStyleAll (valid : String → Bool) (s : Editor) : List Nat → Outcome Editor
  | [] => ⟨s, false⟩
  | i :: rest =>
    let o := applyCurrentStyle valid s (some i)
    if o.threw then o else applyCurrentStyleAll valid o.state rest

/-- Method `applyToSelected()`. -/
def applyToSelected (valid : String → Bool) (s : Editor) : Outcome Editor :=
  applyCurrentStyleAll valid s s.selectedItems

/-- Method `applyColorToItem(item, color, mode = 'fill')`; `mode = none` is an
omitted (`undefined`) argument. The exception of the colour constructor is
caught inside the method. -/
def applyColorToItem (valid : String → Bool) (s : Editor) (item : Nat) (color : String)
    (mode : Option String) : Editor :=
  match newColor valid color with
  | none => s
  | some paperColor =>
    let m := mode.getD "fill"
    if m = "fill" then
      { s with project := s.project.modify item (fun it => { it with fillColor := some paperColor }) }
    else if m = "stroke" then
      { s with project := s.project.modify item (fun it => { it with strokeColor := some paperColor }) }
    else if m = "both" then
      { s with project := s.project.modify item (fun it =>
          { it with fillColor := some paperColor, strokeColor := some paperColor }) }
    else s

/-! ### Selection -/

/-- Method `selectItem(item)`. -/
def selectItem (s : Editor) (item : Nat) : Editor :=
  if !(s.project.objects item).selected then
    { s with project := s.project.modify item (fun it => { it with selected := true }),
             selectedItems := s.selectedItems ++ [item] }
  else s

/-- Method `deselectItem(item)`: `indexOf` and `splice(index, 1)` drop the first
occurrence of the item. -/
def deselectItem (s : Editor) (item : Nat) : Editor :=
  if (s.project.objects item).selected then
    { s with project := s.project.modify item (fun it => { it with selected := false }),
             selectedItems := s.selectedItems.erase item }
  else s

/-- Method `clearSelection()`. -/
def clearSelection (s : Editor) : Editor :=
  { s with project := s.selectedItems.foldl
             (fun p i => p.modify i (fun it => { it with selected := false })) s.project,
           selectedItems := [] }

/-- Method `selectAll()`. -/
def selectAll (s : Editor) : Editor :=
  let s1 := s.clearSelection
  s1.project.children.foldl
    (fun st i => if (st.project.objects i).name ≠ some "grid" then st.selectItem i else st) s1

/-- Method `deleteSelected()`. -/
def deleteSelected (s : Editor) : Editor :=
  { s with project := s.selectedItems.foldl (fun p i => p.remove i) s.project,
           selectedItems := [] }

end Editor

/-! ### Events -/

/-- A pointer event of the engine's tool, with the answers the handler obtains
while it runs. -/
structure ToolEvent where
  point : Point
  downPoint : Point
  delta : Point
  /-- Flag `event.modifiers.shift`. -/
  shift : Bool
  /-- Flag `event.modifiers.option`. -/
  option : Bool
  /-- The item of the result of `paper.project.hitTest(event.point, ...)` on the
  current scene, `none` when nothing is hit. -/
  hit : Option Nat
  /-- What `prompt(...)` returns, `none` when the dialog is cancelled. -/
  promptText : Option String
  /-- What `Date.now()` returns. -/
  now : Nat

/-- A key event of the engine's tool. -/
structure KeyEvent where
  key : String
  /-- Flag `event.modifiers.control`. -/
  control : Bool

/-- Segments of `new paper.Path.Rectangle(from, to)`. -/
def rectangleSegments (a b : Point) : List Point :=
  [⟨a.x, b.y⟩, ⟨a.x, a.y⟩, ⟨b.x, a.y⟩, ⟨b.x, b.y⟩]

/-- Segments of `new paper.Path.Circle(center, radius)`. -/
def circleSegments (c : Point) (r : Rat) : List Point :=
  [⟨c.x - r, c.y⟩, ⟨c.x, c.y - r⟩, ⟨c.x + r, c.y⟩, ⟨c.x, c.y + r⟩]

namespace Editor

/-! ### Tools -/

/-- Method `handleSelection(event)`. -/
def handleSelection (s : Editor) (event : ToolEvent) : Editor :=
  let s1 := if !event.shift then s.clearSelection else s
  match event.hit with
  | some item =>
    if (s1.project.objects item).name ≠ some "grid" then
      if event.shift && (s1.project.objects item).selected then s1.deselectItem item
      else s1.selectItem item
    else s1
  | none => s1

/-- Create a path item, make it `currentPath`. -/
def newCurrentPath (s : Editor) (segments : List Point) : Editor × Nat :=
  let r := s.project.create { Item.blank "Path" with segments := segments }
  ({ s with project := r.1, currentPath := some r.2 }, r.2)

/-- Method `startDrawingRectangle(event)`. -/
def startDrawingRectangle (valid : String → Bool) (s : Editor) (event : ToolEvent) :
    Outcome Editor :=
  let s1 := (s.newCurrentPath (rectangleSegments event.point event.point)).1
  let o := applyCurrentStyle valid s1 s1.currentPath
  if o.threw then o else ⟨{ o.state with isDrawing := true }, false⟩

/-- Method `startDrawingCircle(event)`. -/
def startDrawingCircle (valid : String → Bool) (s : Editor) (event : ToolEvent) :
    Outcome Editor :=
  let s1 := (s.newCurrentPath (circleSegments event.point 1)).1
  let o := applyCurrentStyle valid s1 s1.currentPath
  if o.threw then o else ⟨{ o.state with isDrawing := true }, false⟩

/-- Method `startDrawingPath(event)`. -/
def startDrawingPath (valid : String → Bool) (s : Editor) (event : ToolEvent) :
    Outcome Editor :=
  let s1 := (s.newCurrentPath [event.point]).1
  let o := applyCurrentStyle valid s1 s1.currentPath
  if o.threw then o else ⟨{ o.state with isDrawing := true }, false⟩

/-- Method `handlePenTool(event)`. -/
def handlePenTool (valid : String → Bool) (s : Editor) (event : ToolEvent) :
    Outcome Editor :=
  match s.currentPath with
  | none =>
    let r := s.newCurrentPath []
    let o := applyCurrentStyle valid r.1 (some r.2)
    if o.threw then o
    else
      let p := o.state.project.modify r.2
        (fun it => { it with segments := it.segments ++ [event.point] })
      ⟨{ o.state with project := p }, false⟩
  | some cp =>
    let p := s.project.modify cp
      (fun it => { it with segments := it.segments ++ [event.point] })
    ⟨{ s with project := p }, false⟩

/-- Method `startBrush(event)`. -/
def startBrush (valid : String → Bool) (s : Editor) (event : ToolEvent) :
    Outcome Editor :=
  let r := s.newCurrentPath [event.point]
  let o := applyCurrentStyle valid r.1 (some r.2)
  if o.threw then o
  else
    let p := o.state.project.modify r.2
      (fun it => { it with strokeWidth := o.state.currentProperties.strokeWidth * 2 })
    ⟨{ o.state with project := p, isDrawing := true }, false⟩

/-- Method `addText(event)`. Assigning the colour text to `fillColor` goes
through the colour constructor. -/
def addText (valid : String → Bool) (s : Editor) (event : ToolEvent) : Outcome Editor :=
  match event.promptText with
  | none => ⟨s, false⟩
  | some text =>
    if text = "" then ⟨s, false⟩
    else
      let r := s.project.create
        { Item.blank "PointText" with segments := [event.point], content := text, fontSize := 24 }
      match newColor valid s.currentColors.fill with
      | none => ⟨{ s with project := r.1 }, true⟩
      | some fc =>
        let p := r.1.modify r.2 (fun it =>
          { it with fillColor := some fc, name := some ("text_" ++ toString event.now) })
        ⟨{ s with project := p }, false⟩

/-- Method `pickColor(event)`. -/
def pickColor (s : Editor) (event : ToolEvent) : Editor :=
  match event.hit with
  | none => s
  | some i =>
    let item := s.project.objects i
    let pickedColor : Option String := none
    let (s1, pickedColor) :=
      match item.fillColor with
      | some c => ({ s with currentColors := { s.currentColors with fill := c.toCSS } },
                   some c.toCSS)
      | none => (s, pickedColor)
    let (s2, pickedColor) :=
      match item.strokeColor with
      | some c => ({ s1 with currentColors := { s1.currentColors with stroke := c.toCSS } },
                   some c.toCSS)
      | none => (s1, pickedColor)
    { s2 with colorPicked := s2.colorPicked ++ [pickedColor] }

/-- Method `fillTool(event)`. -/
def fillTool (valid : String → Bool) (s : Editor) (event : ToolEvent) : Editor :=
  match event.hit with
  | some item =>
    if (s.project.objects item).name ≠ some "grid" then
      s.applyColorToItem valid item s.currentColors.fill (some "fill")
    else s
  | none => s

/-- Method `eraseTool(event)`. -/
def eraseTool (s : Editor) (event : ToolEvent) : Editor :=
  match event.hit with
  | some item =>
    if (s.project.objects item).name ≠ some "grid" then
      { s with project := s.project.remove item }
    else s
  | none => s

/-- Method `zoomIn()`. -/
def zoomIn (s : Editor) : Editor := { s with viewZoom := s.viewZoom * (5 / 4) }

/-- Method `zoomOut()`. -/
def zoomOut (s : Editor) : Editor := { s with viewZoom := s.viewZoom / (5 / 4) }

/-- Method `zoomTool(event)`. -/
def zoomTool (s : Editor) (event : ToolEvent) : Editor :=
  if event.option then s.zoomOut else s.zoomIn

/-- Method `startPan(event)`. -/
def startPan (s : Editor) (_event : ToolEvent) : Editor := { s with isDrawing := true }

/-- The `switch (this.currentTool)` of `handleMouseDown`; no case matches a
name outside the twelve listed ones. -/
def mouseDownTool (valid : String → Bool) (s : Editor) (event : ToolEvent) : Outcome Editor :=
  if s.currentTool = "select" then ⟨s.handleSelection event, false⟩
  else if s.currentTool = "rectangle" then s.startDrawingRectangle valid event
  else if s.currentTool = "circle" then s.startDrawingCircle valid event
  else if s.currentTool = "path" then s.startDrawingPath valid event
  else if s.currentTool = "pen" then s.handlePenTool valid event
  else if s.currentTool = "brush" then s.startBrush valid event
  else if s.currentTool = "text" then s.addText valid event
  else if s.currentTool = "eyedropper" then ⟨s.pickColor event, false⟩
  else if s.currentTool = "fill" then ⟨s.fillTool valid event, false⟩
  else if s.currentTool = "eraser" then ⟨s.eraseTool event, false⟩
  else if s.currentTool = "zoom" then ⟨s.zoomTool event, false⟩
  else if s.currentTool = "hand" then ⟨s.startPan event, false⟩
  else ⟨s, false⟩

/-- Method `handleMouseDown(event)`: `saveState()` first, then the active tool. -/
def handleMouseDown (valid : String → Bool) (s : Editor) (event : ToolEvent) : Outcome Editor :=
  mouseDownTool valid s.saveState event

/-! ### Drag and pointer-up -/

/-- Method `updateRectangle(event)`. -/
def updateRectangle (valid : String → Bool) (s : Editor) (event : ToolEvent) :
    Outcome Editor :=
  match s.currentPath with
  | some cp =>
    if s.isDrawing then
      let s1 := { s with project := s.project.remove cp }
      let s2 := (s1.newCurrentPath (rectangleSegments event.downPoint event.point)).1
      applyCurrentStyle valid s2 s2.currentPath
    else ⟨s, false⟩
  | none => ⟨s, false⟩

/-- Method `updateCircle(event)`. `getDistance` is the engine's
`point.getDistance`, a square root. -/
def updateCircle (valid : String → Bool) (getDistance : Point → Point → Rat) (s : Editor)
    (event : ToolEvent) : Outcome Editor :=
  match s.currentPath with
  | some cp =>
    if s.isDrawing then
      let radius := getDistance event.point event.downPoint
      let s1 := { s with project := s.project.remove cp }
      let s2 := (s1.newCurrentPath (circleSegments event.downPoint radius)).1
      applyCurrentStyle valid s2 s2.currentPath
    else ⟨s, false⟩
  | none => ⟨s, false⟩

/-- Method `updatePath(event)`. -/
def updatePath (s : Editor) (event : ToolEvent) : Editor :=
  match s.currentPath with
  | some cp =>
    if s.isDrawing then
      let p := s.project.modify cp
        (fun it => { it with segments := it.segments ++ [event.point] })
      { s with project := p }
    else s
  | none => s

/-- Method `updateBrush(event)`; `smooth()` moves no segment point. -/
def updateBrush (s : Editor) (event : ToolEvent) : Editor :=
  match s.currentPath with
  | some cp =>
    if s.isDrawing then
      let p := s.project.modify cp
        (fun it => { it with segments := it.segments ++ [event.point] })
      { s with project := p }
    else s
  | none => s

/-- Method `updatePan(event)`: `paper.view.translate(event.delta)` scrolls the view. -/
def updatePan (s : Editor) (event : ToolEvent) : Editor :=
  if s.isDrawing then
    { s with viewCenter := ⟨s.viewCenter.x - event.delta.x, s.viewCenter.y - event.delta.y⟩ }
  else s

/-- Method `handleMouseDrag(event)`. -/
def handleMouseDrag (valid : String → Bool) (getDistance : Point → Point → Rat) (s : Editor)
    (event : ToolEvent) : Outcome Editor :=
  if s.currentTool = "rectangle" then s.updateRectangle valid event
  else if s.currentTool = "circle" then s.updateCircle valid getDistance event
  else if s.currentTool = "path" then ⟨s.updatePath event, false⟩
  else if s.currentTool = "brush" then ⟨s.updateBrush event, false⟩
  else if s.currentTool = "hand" then ⟨s.updatePan event, false⟩
  else ⟨s, false⟩

/-- The assignment `this.currentPath.name = kind + '_' + Date.now()` of the
`finish` methods, guarded by `if (this.currentPath)`. -/
def finishNamed (kind : String) (s : Editor) (event : ToolEvent) : Editor :=
  match s.currentPath with
  | some cp =>
    let p := s.project.modify cp
      (fun it => { it with name := some (kind ++ "_" ++ toString event.now) })
    { s with project := p }
  | none => s

/-- Method `finishRectangle(event)`. -/
def finishRectangle (s : Editor) (event : ToolEvent) : Editor := finishNamed "rectangle" s event

/-- Method `finishCircle(event)`. -/
def finishCircle (s : Editor) (event : ToolEvent) : Editor := finishNamed "circle" s event

/-- Method `finishPath(event)`; `smooth()` moves no segment point. -/
def finishPath (s : Editor) (event : ToolEvent) : Editor := finishNamed "path" s event

/-- Method `finishBrush(event)`. -/
def finishBrush (s : Editor) (event : ToolEvent) : Editor := finishNamed "brush" s event

/-- Method `finishPan(event)`: it only sets the cursor of the page. -/
def finishPan (s : Editor) (_event : ToolEvent) : Editor := s

/-- Method `handleMouseUp(event)`: the `switch` has no case for the pen tool. -/
def handleMouseUp (s : Editor) (event : ToolEvent) : Editor :=
  let s1 :=
    if s.currentTool = "rectangle" then s.finishRectangle event
    else if s.currentTool = "circle" then s.finishCircle event
    else if s.currentTool = "path" then s.finishPath event
    else if s.currentTool = "brush" then s.finishBrush event
    else if s.currentTool = "hand" then s.finishPan event
    else s
  { s1 with isDrawing := false, currentPath := none }

/-! ### Tool switching and keys -/

/-- Method `setTool(toolName)`. -/
def setTool (s : Editor) (toolName : String) : Editor :=
  let s1 := { s with currentTool := toolName }
  if s1.currentPath.isSome && toolName ≠ "pen" then { s1 with currentPath := none } else s1

/-- Method `handleKeyDown(event)`: the `switch (event.key)` runs the first case
whose label equals the key, in the order the cases are written. -/
def handleKeyDown (s : Editor) (event : KeyEvent) : Editor :=
  if event.key = "v" then s.setTool "select"
  else if event.key = "r" then s.setTool "rectangle"
  else if event.key = "c" then s.setTool "circle"
  else if event.key = "p" then s.setTool "path"
  else if event.key = "n" then s.setTool "pen"
  else if event.key = "b" then s.setTool "brush"
  else if event.key = "t" then s.setTool "text"
  else if event.key = "i" then s.setTool "eyedropper"
  else if event.key = "f" then s.setTool "fill"
  else if event.key = "e" then s.setTool "eraser"
  else if event.key = "z" then s.setTool "zoom"
  else if event.key = "h" then s.setTool "hand"
  else if event.key = "delete" ∨ event.key = "backspace" then s.deleteSelected
  else if event.key = "escape" then s.clearSelection
  else if event.key = "a" then (if event.control then s.selectAll else s)
  else if event.key = "z" then (if event.control then s.undo else s)
  else if event.key = "y" then (if event.control then s.redo else s)
  else s

/-- The host entry point `window.applyColorToSelected(color, mode)` installed by
`initPaperEditor`; returns the editor and the returned boolean. -/
def applyColorToSelected (valid : String → Bool) (s : Editor) (color : String)
    (mode : Option String) : Editor × Bool :=
  (s.selectedItems.foldl (fun st item => st.applyColorToItem valid item color mode) s,
   decide (s.selectedItems.length > 0))

/-- The host entry point `window.setCurrentColor(color)` installed by
`initPaperEditor`: the text is stored as given (the second statement writes
the colour input of the page). -/
def setCurrentColor (s : Editor) (color : String) : Editor :=
  { s with currentColors := { s.currentColors with fill := color } }

/-- The tool enumeration of the editor: the case labels of `handleMouseDown`. -/
def toolNames : List String :=
  ["select", "rectangle", "circle", "path", "pen", "brush", "text", "eyedropper",
   "fill", "eraser", "zoom", "hand"]

end Editor

/-! ## PaperJSEditor (`paperjs_editor.js`) -/

/-- The state of a `PaperJSEditor` together with the engine's project. -/
structure PaperJSEditor where
  project : Project
  currentTool : String
  currentColor : String
  selectedItems : List Nat
  /-- Arguments of the calls of `notifyColorPicked`, oldest first. -/
  colorPicked : List String

namespace PaperJSEditor

/-- The fields assigned by the constructor, over a given project. -/
def constructed (p : Project) : PaperJSEditor :=
  { project := p, currentTool := "select", currentColor := "#000000",
    selectedItems := [], colorPicked := [] }

/-- Method `selectItem(item)`. -/
def selectItem (s : PaperJSEditor) (item : Nat) : PaperJSEditor :=
  if !(s.project.objects item).selected then
    { s with project := s.project.modify item (fun it => { it with selected := true }),
             selectedItems := s.selectedItems ++ [item] }
  else s

/-- Method `deselectItem(item)`. -/
def deselectItem (s : PaperJSEditor) (item : Nat) : PaperJSEditor :=
  if (s.project.objects item).selected then
    { s with project := s.project.modify item (fun it => { it with selected := false }),
             selectedItems := s.selectedItems.erase item }
  else s

/-- Method `clearSelection()`. -/
def clearSelection (s : PaperJSEditor) : PaperJSEditor :=
  { s with project := s.selectedItems.foldl
             (fun p i => p.modify i (fun it => { it with selected := false })) s.project,
           selectedItems := [] }

/-- Method `handleSelection(event)`. -/
def handleSelection (s : PaperJSEditor) (event : ToolEvent) : PaperJSEditor :=
  let s1 := if !event.shift then s.clearSelection else s
  match event.hit with
  | some item =>
    if event.shift && (s1.project.objects item).selected then s1.deselectItem item
    else s1.selectItem item
  | none => s1

/-- Method `handleColorPicker(event)`. The test `if (pickedColor)` fails for
`null` and for the empty text. -/
def handleColorPicker (s : PaperJSEditor) (event : ToolEvent) : PaperJSEditor :=
  match event.hit with
  | none => s
  | some i =>
    let item := s.project.objects i
    let pickedColor : Option String :=
      match item.fillColor with
      | some c => some c.toCSS
      | none =>
        match item.strokeColor with
        | some c => some c.toCSS
        | none => none
    match pickedColor with
    | some picked =>
      if picked ≠ "" then
        { s with currentColor := picked, colorPicked := s.colorPicked ++ [picked] }
      else s
    | none => s

/-- Method `applyColorToItem(item, color, mode = 'fill')`; `mode = none` is an
omitted (`undefined`) argument. The exception of the colour constructor is
caught inside the method. -/
def applyColorToItem (valid : String → Bool) (s : PaperJSEditor) (item : Nat) (color : String)
    (mode : Option String) : PaperJSEditor :=
  match newColor valid color with
  | none => s
  | some paperColor =>
    let m := mode.getD "fill"
    if m = "fill" then
      { s with project := s.project.modify item (fun it => { it with fillColor := some paperColor }) }
    else if m = "stroke" then
      { s with project := s.project.modify item (fun it => { it with strokeColor := some paperColor }) }
    else if m = "both" then
      { s with project := s.project.modify item (fun it =>
          { it with fillColor := some paperColor, strokeColor := some paperColor }) }
    else s

/-- Method `applyColorToSelected(color, mode = 'fill')`; returns the editor and
the returned boolean. The default of `mode` is filled in here and the text
`'fill'` is what `applyColorToItem` receives. -/
def applyColorToSelected (valid : String → Bool) (s : PaperJSEditor) (color : String)
    (mode : Option String) : PaperJSEditor × Bool :=
  if s.selectedItems.length = 0 then (s, false)
  else
    (s.selectedItems.foldl
      (fun st item => st.applyColorToItem valid item color (some (mode.getD "fill"))) s, true)

/-- Method `handleFillTool(event)`. -/
def handleFillTool (valid : String → Bool) (s : PaperJSEditor) (event : ToolEvent) :
    PaperJSEditor :=
  match event.hit with
  | some item => s.applyColorToItem valid item s.currentColor none
  | none => s

/-- Method `selectAll()`. -/
def selectAll (s : PaperJSEditor) : PaperJSEditor :=
  let s1 := s.clearSelection
  s1.project.children.foldl
    (fun st i => if (st.project.objects i).className ≠ "Group" then st.selectItem i else st) s1

/-- Method `deleteSelectedItems()`. -/
def deleteSelectedItems (s : PaperJSEditor) : PaperJSEditor :=
  { s with project := s.selectedItems.foldl (fun p i => p.remove i) s.project,
           selectedItems := [] }

/-- Method `handleMouseDown(event)`; the default case only writes to the console. -/
def handleMouseDown (valid : String → Bool) (s : PaperJSEditor) (event : ToolEvent) :
    PaperJSEditor :=
  if s.currentTool = "select" then s.handleSelection event
  else if s.currentTool = "picker" then s.handleColorPicker event
  else if s.currentTool = "fill" then s.handleFillTool valid event
  else s

/-- Method `setCurrentColor(color)`. -/
def setCurrentColor (s : PaperJSEditor) (color : String) : PaperJSEditor :=
  { s with currentColor := color }

/-- Method `setTool(toolName)`; what follows the assignment only writes to the page. -/
def setTool (s : PaperJSEditor) (toolName : String) : PaperJSEditor :=
  { s with currentTool := toolName }

/-- The tool enumeration of this editor: the keys of `toolNames` in `updateToolInfo`. -/
def toolNames : List String :=
  ["select", "picker", "fill", "draw_pen", "draw_shapes", "eraser"]

end PaperJSEditor

/-! ## The pro editor (`paperjs_editor_pro.js`) -/

/-- A JavaScript value as far as the host commands can pass one for a width. -/
inductive JsValue where
  /-- A finite number. -/
  | number (r : Rat)
  /-- The number `NaN`. -/
  | nan
  /-- A text. -/
  | text (t : String)
  /-- The value `undefined`. -/
  | undefined
  deriving DecidableEq

/-- Whether the value is a number other than `NaN`. -/
def JsValue.isNumeric : JsValue → Bool
  | .number _ => true
  | _ => false

/-- The `AppState` object; `currentMode` is absent until `activateTool` assigns it.
`currentStrokeWidth` holds whatever value was stored last. -/
structure AppState where
  currentColor : Color
  currentStrokeWidth : JsValue
  currentMode : Option String

/-- The state of the pro editor: `AppState`, the engine's project and active
tool (named by its key in the `tools` table), and what was sent to the host. -/
structure ProEditor where
  appState : AppState
  project : Project
  /-- The key under which the engine's active tool sits in `tools`. -/
  activeTool : Option String
  /-- Whether `window.pythonBridge` is installed. -/
  bridge : Bool
  /-- Arguments of the calls of `on_selection_changed`, oldest first. -/
  selectionChanged : List String
  /-- Arguments of the calls of `on_color_picked`, oldest first. -/
  colorPicked : List String

/-- Own keys of the `tools` object literal. -/
def toolKeys : List String :=
  ["select", "fill", "picker", "draw_pen", "draw_shapes", "eraser"]

/-- Property names that every object literal inherits from `Object.prototype`. -/
def objectPrototypeKeys : List String :=
  ["constructor", "__defineGetter__", "__defineSetter__", "hasOwnProperty",
   "__lookupGetter__", "__lookupSetter__", "isPrototypeOf", "propertyIsEnumerable",
   "toString", "valueOf", "__proto__", "toLocaleString"]

/-- What the property read `tools[toolName]` yields. -/
inductive ToolsEntry where
  /-- One of the six `paper.Tool` objects of the table. -/
  | tool (key : String)
  /-- A member of `Object.prototype`: a truthy value without an `activate` method. -/
  | inherited (key : String)
  /-- No such property. -/
  | undefined
  deriving DecidableEq

/-- The property read `tools[toolName]`: own keys first, then the prototype. -/
def toolsGet (toolName : String) : ToolsEntry :=
  if toolName ∈ toolKeys then .tool toolName
  else if toolName ∈ objectPrototypeKeys then .inherited toolName
  else .undefined

namespace ProEditor

/-- Function `window.activateTool(toolName)`. Calling the missing `activate` of
an inherited member raises a `TypeError`, after `currentMode` was assigned. -/
def activateTool (s : ProEditor) (toolName : String) : Outcome ProEditor :=
  let s1 := { s with appState := { s.appState with currentMode := some toolName } }
  match toolsGet toolName with
  | .tool key => ⟨{ s1 with activeTool := some key }, false⟩
  | .inherited _ => ⟨s1, true⟩
  | .undefined =>
    ⟨{ s1 with activeTool := some "select",
               appState := { s1.appState with currentMode := some "select" } }, false⟩

end ProEditor

/-- Engine getter `paper.project.selectedItems`: the items of the scene whose
`selected` flag is set. -/
def Project.selectedItems (p : Project) : List Nat :=
  p.children.filter (fun i => (p.objects i).selected)

/-- Engine method `paper.project.deselectAll()`: clears the `selected` flag of
every item of the scene. -/
def Project.deselectAll (p : Project) : Project :=
  p.children.foldl (fun q i => q.modify i (fun it => { it with selected := false })) p

/-- The `properties` object that `notifyPythonOfSelectionChange` builds; a
member that was not assigned is `none`. -/
structure SelectionProperties where
  fillColor : Option String
  strokeColor : Option String
  strokeWidth : Option Rat
  opacity : Option Rat
  deriving DecidableEq

/-- The object literal `\x7b\x7d` without members. -/
def SelectionProperties.empty : SelectionProperties :=
  { fillColor := none, strokeColor := none, strokeWidth := none, opacity := none }

/-- The members assigned from the first selected item. `strokeWidth` and
`opacity` are defined on every item of the engine. -/
def SelectionProperties.ofItem (firstItem : Item) : SelectionProperties :=
  { fillColor := firstItem.fillColor.map Color.toCSS,
    strokeColor := firstItem.strokeColor.map Color.toCSS,
    strokeWidth := some firstItem.strokeWidth,
    opacity := some firstItem.opacity }

/-- The members of the object as JSON text, in the order they were assigned.
`showNumber` is the JSON text of a number; colour texts need no escaping. -/
def SelectionProperties.members (showNumber : Rat → String) (p : SelectionProperties) :
    List String :=
  (p.fillColor.map (fun c => "\"fillColor\":\"" ++ c ++ "\"")).toList ++
  (p.strokeColor.map (fun c => "\"strokeColor\":\"" ++ c ++ "\"")).toList ++
  (p.strokeWidth.map (fun w => "\"strokeWidth\":" ++ showNumber w)).toList ++
  (p.opacity.map (fun o => "\"opacity\":" ++ showNumber o)).toList

/-- Function `JSON.stringify(properties)`. -/
def jsonStringify (showNumber : Rat → String) (p : SelectionProperties) : String :=
  "\x7b" ++ ",".intercalate (p.members showNumber) ++ "\x7d"

namespace ProEditor

/-- The `properties` object of `notifyPythonOfSelectionChange` for a project. -/
def selectionProperties (p : Project) : SelectionProperties :=
  match p.selectedItems with
  | [] => SelectionProperties.empty
  | firstItem :: _ => SelectionProperties.ofItem (p.objects firstItem)

/-- Function `notifyPythonOfSelectionChange()`: the text goes to the host when
the bridge is installed; otherwise only a warning is written to the console. -/
def notifyPythonOfSelectionChange (showNumber : Rat → String) (s : ProEditor) : ProEditor :=
  let jsonString := jsonStringify showNumber (selectionProperties s.project)
  if s.bridge then { s with selectionChanged := s.selectionChanged ++ [jsonString] }
  else s

/-- Handler `tools.select.onMouseDown`. -/
def selectOnMouseDown (showNumber : Rat → String) (s : ProEditor) (event : ToolEvent) :
    ProEditor :=
  let s1 := { s with project := s.project.deselectAll }
  match event.hit with
  | some item =>
    let s2 := { s1 with project := s1.project.modify item (fun it => { it with selected := true }) }
    notifyPythonOfSelectionChange showNumber s2
  | none => notifyPythonOfSelectionChange showNumber s1

/-- Handler `tools.picker.onMouseDown`. -/
def pickerOnMouseDown (s : ProEditor) (event : ToolEvent) : ProEditor :=
  match event.hit with
  | none => s
  | some i =>
    let item := s.project.objects i
    let color : Option Color :=
      match item.fillColor with
      | some c => some c
      | none => item.strokeColor
    match color with
    | none => s
    | some c =>
      let hexColor := c.toCSS
      let s1 := { s with appState := { s.appState with currentColor := c } }
      if s1.bridge then { s1 with colorPicked := s1.colorPicked ++ [hexColor] } else s1

/-- Function `window.setCurrentColor(hexColor)`: the colour constructor can raise,
and then nothing is assigned. -/
def setCurrentColor (valid : String → Bool) (s : ProEditor) (hexColor : String) :
    Outcome ProEditor :=
  match newColor valid hexColor with
  | none => ⟨s, true⟩
  | some c => ⟨{ s with appState := { s.appState with currentColor := c } }, false⟩

/-- Function `window.setStrokeWidth(width)`. -/
def setStrokeWidth (s : ProEditor) (width : JsValue) : ProEditor :=
  { s with appState := { s.appState with currentStrokeWidth := width } }

/-- The value of `parseFloat(value)` as a JavaScript value: `NaN` when the text
does not start with a number. -/
def parsedWidth (parseFloat : String → Option Rat) (value : String) : JsValue :=
  match parseFloat value with
  | some r => .number r
  | none => .nan

/-- Function `window.updateProperty(key, value)` for a text `value`.
`parseFloat` is the function of the language (`none` is `NaN`). With selected
items the property goes to each of them and `AppState` is left alone; a raise
of the colour constructor happens at the first item, before any assignment.
With selected items and a text that `parseFloat` maps to `NaN` the source
assigns `NaN` to the width of each selected item; `Item.strokeWidth` holds
finite numbers only, and the model leaves the width of the items as it is in
that case (`AppState` is untouched either way). -/
def updateProperty (valid : String → Bool) (parseFloat : String → Option Rat) (s : ProEditor)
    (key value : String) : Outcome ProEditor :=
  let selectedItems := s.project.selectedItems
  if selectedItems.length > 0 then
    if key = "fillColor" then
      match newColor valid value with
      | none => ⟨s, true⟩
      | some c =>
        let p := selectedItems.foldl
          (fun p i => p.modify i (fun it => { it with fillColor := some c })) s.project
        ⟨{ s with project := p }, false⟩
    else if key = "strokeColor" then
      match newColor valid value with
      | none => ⟨s, true⟩
      | some c =>
        let p := selectedItems.foldl
          (fun p i => p.modify i (fun it => { it with strokeColor := some c })) s.project
        ⟨{ s with project := p }, false⟩
    else if key = "strokeWidth" then
      match parseFloat value with
      | some r =>
        let p := selectedItems.foldl
          (fun p i => p.modify i (fun it => { it with strokeWidth := r })) s.project
        ⟨{ s with project := p }, false⟩
      | none => ⟨s, false⟩
    else ⟨s, false⟩
  else
    if key = "fillColor" then
      match newColor valid value with
      | none => ⟨s, true⟩
      | some c => ⟨{ s with appState := { s.appState with currentColor := c } }, false⟩
    else if key = "strokeWidth" then
      let a := { s.appState with currentStrokeWidth := parsedWidth parseFloat value }
      ⟨{ s with appState := a }, false⟩
    else ⟨s, false⟩

end ProEditor

/-! ## Geometry and document loading -/

/-- The size of the view (`paper.view.size`); no method of the editors changes it. -/
structure Size where
  width : Rat
  height : Rat
  deriving DecidableEq

/-- A rectangle of the engine (`paper.Rectangle`), as `bounds` returns it. -/
structure Rectangle where
  x : Rat
  y : Rat
  width : Rat
  height : Rat
  deriving DecidableEq

/-- Property `rectangle.center`. -/
def Rectangle.center (r : Rectangle) : Point := ⟨r.x + r.width / 2, r.y + r.height / 2⟩

/-- The bounding box of a list of points; the empty box at the origin when
there is no point. -/
def boundsOfPoints : List Point → Rectangle
  | [] => ⟨0, 0, 0, 0⟩
  | q :: qs =>
    let minX := (qs.map Point.x).foldl min q.x
    let minY := (qs.map Point.y).foldl min q.y
    let maxX := (qs.map Point.x).foldl max q.x
    let maxY := (qs.map Point.y).foldl max q.y
    ⟨minX, minY, maxX - minX, maxY - minY⟩

/-- The segment points of the given items, item after item. -/
def Project.points (p : Project) (items : List Nat) : List Point :=
  (items.map (fun i => (p.objects i).segments)).flatten

/-- Modelled from the spec: the engine's getter `bounds` of a group (or layer)
holding the given items, the smallest box around their segment points (stroke
widths are not counted). -/
def Project.bounds (p : Project) (items : List Nat) : Rectangle :=
  boundsOfPoints (p.points items)

/-- Scaling by `k` about the centre `c`. -/
def Point.scaleAbout (c : Point) (k : Rat) (q : Point) : Point :=
  ⟨c.x + k * (q.x - c.x), c.y + k * (q.y - c.y)⟩

/-- Translation by the vector `d`. -/
def Point.translate (d : Point) (q : Point) : Point := ⟨q.x + d.x, q.y + d.y⟩

/-- A transformation of a group (or layer): every point of every member is
mapped by `f`, once. -/
def Project.transform (p : Project) (items : List Nat) (f : Point → Point) : Project :=
  { p with objects := fun j =>
      if j ∈ items then { p.objects j with segments := (p.objects j).segments.map f }
      else p.objects j }

/-- Modelled from the spec: the engine's `group.scale(k)`, a scaling about the
centre of the bounds. -/
def Project.scale (p : Project) (items : List Nat) (k : Rat) : Project :=
  p.transform items (Point.scaleAbout (p.bounds items).center k)

/-- The translation that moves the centre of the bounds of the items to `center`
(`group.translate(center.subtract(group.bounds.center))`, `item.position = center`). -/
def Project.centerAt (p : Project) (items : List Nat) (center : Point) : Project :=
  p.transform items (Point.translate
    ⟨center.x - (p.bounds items).center.x, center.y - (p.bounds items).center.y⟩)

/-- The items of the active layer that are not named `grid`
(`children.filter(item => item.name !== 'grid')`). -/
def Project.content (p : Project) : List Nat :=
  p.children.filter (fun i => (p.objects i).name ≠ some "grid")

/-- The items of the active layer that are named `grid`. -/
def Project.grids (p : Project) : List Nat :=
  p.children.filter (fun i => decide ((p.objects i).name = some "grid"))

/-- A project with a grid and one path of 2000 by 1000 units. -/
def demoWideProject : Project :=
  { objects := fun i =>
      if i = 0 then { Item.blank "Group" with name := some "grid", locked := true }
      else if i = 1 then { Item.blank "Path" with segments := [⟨0, 0⟩, ⟨2000, 0⟩, ⟨2000, 1000⟩] }
      else Item.blank "Path",
    children := [0, 1], nextId := 2 }

/-- A canvas of 800 by 600 units. -/
def demoCanvas : Size := ⟨800, 600⟩

/-- Modelled from the spec: what the engine's `paper.project.importSVG(svgString, ...)`
does for a given text. -/
inductive ImportAnswer where
  /-- The text is parsed: the item is inserted on top of the layer and returned
  (passed to `onLoad` when callbacks are given). -/
  | imported (item : Item)
  /-- Nothing is inserted and nothing is returned. -/
  | nothing
  /-- The engine reports an error: `onError` is invoked when it is given, and an
  exception is raised when it is not. -/
  | error
  /-- The call raises. -/
  | raises
  deriving DecidableEq

/-- The characters that `String.prototype.trim` strips: the white space and the
line terminators of the language (tab, line feed, vertical tab, form feed,
carriage return, space, no-break space, the space separators of Unicode, the
line and paragraph separators and the byte order mark). -/
def isTrimmed (c : Char) : Bool :=
  [0x09, 0x0A, 0x0B, 0x0C, 0x0D, 0x20, 0xA0, 0x1680, 0x2028, 0x2029, 0x202F, 0x205F,
    0x3000, 0xFEFF].contains c.toNat
  || (0x2000 ≤ c.toNat && c.toNat ≤ 0x200A)

/-- The test `svgString && svgString.trim()`: the text has a character that
`trim` does not strip. -/
def hasContent (svgString : String) : Bool :=
  svgString.toList.any (fun c => !isTrimmed c)

namespace Editor

/-- Method `createGrid()`: a locked group named `grid`, sent to the back of the
layer. Its lines are children of the group, not of the layer. -/
def createGrid (s : Editor) : Editor :=
  let r := s.project.create { Item.blank "Group" with name := some "grid", locked := true }
  let p := { r.1 with children := r.2 :: r.1.children.filter (fun j => j != r.2) }
  { s with project := p }

/-- Method `fitContentToCanvas()`. Modelled from the spec: the engine's
`group.ungroup()` is taken to dissolve the temporary group without raising; what
stays of the group is that its members end on top of the layer. -/
def fitContentToCanvas (canvasSize : Size) (s : Editor) : Editor :=
  let items := s.project.content
  if items.length = 0 then s
  else
    let bounds := s.project.bounds items
    let p1 :=
      if bounds.width > 0 ∧ bounds.height > 0 then
        let scale := min (canvasSize.width / bounds.width * (4 / 5))
          (canvasSize.height / bounds.height * (4 / 5))
        let p := if scale < 1 then s.project.scale items scale else s.project
        p.centerAt items ⟨canvasSize.width / 2, canvasSize.height / 2⟩
      else s.project
    let p2 := { p1 with children := p1.children.filter (fun j => decide (j ∉ items)) ++ items }
    { s with project := p2 }

/-- Method `loadSvgContent(svgString)`. The `importSVG` call is made without
callbacks, so an error of the engine is an exception; every exception is caught
by the method, which then skips the rest of the `try` block. -/
def loadSvgContent (canvasSize : Size) (importSVG : String → ImportAnswer) (s : Editor)
    (svgString : String) : Outcome Editor :=
  let p1 := { s.project with children := s.project.grids }
  let s1 := { s with project := p1 }
  let finish := fun (st : Editor) => (⟨st.createGrid.clearSelection, false⟩ : Outcome Editor)
  if hasContent svgString then
    match importSVG svgString with
    | .imported item =>
      let s2 := { s1 with project := (s1.project.create item).1 }
      finish (s2.fitContentToCanvas canvasSize)
    | .nothing => finish s1
    | .error => ⟨s1, false⟩
    | .raises => ⟨s1, false⟩
  else finish s1

/-- The text loaded by `init()`. -/
def initialSvg : String :=
  "<svg xmlns=\"http://www.w3.org/2000/svg\" width=\"800\" height=\"600\"></svg>"

/-- The constructor with `init()`: `paper.setup` gives an empty project, then the
initial text is loaded and `createGrid()` is called. -/
def init (canvasSize : Size) (importSVG : String → ImportAnswer) : Editor :=
  ((constructed { objects := fun _ => Item.blank "Path", children := [], nextId := 0 }).loadSvgContent
    canvasSize importSVG initialSvg).state.createGrid

/-- Method `getSvgContent()`. `exportSVG` is the engine's serializer applied to
the scene as it is at the call (`none` when it raises); returns the editor and
the returned text. The first item named `grid` is hidden for the export. -/
def getSvgContent (exportSVG : Snapshot → Option String) (s : Editor) : Editor × String :=
  let grid := s.project.children.find? (fun i => (s.project.objects i).name = some "grid")
  let p1 :=
    match grid with
    | some g => s.project.modify g (fun it => { it with visible := false })
    | none => s.project
  match exportSVG (exportJSON p1) with
  | some svg =>
    let p2 :=
      match grid with
      | some g => p1.modify g (fun it => { it with visible := true })
      | none => p1
    ({ s with project := p2 }, svg)
  | none => ({ s with project := p1 }, "")

/-- The scene that `exportSVG` serializes inside `getSvgContent()`. -/
def exportedScene (s : Editor) : Snapshot :=
  match s.project.children.find? (fun i => (s.project.objects i).name = some "grid") with
  | some g => exportJSON (s.project.modify g (fun it => { it with visible := false }))
  | none => exportJSON s.project

end Editor

namespace PaperJSEditor

/-- Method `fitContentToCanvas()`: the whole active layer is scaled and centred. -/
def fitContentToCanvas (canvasSize : Size) (s : PaperJSEditor) : PaperJSEditor :=
  let items := s.project.children
  let bounds := s.project.bounds items
  if bounds.width > 0 ∧ bounds.height > 0 then
    let scale := min (canvasSize.width / bounds.width * (9 / 10))
      (canvasSize.height / bounds.height * (9 / 10))
    let p := if scale < 1 then s.project.scale items scale else s.project
    { s with project := p.centerAt items ⟨canvasSize.width / 2, canvasSize.height / 2⟩ }
  else s

/-- Method `loadSvgContent(svgString)`: `paper.project.clear()` empties the scene
first; every exception is caught by the method. -/
def loadSvgContent (canvasSize : Size) (importSVG : String → ImportAnswer) (s : PaperJSEditor)
    (svgString : String) : Outcome PaperJSEditor :=
  let s1 := { s with project := { s.project with children := [] } }
  if hasContent svgString then
    match importSVG svgString with
    | .imported item =>
      let s2 := { s1 with project := (s1.project.create item).1 }
      ⟨(s2.fitContentToCanvas canvasSize).clearSelection, false⟩
    | .nothing => ⟨s1.clearSelection, false⟩
    | .error => ⟨s1, false⟩
    | .raises => ⟨s1, false⟩
  else ⟨s1.clearSelection, false⟩

end PaperJSEditor

namespace ProEditor

/-- A number of the language, as a quotient of two finite numbers can give one. -/
inductive JsNumber where
  | finite (r : Rat)
  | infinity
  | negInfinity
  | nan
  deriving DecidableEq

/-- The quotient `a / b` of a finite number by a finite number that is not
negative: division by zero gives an infinity of the sign of `a`, and `NaN` for
`0 / 0`. -/
def JsNumber.div (a b : Rat) : JsNumber :=
  if b = 0 then
    if a = 0 then .nan else if 0 < a then .infinity else .negInfinity
  else .finite (a / b)

/-- Function `Math.min` of two numbers: `NaN` when one of them is `NaN`. -/
def JsNumber.min : JsNumber → JsNumber → JsNumber
  | .nan, _ => .nan
  | _, .nan => .nan
  | .negInfinity, _ => .negInfinity
  | _, .negInfinity => .negInfinity
  | .infinity, y => y
  | x, .infinity => x
  | .finite a, .finite b => .finite (Min.min a b)

/-- The callback `onLoad(item)` of `window.loadSvg`: `viewSize` is the size of
`paper.view.bounds` and `viewCenter` is `paper.view.center`. The test
`scale < 1` is false for `NaN`. When the minimum is `-Infinity` (a view under
100 units and an item of zero width or height) the source scales by `-Infinity`
and the coordinates of the item are no finite numbers any more; the model has
no such points and applies no scale in that case. -/
def onLoad (viewSize : Size) (viewCenter : Point) (s : ProEditor) (item : Nat) : ProEditor :=
  let itemBounds := s.project.bounds [item]
  let scaleX := JsNumber.div (viewSize.width - 100) itemBounds.width
  let scaleY := JsNumber.div (viewSize.height - 100) itemBounds.height
  let scale := JsNumber.min (JsNumber.min scaleX scaleY) (.finite 1)
  let p :=
    match scale with
    | .finite k => if k < 1 then s.project.scale [item] k else s.project
    | _ => s.project
  { s with project := p.centerAt [item] viewCenter }

/-- Function `window.loadSvg(svgString)`: the scene is cleared, then the text is
imported with the callbacks `onLoad` and `onError`; there is no `try`, so an
exception of `importSVG` reaches the caller. -/
def loadSvg (viewSize : Size) (viewCenter : Point) (importSVG : String → ImportAnswer)
    (s : ProEditor) (svgString : String) : Outcome ProEditor :=
  let s1 := { s with project := { s.project with children := [] } }
  match importSVG svgString with
  | .imported item =>
    let r := s1.project.create item
    ⟨onLoad viewSize viewCenter { s1 with project := r.1 } r.2, false⟩
  | .nothing => ⟨s1, false⟩
  | .error => ⟨s1, false⟩
  | .raises => ⟨s1, true⟩

end ProEditor

/-! ## Call sequences used to state the properties -/

/-- One call of the history interface of `ProfessionalPaperEditor`. -/
inductive HistoryOp where
  | saveState
  | undo
  | redo
  deriving DecidableEq

/-- Perform one history call. -/
def HistoryOp.run : HistoryOp → Editor → Editor
  | .saveState, s => s.saveState
  | .undo, s => s.undo
  | .redo, s => s.redo

/-- Perform a finite sequence of history calls, first call first. -/
def runHistory (s : Editor) (ops : List HistoryOp) : Editor :=
  ops.foldl (fun st op => op.run st) s

/-- Both history stacks of `t` are those of `s`. -/
def SameHistory (s t : Editor) : Prop :=
  t.undoStack = s.undoStack ∧ t.redoStack = s.redoStack

/-- A small scene used for concrete evaluations: one rectangle with fill
`#e0e0e0`, held by reference `0`. -/
def demoRect : Item :=
  { Item.blank "Path" with
    name := some "rect", fillColor := some ⟨"#e0e0e0", 1⟩, strokeColor := some ⟨"#333333", 1⟩ }

/-- The project holding `demoRect` as the only child of the active layer. -/
def demoProject : Project :=
  { objects := fun i => if i = 0 then demoRect else Item.blank "Path",
    children := [0], nextId := 1 }

/-- A colour validity test for concrete evaluations: `#` followed by six characters. -/
def demoValid (text : String) : Bool :=
  text.length == 7 && text.front == '#'

/-- One call of the selection interface of an editor. -/
inductive SelectionCall where
  | selectItem (item : Nat)
  | deselectItem (item : Nat)
  deriving DecidableEq

/-- The item a selection call names. -/
def SelectionCall.item : SelectionCall → Nat
  | .selectItem i => i
  | .deselectItem i => i

/-- Whether the call is `selectItem`. -/
def SelectionCall.isSelect : SelectionCall → Bool
  | .selectItem _ => true
  | .deselectItem _ => false

/-- Perform one selection call on a `ProfessionalPaperEditor`. -/
def SelectionCall.run (c : SelectionCall) (s : Editor) : Editor :=
  match c with
  | .selectItem i => s.selectItem i
  | .deselectItem i => s.deselectItem i

/-- Perform one selection call on a `PaperJSEditor`. -/
def SelectionCall.runBasic (c : SelectionCall) (s : PaperJSEditor) : PaperJSEditor :=
  match c with
  | .selectItem i => s.selectItem i
  | .deselectItem i => s.deselectItem i

/-- Perform a finite sequence of selection calls, first call first. -/
def Editor.runSelection (s : Editor) (calls : List SelectionCall) : Editor :=
  calls.foldl (fun st c => c.run st) s

/-- Perform a finite sequence of selection calls, first call first. -/
def PaperJSEditor.runSelection (s : PaperJSEditor) (calls : List SelectionCall) :
    PaperJSEditor :=
  calls.foldl (fun st c => c.runBasic st) s

/-- Whether the last call of the sequence that names `item` is `selectItem`,
starting from `init` when no call names it. -/
def lastCallSelectsFrom (init : Bool) (calls : List SelectionCall) (item : Nat) : Bool :=
  calls.foldl (fun acc c => if c.item = item then c.isSelect else acc) init

/-- Whether the last call of the sequence that names `item` is `selectItem`
(`false` when no call names it). -/
def lastCallSelects (calls : List SelectionCall) (item : Nat) : Bool :=
  lastCallSelectsFrom false calls item

/-- The demo editor with its rectangle selected. -/
def demoSelected : Editor := (Editor.constructed demoProject).selectItem 0

/-- The selection list has no repetition, the `selected` flag of an item is set
exactly when the item is in the list, and the list holds exactly the items `b` marks. -/
def SelectionInv (p : Project) (selectedItems : List Nat) (b : Nat → Bool) : Prop :=
  selectedItems.Nodup ∧
  (∀ i, (p.objects i).selected = true ↔ i ∈ selectedItems) ∧
  (∀ i, i ∈ selectedItems ↔ b i = true)

/-- The demo scene with the background grid below the rectangle: reference `1`
is the locked group named `grid`, reference `0` the rectangle. -/
def demoGridProject : Project :=
  { objects := fun i =>
      if i = 0 then demoRect
      else if i = 1 then { Item.blank "Group" with name := some "grid", locked := true }
      else Item.blank "Path",
    children := [1, 0], nextId := 2 }

/-- A pointer event at the middle of the demo rectangle with the given hit-test
answer and shift modifier. -/
def demoClick (hit : Option Nat) (shift : Bool) : ToolEvent :=
  { point := ⟨60, 60⟩, downPoint := ⟨60, 60⟩, delta := ⟨0, 0⟩, shift := shift,
    option := false, hit := hit, promptText := none, now := 0 }

/-- The demo editor after a click of the select tool on the rectangle. -/
def demoClicked : Editor :=
  (Editor.handleMouseDown demoValid (Editor.constructed demoProject)
    (demoClick (some 0) false)).state

/-- The demo editor after selecting the rectangle, clicking beside it and `undo()`:
the restored rectangle is the new object `1`, which carries the `selected` flag
of the snapshot and is not in `selectedItems`. -/
def demoRestored : Editor :=
  (Editor.handleMouseDown demoValid demoClicked (demoClick none false)).state.undo

/-- A rendering of numbers for concrete evaluations: the numerator of a whole number. -/
def demoShowNumber (r : Rat) : String := toString r.num

/-- A pro editor over the demo scene, with the host bridge installed or not. -/
def demoPro (bridge : Bool) : ProEditor :=
  { appState := { currentColor := ⟨"#000000", 1⟩, currentStrokeWidth := .number 2,
                  currentMode := some "select" },
    project := demoProject, activeTool := some "select", bridge := bridge,
    selectionChanged := [], colorPicked := [] }

/-- The effect on one item that the specification gives for a mode text: the
fill colour for `fill`, the stroke colour for `stroke`, both for `both`, and
nothing for any other text. -/
def colourByMode (mode : String) (c : Color) (it : Item) : Item :=
  if mode = "fill" then { it with fillColor := some c }
  else if mode = "stroke" then { it with strokeColor := some c }
  else if mode = "both" then { it with fillColor := some c, strokeColor := some c }
  else it

/-- One style command of the host to the pro editor. -/
inductive HostCommand where
  | setCurrentColor (hexColor : String)
  | setStrokeWidth (width : JsValue)
  | updateProperty (key value : String)
  deriving DecidableEq

/-- Perform one host command; an exception surfaces at the host and the editor
goes on from the state the command left. -/
def HostCommand.run (valid : String → Bool) (parseFloat : String → Option Rat) :
    HostCommand → ProEditor → ProEditor
  | .setCurrentColor hexColor, s => (s.setCurrentColor valid hexColor).state
  | .setStrokeWidth width, s => s.setStrokeWidth width
  | .updateProperty key value, s => (s.updateProperty valid parseFloat key value).state

/-- Perform a finite sequence of host commands, first command first. -/
def runHostCommands (valid : String → Bool) (parseFloat : String → Option Rat)
    (s : ProEditor) (cmds : List HostCommand) : ProEditor :=
  cmds.foldl (fun st c => c.run valid parseFloat st) s

/-- A `parseFloat` for concrete evaluations: it reads the texts `1`, `2` and `3`. -/
def demoParseFloat (value : String) : Option Rat :=
  if value = "1" then some 1 else if value = "2" then some 2
  else if value = "3" then some 3 else none

/-- The demo editor in the middle of drawing a rectangle: the rectangle tool and
one pointer-down, so that the provisional item `1` is in progress. -/
def demoDrawing : Editor :=
  (Editor.handleMouseDown demoValid
    { Editor.constructed demoProject with currentTool := "rectangle" }
    (demoClick none false)).state

/-- The demo scene with the colours of its rectangle removed. -/
def demoBareProject : Project :=
  demoProject.modify 0 (fun it => { it with fillColor := none, strokeColor := none })

/-- The item without its `selected` flag. -/
def Item.unselected (it : Item) : Item := { it with selected := false }

/-- The drags of a gesture, first drag first; after an exception the next
event finds the state the handler left. -/
def Editor.runDrags (valid : String → Bool) (getDistance : Point → Point → Rat) (s : Editor)
    (drags : List ToolEvent) : Editor :=
  drags.foldl (fun st e => (Editor.handleMouseDrag valid getDistance st e).state) s

/-- A gesture: a pointer-down, any number of drags and a pointer-up. -/
def Editor.gesture (valid : String → Bool) (getDistance : Point → Point → Rat) (s : Editor)
    (down : ToolEvent) (drags : List ToolEvent) (up : ToolEvent) : Editor :=
  (Editor.runDrags valid getDistance (Editor.handleMouseDown valid s down).state drags).handleMouseUp up

/-- A distance for concrete evaluations: the sum of the coordinate differences. -/
def demoDistance (a b : Point) : Rat := |a.x - b.x| + |a.y - b.y|

/-- The state in the middle of a drawing gesture that started over the scene
`base` with the tool `tool`: exactly one provisional item, new and still
unnamed, sits on top of `base`, and it is `currentPath`. -/
def GestureInv (base : List Nat) (tool : String) (st : Editor) : Prop :=
  st.currentTool = tool ∧ (∀ i ∈ base, i < st.project.nextId) ∧
  ∃ x, x < st.project.nextId ∧ x ∉ base ∧ st.currentPath = some x ∧
    st.project.children = base ++ [x] ∧ (st.project.objects x).name = none

/-- A pointer-up of the demo gestures, at time `1700000000000`. -/
def demoUp : ToolEvent := { demoClick none false with now := 1700000000000 }

/-- The demo editor with the given tool active. -/
def demoWithTool (tool : String) : Editor :=
  { Editor.constructed demoProject with currentTool := tool }

/-- A click at the given point: the event of its pointer-down and of its
pointer-up. -/
def demoClickAt (point : Point) : ToolEvent :=
  { demoClick none false with point := point, downPoint := point }

/-- The demo editor with the pen tool after a click at (60, 60) and a click at
(100, 100). -/
def demoPenClicks : Editor :=
  Editor.gesture demoValid demoDistance
    (Editor.gesture demoValid demoDistance (demoWithTool "pen") (demoClickAt ⟨60, 60⟩) []
      (demoClickAt ⟨60, 60⟩))
    (demoClickAt ⟨100, 100⟩) [] (demoClickAt ⟨100, 100⟩)

/-! ## The svgcanvas page (`editor.js`) -/

namespace SvgEditor

/-- A value that the variable `canvas` can hold. -/
inductive CanvasValue where
  /-- The variable is unset (falsy). -/
  | undefined
  /-- Modelled from the spec: an instance of the embedded engine, which has the
  methods `setSvgString` and `getSvgString` and keeps the text it is given;
  `text` is what `getSvgString()` returns, `none` when that call raises. -/
  | engine (text : Option String)
  /-- Any other object, such as a DOM element or an empty object: truthy, without
  `setSvgString` and `getSvgString`. -/
  | plain
  deriving DecidableEq

/-- The result of calling a candidate constructor. -/
inductive CallResult where
  | returns (value : CanvasValue)
  | throws
  deriving DecidableEq

/-- A truthy value found as candidate constructor, given by what
`new Ctor(container, config)` and `Ctor(container)` do. A value that is not
callable raises a `TypeError` both ways. -/
structure CtorValue where
  withNew : CallResult
  withoutNew : CallResult
  deriving DecidableEq

/-- The built-in `Object` function, which is what `constructor` names on every
ordinary object: called with an object, with `new` or without, it returns that
object (and a new empty object for `null`). -/
def objectCtor : CtorValue := ⟨.returns .plain, .returns .plain⟩

/-- A value that is not callable, such as a module object. -/
def notCallable : CtorValue := ⟨.throws, .throws⟩

/-- A module value as `window.svgcanvas` or `window.svgcanvas_global` may hold
it; `none` in a field stands for an undefined (falsy) property. -/
structure Module where
  /-- The test `typeof mod === 'object'`. -/
  isObject : Bool
  SvgCanvas : Option CtorValue
  defaultExport : Option CtorValue
  /-- The property `mod.constructor`: inherited from `Object.prototype` by an
  ordinary object, undefined on an object without prototype. -/
  ctorProperty : Option CtorValue
  deriving DecidableEq

/-- The object literal `{}`. -/
def emptyObject : Module :=
  { isObject := true, SvgCanvas := none, defaultExport := none, ctorProperty := some objectCtor }

/-- The globals of the page that `getSvgCanvasCtor` reads; `none` stands for
an undefined global. -/
structure Window where
  SvgCanvas : Option CtorValue
  svgcanvas : Option Module
  svgcanvas_global : Option Module
  deriving DecidableEq

/-- Function `getSvgCanvasCtor()`; `none` is a falsy result. -/
def getSvgCanvasCtor (g : Window) : Option CtorValue :=
  let mod := ((g.svgcanvas).orElse fun _ => g.svgcanvas_global).getD emptyObject
  let Ctor := ((g.SvgCanvas).orElse fun _ => mod.SvgCanvas).orElse fun _ => mod.defaultExport
  if Ctor.isNone && mod.isObject then
    some ((mod.ctorProperty).getD notCallable)
  else Ctor

/-- The module variables `canvas` and `fallback`; `fallback` is `null` or the
fallback viewer, which is given by its field `_svgText`. -/
structure State where
  canvas : CanvasValue
  fallback : Option String
  deriving DecidableEq

/-- The text the fallback viewer starts with. -/
def initialText : String :=
  "<svg xmlns=\"http://www.w3.org/2000/svg\" width=\"800\" height=\"600\"></svg>"

/-- The test document that `init()` loads into the engine. -/
def testSvg : String :=
  "<svg xmlns=\"http://www.w3.org/2000/svg\" width=\"800\" height=\"600\">\n      <rect x=\"50\" y=\"50\" width=\"100\" height=\"100\" fill=\"#e0e0e0\" stroke=\"#333\" stroke-width=\"2\"/>\n      <text x=\"100\" y=\"200\" text-anchor=\"middle\" font-family=\"Arial\" font-size=\"16\" fill=\"#000\">SVG 编辑器已就绪</text>\n      <text x=\"100\" y=\"220\" text-anchor=\"middle\" font-family=\"Arial\" font-size=\"12\" fill=\"#666\">按 R 键添加矩形，C 键添加圆形</text>\n    </svg>"

/-- Function `init()`, from the state in which `canvas` is unset and `fallback`
is `null`. The writes to the container element and the key listener are not
modelled; in the fallback viewer the text is stored before the container is
written. -/
def init (g : Window) : State :=
  let canvas : CanvasValue :=
    match getSvgCanvasCtor g with
    | some Ctor =>
      match Ctor.withNew with
      | .returns value => value
      | .throws =>
        match Ctor.withoutNew with
        | .returns value => value
        | .throws => .undefined
    | none => .undefined
  match canvas with
  | .undefined => { canvas := .undefined, fallback := some initialText }
  | .engine _ => { canvas := .engine (some testSvg), fallback := none }
  | .plain => { canvas := .plain, fallback := none }

/-- Function `window.svgEditorLoad(svgText)` for a text argument. -/
def svgEditorLoad (st : State) (svgText : String) : State :=
  match st.canvas with
  | .engine _ => { st with canvas := .engine (some svgText) }
  | _ =>
    match st.fallback with
    | some _ => { st with fallback := some svgText }
    | none => st

/-- The body of the `try` block of `window.svgEditorGet`; `none` when it raises. -/
def svgEditorGetBody (st : State) : Option String :=
  match st.canvas with
  | .engine text => text
  | _ =>
    match st.fallback with
    | some svgText => some svgText
    | none => some ""

/-- Function `window.svgEditorGet()`: the returned text, `none` if the call
raised. The `catch` clause returns the empty text. -/
def svgEditorGet (st : State) : Option String :=
  match svgEditorGetBody st with
  | some text => some text
  | none => some ""

end SvgEditor

/-- An import that succeeds with an empty group, as for the text loaded by `init()`. -/
def demoImport (_ : String) : ImportAnswer := .imported (Item.blank "Group")

/-- The demo editor of `PaperJSEditor` with its rectangle selected. -/
def demoSelectedBasic : PaperJSEditor := (PaperJSEditor.constructed demoProject).selectItem 0

/-- The number of visible items named `grid` in a serialized scene. -/
def visibleGrids (scene : Snapshot) : Nat :=
  (scene.filter (fun it => decide (it.name = some "grid") && it.visible)).length

/-! ## Serialization round trip -/

theorem exportJSON_foldl_create (json : Snapshot) :
    ∀ q : Project, (∀ i ∈ q.children, i < q.nextId) →
      exportJSON (json.foldl (fun q it => (q.create it).1) q) = exportJSON q ++ json := by
  induction json with
  | nil => intro q _; simp [exportJSON]
  | cons it rest ih =>
    intro q hq
    rw [List.foldl_cons, ih]
    · have hmap : List.map (Function.update q.objects q.nextId it) q.children
          = List.map q.objects q.children := by
        apply List.map_congr_left
        intro i hi
        have := hq i hi
        rw [Function.update_noteq]
        omega
      simp [exportJSON, Project.create, hmap]
    · intro i hi
      simp only [Project.create, List.mem_append, List.mem_singleton] at hi ⊢
      rcases hi with hi | hi
      · have := hq i hi
        omega
      · omega

/-- Restoring a snapshot and serializing again gives the snapshot back. -/
theorem exportJSON_importJSON (json : Snapshot) (p : Project) :
    exportJSON (importJSON json p) = json := by
  unfold importJSON
  rw [exportJSON_foldl_create]
  · simp [exportJSON]
  · intro i hi
    simp at hi

/-! ## The undo history -/

namespace Editor

theorem saveState_length (s : Editor) :
    s.saveState.undoStack.length = min (s.undoStack.length + 1) 50 ∨
      50 < s.undoStack.length ∧ s.saveState.undoStack.length = s.undoStack.length := by
  unfold saveState
  simp only [List.length_append, List.length_singleton]
  split
  · simp only [List.length_tail, List.length_append, List.length_singleton]
    omega
  · simp only [List.length_append, List.length_singleton]
    omega

theorem undo_lengths (s : Editor) :
    s.undo.undoStack.length + s.undo.redoStack.length
      = s.undoStack.length + s.redoStack.length ∧
    s.undo.undoStack.length ≤ s.undoStack.length := by
  unfold undo
  split
  · next h =>
    cases hl : s.undoStack.getLast? with
    | none => simp
    | some j =>
      simp only [List.length_append, List.length_singleton, List.length_dropLast]
      omega
  · simp

theorem redo_lengths (s : Editor) :
    s.redo.undoStack.length + s.redo.redoStack.length
      = s.undoStack.length + s.redoStack.length := by
  unfold redo
  split
  · next h =>
    cases hl : s.redoStack.getLast? with
    | none => simp
    | some j =>
      simp only [List.length_append, List.length_singleton, List.length_dropLast]
      omega
  · simp

theorem history_sum_le (ops : List HistoryOp) :
    ∀ s : Editor, s.undoStack.length + s.redoStack.length ≤ 50 →
      (runHistory s ops).undoStack.length + (runHistory s ops).redoStack.length ≤ 50 := by
  induction ops with
  | nil => intro s h; simpa [runHistory] using h
  | cons op rest ih =>
    intro s h
    have step : (op.run s).undoStack.length + (op.run s).redoStack.length ≤ 50 := by
      cases op with
      | saveState =>
        have h1 := saveState_length s
        have h2 : s.saveState.redoStack = [] := rfl
        simp only [HistoryOp.run, h2, List.length_nil]
        omega
      | undo =>
        have := (undo_lengths s).1
        simp only [HistoryOp.run]
        omega
      | redo =>
        have := redo_lengths s
        simp only [HistoryOp.run]
        omega
    have := ih (op.run s) step
    simpa [runHistory] using this

end Editor

namespace Editor

theorem sameHistory_trans {s t u : Editor} (h1 : SameHistory s t) (h2 : SameHistory t u) :
    SameHistory s u := ⟨h2.1.trans h1.1, h2.2.trans h1.2⟩

theorem sameHistory_ite {c : Prop} [Decidable c] (s : Editor) {a b : Outcome Editor}
    (ha : SameHistory s a.state) (hb : SameHistory s b.state) :
    SameHistory s (if c then a else b).state := by
  split <;> assumption

theorem applyCurrentStyle_history (valid : String → Bool) (s : Editor) (item : Option Nat) :
    SameHistory s (applyCurrentStyle valid s item).state := by
  unfold applyCurrentStyle
  split
  · exact ⟨rfl, rfl⟩
  · split
    · exact ⟨rfl, rfl⟩
    · split
      · exact ⟨rfl, rfl⟩
      · exact ⟨rfl, rfl⟩

theorem applyColorToItem_history (valid : String → Bool) (s : Editor) (item : Nat)
    (color : String) (mode : Option String) :
    SameHistory s (applyColorToItem valid s item color mode) := by
  unfold applyColorToItem
  split
  · exact ⟨rfl, rfl⟩
  · dsimp only
    split_ifs <;> exact ⟨rfl, rfl⟩

theorem selectItem_history (s : Editor) (item : Nat) : SameHistory s (s.selectItem item) := by
  unfold selectItem
  split <;> exact ⟨rfl, rfl⟩

theorem deselectItem_history (s : Editor) (item : Nat) :
    SameHistory s (s.deselectItem item) := by
  unfold deselectItem
  split <;> exact ⟨rfl, rfl⟩

theorem handleSelection_history (s : Editor) (event : ToolEvent) :
    SameHistory s (s.handleSelection event) := by
  have h1 : SameHistory s (if !event.shift then s.clearSelection else s) := by
    split <;> exact ⟨rfl, rfl⟩
  unfold handleSelection
  generalize (if !event.shift then s.clearSelection else s) = s1 at h1 ⊢
  dsimp only
  cases event.hit with
  | none => exact h1
  | some item =>
    dsimp only
    split
    · split
      · exact sameHistory_trans h1 (deselectItem_history _ _)
      · exact sameHistory_trans h1 (selectItem_history _ _)
    · exact h1

theorem startDrawing_history (valid : String → Bool) (s : Editor) (segments : List Point) :
    SameHistory s
      (let s1 := (s.newCurrentPath segments).1
       let o := applyCurrentStyle valid s1 s1.currentPath
       if o.threw then o else ⟨{ o.state with isDrawing := true }, false⟩ : Outcome Editor).state := by
  dsimp only
  have h := applyCurrentStyle_history valid (s.newCurrentPath segments).1
    (s.newCurrentPath segments).1.currentPath
  have h0 : SameHistory s (s.newCurrentPath segments).1 := ⟨rfl, rfl⟩
  split
  · exact sameHistory_trans h0 h
  · exact sameHistory_trans h0 ⟨h.1, h.2⟩

theorem handlePenTool_history (valid : String → Bool) (s : Editor) (event : ToolEvent) :
    SameHistory s (s.handlePenTool valid event).state := by
  unfold handlePenTool
  split
  · dsimp only
    have h := applyCurrentStyle_history valid (s.newCurrentPath []).1 (some (s.newCurrentPath []).2)
    have h0 : SameHistory s (s.newCurrentPath []).1 := ⟨rfl, rfl⟩
    split
    · exact sameHistory_trans h0 h
    · exact sameHistory_trans h0 ⟨h.1, h.2⟩
  · exact ⟨rfl, rfl⟩

theorem startBrush_history (valid : String → Bool) (s : Editor) (event : ToolEvent) :
    SameHistory s (s.startBrush valid event).state := by
  unfold startBrush
  dsimp only
  have h := applyCurrentStyle_history valid (s.newCurrentPath [event.point]).1
    (some (s.newCurrentPath [event.point]).2)
  have h0 : SameHistory s (s.newCurrentPath [event.point]).1 := ⟨rfl, rfl⟩
  split
  · exact sameHistory_trans h0 h
  · exact sameHistory_trans h0 ⟨h.1, h.2⟩

theorem addText_history (valid : String → Bool) (s : Editor) (event : ToolEvent) :
    SameHistory s (s.addText valid event).state := by
  unfold addText
  split
  · exact ⟨rfl, rfl⟩
  · split
    · exact ⟨rfl, rfl⟩
    · dsimp only
      split <;> exact ⟨rfl, rfl⟩

theorem pickColor_history (s : Editor) (event : ToolEvent) :
    SameHistory s (s.pickColor event) := by
  unfold pickColor
  split
  · exact ⟨rfl, rfl⟩
  · dsimp only
    split <;> split <;> exact ⟨rfl, rfl⟩

theorem fillTool_history (valid : String → Bool) (s : Editor) (event : ToolEvent) :
    SameHistory s (s.fillTool valid event) := by
  unfold fillTool
  split
  · split
    · exact applyColorToItem_history _ _ _ _ _
    · exact ⟨rfl, rfl⟩
  · exact ⟨rfl, rfl⟩

theorem eraseTool_history (s : Editor) (event : ToolEvent) :
    SameHistory s (s.eraseTool event) := by
  unfold eraseTool
  split
  · split <;> exact ⟨rfl, rfl⟩
  · exact ⟨rfl, rfl⟩

theorem zoomTool_history (s : Editor) (event : ToolEvent) :
    SameHistory s (s.zoomTool event) := by
  unfold zoomTool
  split <;> exact ⟨rfl, rfl⟩

theorem mouseDownTool_history (valid : String → Bool) (s : Editor) (event : ToolEvent) :
    SameHistory s (mouseDownTool valid s event).state := by
  unfold mouseDownTool
  refine sameHistory_ite s (handleSelection_history _ _) ?_
  refine sameHistory_ite s (startDrawing_history _ _ _) ?_
  refine sameHistory_ite s (startDrawing_history _ _ _) ?_
  refine sameHistory_ite s (startDrawing_history _ _ _) ?_
  refine sameHistory_ite s (handlePenTool_history _ _ _) ?_
  refine sameHistory_ite s (startBrush_history _ _ _) ?_
  refine sameHistory_ite s (addText_history _ _ _) ?_
  refine sameHistory_ite s (pickColor_history _ _) ?_
  refine sameHistory_ite s (fillTool_history _ _ _) ?_
  refine sameHistory_ite s (eraseTool_history _ _) ?_
  refine sameHistory_ite s (zoomTool_history _ _) ?_
  exact sameHistory_ite s ⟨rfl, rfl⟩ ⟨rfl, rfl⟩

end Editor

namespace Editor

theorem saveState_getLast (s : Editor) :
    s.saveState.undoStack.getLast? = some (exportJSON s.project) := by
  unfold saveState
  dsimp only
  split
  · next h =>
    cases hu : s.undoStack with
    | nil => simp [hu] at h
    | cons a l => simp
  · simp

theorem undo_of_getLast (s : Editor) (j : Snapshot) (h : s.undoStack.getLast? = some j) :
    s.undo = { s with redoStack := s.redoStack ++ [exportJSON s.project],
                      undoStack := s.undoStack.dropLast,
                      project := importJSON j s.project } := by
  have hne : s.undoStack.length > 0 := by
    cases hu : s.undoStack with
    | nil => simp [hu] at h
    | cons a l => simp
  unfold undo
  rw [if_pos hne, h]

theorem redo_of_getLast (s : Editor) (j : Snapshot) (h : s.redoStack.getLast? = some j) :
    s.redo = { s with undoStack := s.undoStack ++ [exportJSON s.project],
                      redoStack := s.redoStack.dropLast,
                      project := importJSON j s.project } := by
  have hne : s.redoStack.length > 0 := by
    cases hu : s.redoStack with
    | nil => simp [hu] at h
    | cons a l => simp
  unfold redo
  rw [if_pos hne, h]

theorem exists_getLast {α : Type} (l : List α) (h : l ≠ []) :
    ∃ j, l.getLast? = some j ∧ l.dropLast ++ [j] = l := by
  refine ⟨l.getLast h, List.getLast?_eq_getLast l h, List.dropLast_append_getLast h⟩

theorem redo_of_empty (s : Editor) (h : s.redoStack = []) : s.redo = s := by
  unfold redo
  simp [h]

end Editor

/-! ## Claims about the undo history -/

namespace Editor

/-- Claim C1: for every editor state, every active tool and every pointer event,
`handleMouseDown(event)` followed immediately by `undo()` leaves the scene equal
to the scene before `handleMouseDown` (with `exportJSON`/`importJSON` an exact
save and restore); this covers a fill-tool click that changed an item's fill. -/
theorem handleMouseDown_undo_restores_scene (valid : String → Bool) (s : Editor)
    (event : ToolEvent) :
    exportJSON (handleMouseDown valid s event).state.undo.project = exportJSON s.project := by
  have hh := mouseDownTool_history valid s.saveState event
  have hl : (handleMouseDown valid s event).state.undoStack.getLast?
      = some (exportJSON s.project) := by
    unfold handleMouseDown
    rw [hh.1]
    exact saveState_getLast s
  rw [undo_of_getLast _ _ hl]
  exact exportJSON_importJSON _ _

/-- The scenario of the specification: with the fill tool and current fill colour
`#ff0000`, a click on the rectangle changes its fill from `#e0e0e0` to `#ff0000`,
and `undo()` brings `#e0e0e0` back. -/
theorem fill_click_then_undo_example :
    exportJSON (handleMouseDown demoValid
        { constructed demoProject with
          currentTool := "fill", currentColors := { fill := "#ff0000", stroke := "#2c3e50" } }
        { point := ⟨60, 60⟩, downPoint := ⟨60, 60⟩, delta := ⟨0, 0⟩, shift := false,
          option := false, hit := some 0, promptText := none, now := 0 }).state.project
      = [{ demoRect with fillColor := some ⟨"#ff0000", 1⟩ }] ∧
    exportJSON (handleMouseDown demoValid
        { constructed demoProject with
          currentTool := "fill", currentColors := { fill := "#ff0000", stroke := "#2c3e50" } }
        { point := ⟨60, 60⟩, downPoint := ⟨60, 60⟩, delta := ⟨0, 0⟩, shift := false,
          option := false, hit := some 0, promptText := none, now := 0 }).state.undo.project
      = [demoRect] := by
  decide

/-- Claim C2: starting from a state whose undoStack and redoStack are both empty
(the constructor's state), after every finite sequence of `saveState()`, `undo()`
and `redo()` calls in any order the undoStack holds at most 50 entries. -/
theorem undoStack_length_le_cap (s : Editor) (hu : s.undoStack = []) (hr : s.redoStack = [])
    (ops : List HistoryOp) : (runHistory s ops).undoStack.length ≤ 50 := by
  have h := history_sum_le ops s (by simp [hu, hr])
  omega

/-- Witness for C2: a run from the constructor's state that interleaves `redo()`. -/
theorem undoStack_length_le_cap_witness :
    (constructed demoProject).undoStack = [] ∧ (constructed demoProject).redoStack = [] ∧
    (runHistory (constructed demoProject)
      [.saveState, .saveState, .undo, .redo, .undo, .saveState, .redo]).undoStack.length ≤ 50 :=
  ⟨rfl, rfl, undoStack_length_le_cap (constructed demoProject) rfl rfl
    [.saveState, .saveState, .undo, .redo, .undo, .saveState, .redo]⟩

/-- Claim C3: `saveState()` appends the serialized current scene as the newest
undoStack entry; when the undoStack already holds 50 entries the oldest entry is
dropped and the other 49 keep their order, so the new stack is the old entries
2..50 followed by the new snapshot; with fewer than 50 entries nothing is dropped. -/
theorem saveState_undoStack (s : Editor) :
    s.saveState.undoStack.getLast? = some (exportJSON s.project) ∧
    (s.undoStack.length = 50 →
      s.saveState.undoStack = s.undoStack.tail ++ [exportJSON s.project]) ∧
    (s.undoStack.length < 50 →
      s.saveState.undoStack = s.undoStack ++ [exportJSON s.project]) := by
  refine ⟨saveState_getLast s, ?_, ?_⟩
  · intro h
    unfold saveState
    dsimp only
    rw [if_pos (by simp [h])]
    cases hu : s.undoStack with
    | nil => simp [hu] at h
    | cons a l => simp
  · intro h
    unfold saveState
    dsimp only
    rw [if_neg (by simp only [List.length_append, List.length_singleton]; omega)]

/-- Witness for C3: a full stack of 50 snapshots and a stack of two. -/
theorem saveState_undoStack_witness :
    ({ constructed demoProject with
        undoStack := [] :: List.replicate 49 [demoRect] } : Editor).saveState.undoStack
      = List.replicate 49 [demoRect] ++ [[demoRect]] ∧
    ({ constructed demoProject with undoStack := [[], []] } : Editor).saveState.undoStack
      = [[], [], [demoRect]] :=
  ⟨(saveState_undoStack
      { constructed demoProject with undoStack := [] :: List.replicate 49 [demoRect] }).2.1
      (by simp),
   (saveState_undoStack { constructed demoProject with undoStack := [[], []] }).2.2
      (by simp)⟩

/-- Claim C4: `redo()` is the mirror of `undo()`: for every state whose undoStack
is non-empty, `undo()` followed by `redo()` restores the scene, the undoStack and
the redoStack to their values before `undo()`; and for every state whose
redoStack is non-empty, `redo()` followed by `undo()` restores all three likewise. -/
theorem undo_redo_mirror (s : Editor) :
    (s.undoStack ≠ [] →
      exportJSON s.undo.redo.project = exportJSON s.project ∧
      s.undo.redo.undoStack = s.undoStack ∧ s.undo.redo.redoStack = s.redoStack) ∧
    (s.redoStack ≠ [] →
      exportJSON s.redo.undo.project = exportJSON s.project ∧
      s.redo.undo.undoStack = s.undoStack ∧ s.redo.undo.redoStack = s.redoStack) := by
  constructor
  · intro h
    obtain ⟨j, hj, hd⟩ := exists_getLast s.undoStack h
    rw [undo_of_getLast s j hj]
    rw [redo_of_getLast _ (exportJSON s.project) (by simp)]
    refine ⟨exportJSON_importJSON _ _, ?_, ?_⟩
    · simp only [exportJSON_importJSON]
      exact hd
    · simp
  · intro h
    obtain ⟨j, hj, hd⟩ := exists_getLast s.redoStack h
    rw [redo_of_getLast s j hj]
    rw [undo_of_getLast _ (exportJSON s.project) (by simp)]
    refine ⟨exportJSON_importJSON _ _, ?_, ?_⟩
    · simp
    · simp only [exportJSON_importJSON]
      exact hd

/-- Witness for C4: a state with one snapshot on each stack. -/
theorem undo_redo_mirror_witness :
    (exportJSON ({ constructed demoProject with
        undoStack := [[]], redoStack := [[demoRect, demoRect]] } : Editor).undo.redo.project
      = [demoRect] ∧
     ({ constructed demoProject with
        undoStack := [[]], redoStack := [[demoRect, demoRect]] } : Editor).undo.redo.undoStack
      = [[]] ∧
     ({ constructed demoProject with
        undoStack := [[]], redoStack := [[demoRect, demoRect]] } : Editor).undo.redo.redoStack
      = [[demoRect, demoRect]]) ∧
    (exportJSON ({ constructed demoProject with
        undoStack := [[]], redoStack := [[demoRect, demoRect]] } : Editor).redo.undo.project
      = [demoRect] ∧
     ({ constructed demoProject with
        undoStack := [[]], redoStack := [[demoRect, demoRect]] } : Editor).redo.undo.undoStack
      = [[]] ∧
     ({ constructed demoProject with
        undoStack := [[]], redoStack := [[demoRect, demoRect]] } : Editor).redo.undo.redoStack
      = [[demoRect, demoRect]]) :=
  ⟨(undo_redo_mirror { constructed demoProject with
        undoStack := [[]], redoStack := [[demoRect, demoRect]] }).1 (by simp),
   (undo_redo_mirror { constructed demoProject with
        undoStack := [[]], redoStack := [[demoRect, demoRect]] }).2 (by simp)⟩

/-- Claim C5: after `saveState()` the redoStack is empty, whatever it held before;
hence after a new action (a `saveState()`, or the pointer-down that performs it)
a following `redo()` is a no-op: it changes neither the scene nor either stack. -/
theorem saveState_clears_redo (valid : String → Bool) (s : Editor) (event : ToolEvent) :
    s.saveState.redoStack = [] ∧
    s.saveState.redo = s.saveState ∧
    (handleMouseDown valid s event).state.redoStack = [] ∧
    (handleMouseDown valid s event).state.redo = (handleMouseDown valid s event).state := by
  have h1 : s.saveState.redoStack = [] := rfl
  have h2 : (handleMouseDown valid s event).state.redoStack = [] := by
    unfold handleMouseDown
    rw [(mouseDownTool_history valid s.saveState event).2]
    rfl
  exact ⟨h1, redo_of_empty _ h1, h2, redo_of_empty _ h2⟩

end Editor

/-! ## Claims about scene-changing operations, keys and tool names -/

namespace Editor

theorem deleteSelected_history (s : Editor) : SameHistory s s.deleteSelected := ⟨rfl, rfl⟩

theorem applyCurrentStyleAll_history (valid : String → Bool) (items : List Nat) :
    ∀ s : Editor, SameHistory s (applyCurrentStyleAll valid s items).state := by
  induction items with
  | nil => intro s; exact ⟨rfl, rfl⟩
  | cons i rest ih =>
    intro s
    unfold applyCurrentStyleAll
    dsimp only
    split
    · exact applyCurrentStyle_history valid s (some i)
    · exact sameHistory_trans (applyCurrentStyle_history valid s (some i)) (ih _)

theorem applyToSelected_history (valid : String → Bool) (s : Editor) :
    SameHistory s (s.applyToSelected valid).state :=
  applyCurrentStyleAll_history valid s.selectedItems s

theorem applyColorToSelected_history (valid : String → Bool) (color : String)
    (mode : Option String) (s : Editor) :
    SameHistory s (s.applyColorToSelected valid color mode).1 := by
  unfold applyColorToSelected
  dsimp only
  generalize s.selectedItems = items
  suffices h : ∀ t : Editor, SameHistory s t →
      SameHistory s (items.foldl (fun st item => st.applyColorToItem valid item color mode) t)
    from h s ⟨rfl, rfl⟩
  induction items with
  | nil => intro t ht; exact ht
  | cons i rest ih =>
    intro t ht
    rw [List.foldl_cons]
    exact ih _ (sameHistory_trans ht (applyColorToItem_history _ _ _ _ _))

/-- Claim C6, evaluated at the failing input (one selected rectangle, empty
history): `deleteSelected()`, `applyToSelected()` and the host entry point
`applyColorToSelected` change the scene without pushing a snapshot, so `undo()`
right afterwards restores nothing; the deleted rectangle does not come back. -/
theorem scene_changes_without_snapshot :
    exportJSON demoSelected.project = [{ demoRect with selected := true }] ∧
    demoSelected.undoStack = [] ∧
    demoSelected.deleteSelected.undoStack = [] ∧
    exportJSON demoSelected.deleteSelected.project = [] ∧
    exportJSON demoSelected.deleteSelected.undo.project = [] ∧
    (demoSelected.applyToSelected demoValid).state.undoStack = [] ∧
    exportJSON (demoSelected.applyToSelected demoValid).state.undo.project
      = [{ demoRect with selected := true, fillColor := some ⟨"#3498db", 1⟩,
                         strokeColor := some ⟨"#2c3e50", 1⟩, strokeWidth := 2 }] ∧
    (demoSelected.applyColorToSelected demoValid "#ff0000" (some "fill")).1.undoStack = [] ∧
    exportJSON (demoSelected.applyColorToSelected demoValid "#ff0000" (some "fill")).1.undo.project
      = [{ demoRect with selected := true, fillColor := some ⟨"#ff0000", 1⟩ }] := by
  decide

/-- Claim C7, evaluated at the failing input: in `handleKeyDown` the key `z`
always runs the first `case 'z'`, which is `setTool('zoom')`; with the control
modifier held and one snapshot on the undoStack the tool becomes `zoom` and
scene and stacks stay as they were, whereas `undo()` pops the snapshot. -/
theorem ctrl_z_runs_setTool_zoom :
    (∀ (s : Editor) (control : Bool), s.handleKeyDown ⟨"z", control⟩ = s.setTool "zoom") ∧
    (handleKeyDown { constructed demoProject with undoStack := [[]] } ⟨"z", true⟩).currentTool
      = "zoom" ∧
    (handleKeyDown { constructed demoProject with undoStack := [[]] } ⟨"z", true⟩).undoStack
      = [[]] ∧
    (handleKeyDown { constructed demoProject with undoStack := [[]] } ⟨"z", true⟩).redoStack
      = [] ∧
    exportJSON
      (handleKeyDown { constructed demoProject with undoStack := [[]] } ⟨"z", true⟩).project
      = [demoRect] ∧
    ({ constructed demoProject with undoStack := [[]] } : Editor).undo.undoStack = [] ∧
    ({ constructed demoProject with undoStack := [[]] } : Editor).undo.redoStack
      = [[demoRect]] ∧
    exportJSON ({ constructed demoProject with undoStack := [[]] } : Editor).undo.project
      = [] := by
  refine ⟨?_, by decide, by decide, by decide, by decide, by decide, by decide, by decide⟩
  intro s control
  simp [handleKeyDown]

/-- Counterexample for C9: `setTool('lasso')`, a name outside both tool
enumerations, leaves `'lasso'` and not `'select'` as the current tool, in
`ProfessionalPaperEditor` and in `PaperJSEditor`. -/
theorem setTool_unknown_name_kept :
    "lasso" ∉ toolNames ∧ "lasso" ∉ PaperJSEditor.toolNames ∧
    (constructed demoProject).currentTool = "select" ∧
    ((constructed demoProject).setTool "lasso").currentTool = "lasso" ∧
    ((constructed demoProject).setTool "lasso").currentTool ≠ "select" ∧
    ((PaperJSEditor.constructed demoProject).setTool "lasso").currentTool = "lasso" ∧
    ((constructed demoProject).setTool "lasso").currentTool ∉ toolNames := by
  decide

/-- Claim C9 as amended: `setTool(name)` of `ProfessionalPaperEditor` and of
`PaperJSEditor` makes `name` the current tool for every name, inside or outside
the tool enumeration; so after `setTool(name)` the current tool is a member of
the enumeration exactly when `name` is. -/
theorem setTool_currentTool (s : Editor) (t : PaperJSEditor) (name : String) :
    (s.setTool name).currentTool = name ∧
    (t.setTool name).currentTool = name ∧
    ((s.setTool name).currentTool ∈ toolNames ↔ name ∈ toolNames) ∧
    ((t.setTool name).currentTool ∈ PaperJSEditor.toolNames ↔
      name ∈ PaperJSEditor.toolNames) := by
  have h1 : (s.setTool name).currentTool = name := by
    unfold setTool
    dsimp only
    split <;> rfl
  have h2 : (t.setTool name).currentTool = name := rfl
  exact ⟨h1, h2, by rw [h1], by rw [h2]⟩

end Editor

namespace ProEditor

/-- A name that is a key of the `tools` table activates that tool and is recorded. -/
theorem activateTool_known (s : ProEditor) (name : String) (h : name ∈ toolKeys) :
    (s.activateTool name).threw = false ∧
    (s.activateTool name).state.activeTool = some name ∧
    (s.activateTool name).state.appState.currentMode = some name := by
  unfold activateTool toolsGet
  simp [h]

/-- A name that is neither a key of the table nor inherited activates `select`. -/
theorem activateTool_unknown (s : ProEditor) (name : String) (h : name ∉ toolKeys)
    (hp : name ∉ objectPrototypeKeys) :
    (s.activateTool name).threw = false ∧
    (s.activateTool name).state.activeTool = some "select" ∧
    (s.activateTool name).state.appState.currentMode = some "select" := by
  unfold activateTool toolsGet
  simp [h, hp]

/-- Claim C8, evaluated at the failing input: `activateTool('constructor')`, a
name that is not a key of the tool table, finds the inherited member
`tools['constructor']`, takes the first branch and raises; `'constructor'` stays
recorded as the current mode and the select tool is not activated. -/
theorem activateTool_constructor_raises (s : ProEditor) :
    "constructor" ∉ toolKeys ∧
    (s.activateTool "constructor").threw = true ∧
    (s.activateTool "constructor").state.appState.currentMode = some "constructor" ∧
    (s.activateTool "constructor").state.activeTool = s.activeTool := by
  refine ⟨by decide, ?_, ?_, ?_⟩ <;> rfl

end ProEditor

/-! ## Claims about the selection -/

theorem modify_objects (p : Project) (i : Nat) (f : Item → Item) (j : Nat) :
    (p.modify i f).objects j = if j = i then f (p.objects i) else p.objects j := by
  unfold Project.modify Project.setItem
  simp only [Function.update_apply]

theorem lastCallSelectsFrom_cons (init : Bool) (c : SelectionCall) (calls : List SelectionCall)
    (item : Nat) :
    lastCallSelectsFrom init (c :: calls) item
      = lastCallSelectsFrom (if c.item = item then c.isSelect else init) calls item := rfl

namespace Editor

theorem selectItem_inv (s : Editor) (b : Nat → Bool) (x : Nat) (h : SelectionInv s.project s.selectedItems b) :
    SelectionInv (s.selectItem x).project (s.selectItem x).selectedItems
      (fun i => if x = i then true else b i) := by
  obtain ⟨hn, hf, hb⟩ := h
  unfold selectItem
  by_cases hx : (s.project.objects x).selected = true
  · have hmem : x ∈ s.selectedItems := (hf x).1 hx
    simp only [hx, Bool.not_true, Bool.false_eq_true, if_false]
    refine ⟨hn, hf, ?_⟩
    intro i
    by_cases hi : x = i
    · subst hi; simp [hmem]
    · simp [hi, hb i]
  · have hnot : x ∉ s.selectedItems := fun hm => hx ((hf x).2 hm)
    simp only [Bool.not_eq_true] at hx
    simp only [hx, Bool.not_false, if_true]
    refine ⟨?_, ?_, ?_⟩
    · exact List.Nodup.append hn (List.nodup_singleton x) (by simpa using hnot)
    · intro i
      simp only [modify_objects, List.mem_append, List.mem_singleton]
      by_cases hi : i = x
      · simp [hi]
      · simp [hi, hf i]
    · intro i
      simp only [List.mem_append, List.mem_singleton]
      by_cases hi : x = i
      · simp [hi]
      · have hi2 : i ≠ x := fun h => hi h.symm
        simp [hi, hi2, hb i]

theorem deselectItem_inv (s : Editor) (b : Nat → Bool) (x : Nat) (h : SelectionInv s.project s.selectedItems b) :
    SelectionInv (s.deselectItem x).project (s.deselectItem x).selectedItems
      (fun i => if x = i then false else b i) := by
  obtain ⟨hn, hf, hb⟩ := h
  unfold deselectItem
  by_cases hx : (s.project.objects x).selected = true
  · simp only [hx, if_true]
    refine ⟨hn.erase x, ?_, ?_⟩
    · intro i
      simp only [modify_objects, hn.mem_erase_iff]
      by_cases hi : i = x
      · simp [hi]
      · simp [hi, hf i]
    · intro i
      simp only [hn.mem_erase_iff]
      by_cases hi : x = i
      · simp [hi]
      · have hi2 : i ≠ x := fun h => hi h.symm
        simp [hi, hi2, hb i]
  · have hnot : x ∉ s.selectedItems := fun hm => hx ((hf x).2 hm)
    simp only [hx, if_false, Bool.false_eq_true]
    refine ⟨hn, hf, ?_⟩
    intro i
    by_cases hi : x = i
    · subst hi; simp [hnot]
    · simp [hi, hb i]

theorem runSelection_inv (calls : List SelectionCall) :
    ∀ (s : Editor) (b : Nat → Bool), SelectionInv s.project s.selectedItems b →
      SelectionInv (s.runSelection calls).project (s.runSelection calls).selectedItems
        (fun i => lastCallSelectsFrom (b i) calls i) := by
  induction calls with
  | nil => intro s b h; exact h
  | cons c rest ih =>
    intro s b h
    have hstep : SelectionInv (c.run s).project (c.run s).selectedItems
        (fun i => if c.item = i then c.isSelect else b i) := by
      cases c with
      | selectItem x => exact selectItem_inv s b x h
      | deselectItem x => exact deselectItem_inv s b x h
    exact ih _ _ hstep

end Editor

namespace PaperJSEditor

theorem selectItem_inv_basic (s : PaperJSEditor) (b : Nat → Bool) (x : Nat) (h : SelectionInv s.project s.selectedItems b) :
    SelectionInv (s.selectItem x).project (s.selectItem x).selectedItems
      (fun i => if x = i then true else b i) := by
  obtain ⟨hn, hf, hb⟩ := h
  unfold selectItem
  by_cases hx : (s.project.objects x).selected = true
  · have hmem : x ∈ s.selectedItems := (hf x).1 hx
    simp only [hx, Bool.not_true, Bool.false_eq_true, if_false]
    refine ⟨hn, hf, ?_⟩
    intro i
    by_cases hi : x = i
    · subst hi; simp [hmem]
    · simp [hi, hb i]
  · have hnot : x ∉ s.selectedItems := fun hm => hx ((hf x).2 hm)
    simp only [Bool.not_eq_true] at hx
    simp only [hx, Bool.not_false, if_true]
    refine ⟨?_, ?_, ?_⟩
    · exact List.Nodup.append hn (List.nodup_singleton x) (by simpa using hnot)
    · intro i
      simp only [modify_objects, List.mem_append, List.mem_singleton]
      by_cases hi : i = x
      · simp [hi]
      · simp [hi, hf i]
    · intro i
      simp only [List.mem_append, List.mem_singleton]
      by_cases hi : x = i
      · simp [hi]
      · have hi2 : i ≠ x := fun h => hi h.symm
        simp [hi, hi2, hb i]

theorem deselectItem_inv_basic (s : PaperJSEditor) (b : Nat → Bool) (x : Nat) (h : SelectionInv s.project s.selectedItems b) :
    SelectionInv (s.deselectItem x).project (s.deselectItem x).selectedItems
      (fun i => if x = i then false else b i) := by
  obtain ⟨hn, hf, hb⟩ := h
  unfold deselectItem
  by_cases hx : (s.project.objects x).selected = true
  · simp only [hx, if_true]
    refine ⟨hn.erase x, ?_, ?_⟩
    · intro i
      simp only [modify_objects, hn.mem_erase_iff]
      by_cases hi : i = x
      · simp [hi]
      · simp [hi, hf i]
    · intro i
      simp only [hn.mem_erase_iff]
      by_cases hi : x = i
      · simp [hi]
      · have hi2 : i ≠ x := fun h => hi h.symm
        simp [hi, hi2, hb i]
  · have hnot : x ∉ s.selectedItems := fun hm => hx ((hf x).2 hm)
    simp only [hx, if_false, Bool.false_eq_true]
    refine ⟨hn, hf, ?_⟩
    intro i
    by_cases hi : x = i
    · subst hi; simp [hnot]
    · simp [hi, hb i]

theorem runSelection_inv_basic (calls : List SelectionCall) :
    ∀ (s : PaperJSEditor) (b : Nat → Bool), SelectionInv s.project s.selectedItems b →
      SelectionInv (s.runSelection calls).project (s.runSelection calls).selectedItems
        (fun i => lastCallSelectsFrom (b i) calls i) := by
  induction calls with
  | nil => intro s b h; exact h
  | cons c rest ih =>
    intro s b h
    have hstep : SelectionInv (c.runBasic s).project (c.runBasic s).selectedItems
        (fun i => if c.item = i then c.isSelect else b i) := by
      cases c with
      | selectItem x => exact selectItem_inv_basic s b x h
      | deselectItem x => exact deselectItem_inv_basic s b x h
    exact ih _ _ hstep

end PaperJSEditor


/-- Claim C10: starting from an empty selection in which no item has its
`selected` flag set, after every finite sequence of `selectItem(item)` and
`deselectItem(item)` calls an item is in `selectedItems` exactly when the last
call naming it was `selectItem`, no item occurs in `selectedItems` twice, and an
item's `selected` flag is true exactly when it is in `selectedItems`; in
`ProfessionalPaperEditor` and in `PaperJSEditor`. -/
theorem selection_matches_calls (calls : List SelectionCall) :
    (∀ s : Editor, s.selectedItems = [] → (∀ i, (s.project.objects i).selected = false) →
      (∀ i, i ∈ (s.runSelection calls).selectedItems ↔ lastCallSelects calls i = true) ∧
      (s.runSelection calls).selectedItems.Nodup ∧
      (∀ i, ((s.runSelection calls).project.objects i).selected = true ↔
        i ∈ (s.runSelection calls).selectedItems)) ∧
    (∀ s : PaperJSEditor, s.selectedItems = [] → (∀ i, (s.project.objects i).selected = false) →
      (∀ i, i ∈ (s.runSelection calls).selectedItems ↔ lastCallSelects calls i = true) ∧
      (s.runSelection calls).selectedItems.Nodup ∧
      (∀ i, ((s.runSelection calls).project.objects i).selected = true ↔
        i ∈ (s.runSelection calls).selectedItems)) := by
  constructor
  · intro s hs hf
    have h0 : SelectionInv s.project s.selectedItems (fun _ => false) := by
      refine ⟨by simp [hs], ?_, ?_⟩ <;> intro i <;> simp [hs, hf i]
    obtain ⟨hn, hfl, hb⟩ := Editor.runSelection_inv calls s _ h0
    exact ⟨hb, hn, hfl⟩
  · intro s hs hf
    have h0 : SelectionInv s.project s.selectedItems (fun _ => false) := by
      refine ⟨by simp [hs], ?_, ?_⟩ <;> intro i <;> simp [hs, hf i]
    obtain ⟨hn, hfl, hb⟩ := PaperJSEditor.runSelection_inv_basic calls s _ h0
    exact ⟨hb, hn, hfl⟩

/-- Witness for C10: select 0, select 1, select 0 again, deselect 1, on both editors
over the demo project; the selection ends as `[0]`. -/
theorem selection_matches_calls_witness :
    (((Editor.constructed demoProject).runSelection
        [.selectItem 0, .selectItem 1, .selectItem 0, .deselectItem 1]).selectedItems = [0] ∧
      lastCallSelects [.selectItem 0, .selectItem 1, .selectItem 0, .deselectItem 1] 0 = true ∧
      lastCallSelects [.selectItem 0, .selectItem 1, .selectItem 0, .deselectItem 1] 1 = false) ∧
    (∀ i, i ∈ ((Editor.constructed demoProject).runSelection
        [.selectItem 0, .selectItem 1, .selectItem 0, .deselectItem 1]).selectedItems ↔
      lastCallSelects [.selectItem 0, .selectItem 1, .selectItem 0, .deselectItem 1] i = true) ∧
    (∀ i, i ∈ ((PaperJSEditor.constructed demoProject).runSelection
        [.selectItem 0, .selectItem 1, .selectItem 0, .deselectItem 1]).selectedItems ↔
      lastCallSelects [.selectItem 0, .selectItem 1, .selectItem 0, .deselectItem 1] i = true) :=
  ⟨by decide,
   ((selection_matches_calls [.selectItem 0, .selectItem 1, .selectItem 0, .deselectItem 1]).1
      (Editor.constructed demoProject) rfl
      (fun i => by unfold Editor.constructed demoProject; dsimp only; split <;> rfl)).1,
   ((selection_matches_calls [.selectItem 0, .selectItem 1, .selectItem 0, .deselectItem 1]).2
      (PaperJSEditor.constructed demoProject) rfl
      (fun i => by unfold PaperJSEditor.constructed demoProject; dsimp only; split <;> rfl)).1⟩

/-! ## Claims about `selectAll` and `deleteSelected` -/

theorem foldl_modify_children (f : Item → Item) (l : List Nat) :
    ∀ p : Project, (l.foldl (fun q i => q.modify i f) p).children = p.children := by
  induction l with
  | nil => intro p; rfl
  | cons x rest ih => intro p; rw [List.foldl_cons, ih]; rfl

theorem foldl_modify_objects (f : Item → Item) (hf : ∀ x, f (f x) = f x) (l : List Nat) :
    ∀ (p : Project) (j : Nat),
      (l.foldl (fun q i => q.modify i f) p).objects j
        = if j ∈ l then f (p.objects j) else p.objects j := by
  induction l with
  | nil => intro p j; simp
  | cons x rest ih =>
    intro p j
    rw [List.foldl_cons, ih, modify_objects]
    by_cases hx : j = x
    · subst hx
      simp [hf]
    · by_cases hr : j ∈ rest
      · simp [hx, hr]
      · simp [hx, hr]

namespace Editor

theorem clearSelection_objects (s : Editor) (j : Nat) :
    (s.clearSelection.project.objects j)
      = if j ∈ s.selectedItems then { s.project.objects j with selected := false }
        else s.project.objects j :=
  foldl_modify_objects (fun it => { it with selected := false }) (fun _ => rfl)
    s.selectedItems s.project j

theorem clearSelection_children (s : Editor) :
    s.clearSelection.project.children = s.project.children :=
  foldl_modify_children _ s.selectedItems s.project

theorem selectItem_name (s : Editor) (x j : Nat) :
    ((s.selectItem x).project.objects j).name = (s.project.objects j).name := by
  unfold selectItem
  split
  · simp only [modify_objects]
    split
    · next h => subst h; rfl
    · rfl
  · rfl

theorem selectItem_flag (s : Editor) (x j : Nat) :
    ((s.selectItem x).project.objects j).selected
      = (decide (j = x) || (s.project.objects j).selected) := by
  unfold selectItem
  split
  · simp only [modify_objects]
    split
    · next h => subst h; simp
    · next h => simp [h]
  · next h =>
    by_cases hj : j = x
    · subst hj; simpa using h
    · simp [hj]

theorem selectItem_children (s : Editor) (x : Nat) :
    (s.selectItem x).project.children = s.project.children := by
  unfold selectItem
  split <;> rfl

theorem selectItem_selectedItems (s : Editor) (x : Nat) :
    (s.selectItem x).selectedItems
      = if (s.project.objects x).selected then s.selectedItems else s.selectedItems ++ [x] := by
  unfold selectItem
  by_cases h : (s.project.objects x).selected = true
  · simp [h]
  · simp [h]

theorem selectAll_fold (l : List Nat) :
    ∀ t : Editor,
      (∀ j, ((l.foldl (fun st i =>
          if (st.project.objects i).name ≠ some "grid" then st.selectItem i else st) t).project.objects j).name
        = (t.project.objects j).name) ∧
      (∀ j, ((l.foldl (fun st i =>
          if (st.project.objects i).name ≠ some "grid" then st.selectItem i else st) t).project.objects j).selected
        = (decide (j ∈ l ∧ (t.project.objects j).name ≠ some "grid")
            || (t.project.objects j).selected)) ∧
      (l.foldl (fun st i =>
          if (st.project.objects i).name ≠ some "grid" then st.selectItem i else st) t).project.children
        = t.project.children ∧
      (l.Nodup → (∀ i ∈ l, (t.project.objects i).selected = false) →
        (l.foldl (fun st i =>
          if (st.project.objects i).name ≠ some "grid" then st.selectItem i else st) t).selectedItems
        = t.selectedItems
          ++ l.filter (fun i => decide ((t.project.objects i).name ≠ some "grid"))) := by
  induction l with
  | nil => intro t; simp
  | cons x rest ih =>
    intro t
    rw [List.foldl_cons]
    obtain ⟨h1, h2, h3, h4⟩ :=
      ih (if (t.project.objects x).name ≠ some "grid" then t.selectItem x else t)
    have hnm : ∀ j, ((if (t.project.objects x).name ≠ some "grid" then t.selectItem x
        else t).project.objects j).name = (t.project.objects j).name := by
      intro j
      split
      · exact selectItem_name t x j
      · rfl
    have hfl : ∀ j, ((if (t.project.objects x).name ≠ some "grid" then t.selectItem x
        else t).project.objects j).selected
          = (decide (j = x ∧ (t.project.objects x).name ≠ some "grid")
              || (t.project.objects j).selected) := by
      intro j
      split
      · next h => rw [selectItem_flag]; simp [h]
      · next h => simp [h]
    refine ⟨?_, ?_, ?_, ?_⟩
    · intro j
      rw [h1, hnm]
    · intro j
      rw [h2, hnm, hfl]
      by_cases hj : j = x
      · subst hj
        by_cases hn : (t.project.objects j).name = some "grid" <;> simp [hn]
      · simp [hj]
    · rw [h3]
      split
      · exact selectItem_children t x
      · rfl
    · intro hn hf
      have hx : x ∉ rest := (List.nodup_cons.1 hn).1
      have hrest : rest.Nodup := (List.nodup_cons.1 hn).2
      have hfx : (t.project.objects x).selected = false := hf x (List.mem_cons_self _ _)
      rw [h4 hrest]
      · have hfilter : rest.filter (fun i => decide (((if (t.project.objects x).name ≠ some "grid"
              then t.selectItem x else t).project.objects i).name ≠ some "grid"))
            = rest.filter (fun i => decide ((t.project.objects i).name ≠ some "grid")) := by
          apply List.filter_congr
          intro i _
          rw [hnm]
        rw [hfilter]
        by_cases hname : (t.project.objects x).name = some "grid"
        · simp [hname, List.filter_cons]
        · simp [hname, List.filter_cons, selectItem_selectedItems, hfx]
      · intro i hi
        have hix : i ≠ x := fun h => hx (h ▸ hi)
        rw [hfl]
        simp [hix, hf i (List.mem_cons_of_mem _ hi)]

end Editor

theorem foldl_remove_children (l : List Nat) :
    ∀ p : Project, (l.foldl (fun q i => q.remove i) p).children
      = p.children.filter (fun i => decide (i ∉ l)) := by
  induction l with
  | nil => intro p; simp
  | cons x rest ih =>
    intro p
    rw [List.foldl_cons, ih]
    simp only [Project.remove, List.filter_filter]
    apply List.filter_congr
    intro i _
    by_cases hx : i = x
    · simp [hx]
    · by_cases hr : i ∈ rest <;> simp [hx, hr]

namespace Editor

theorem selectAll_fold_subset (l : List Nat) :
    ∀ (t : Editor) (j : Nat),
      j ∈ (l.foldl (fun st i =>
          if (st.project.objects i).name ≠ some "grid" then st.selectItem i else st) t).selectedItems →
      j ∈ t.selectedItems ∨ j ∈ l := by
  induction l with
  | nil => intro t j h; exact Or.inl h
  | cons x rest ih =>
    intro t j h
    rw [List.foldl_cons] at h
    rcases ih _ j h with h1 | h1
    · split at h1
      · rw [selectItem_selectedItems] at h1
        split at h1
        · exact Or.inl h1
        · rcases List.mem_append.1 h1 with h2 | h2
          · exact Or.inl h2
          · exact Or.inr (by simp [List.mem_singleton.1 h2])
      · exact Or.inl h1
    · exact Or.inr (List.mem_cons_of_mem _ h1)

theorem selectAll_subset_children (s : Editor) (j : Nat) (h : j ∈ s.selectAll.selectedItems) :
    j ∈ s.project.children := by
  unfold selectAll at h
  rcases selectAll_fold_subset _ _ j h with h1 | h1
  · simp [clearSelection] at h1
  · rwa [clearSelection_children] at h1

end Editor

namespace PaperJSEditor

theorem clearSelection_children_basic (s : PaperJSEditor) :
    s.clearSelection.project.children = s.project.children :=
  foldl_modify_children _ s.selectedItems s.project

theorem selectItem_selectedItems_basic (s : PaperJSEditor) (x : Nat) :
    (s.selectItem x).selectedItems
      = if (s.project.objects x).selected then s.selectedItems else s.selectedItems ++ [x] := by
  unfold selectItem
  by_cases h : (s.project.objects x).selected = true
  · simp [h]
  · simp [h]

theorem selectAll_fold_subset_basic (l : List Nat) :
    ∀ (t : PaperJSEditor) (j : Nat),
      j ∈ (l.foldl (fun st i =>
          if (st.project.objects i).className ≠ "Group" then st.selectItem i else st) t).selectedItems →
      j ∈ t.selectedItems ∨ j ∈ l := by
  induction l with
  | nil => intro t j h; exact Or.inl h
  | cons x rest ih =>
    intro t j h
    rw [List.foldl_cons] at h
    rcases ih _ j h with h1 | h1
    · split at h1
      · rw [selectItem_selectedItems_basic] at h1
        split at h1
        · exact Or.inl h1
        · rcases List.mem_append.1 h1 with h2 | h2
          · exact Or.inl h2
          · exact Or.inr (by simp [List.mem_singleton.1 h2])
      · exact Or.inl h1
    · exact Or.inr (List.mem_cons_of_mem _ h1)

theorem selectAll_subset_children_basic (s : PaperJSEditor) (j : Nat)
    (h : j ∈ s.selectAll.selectedItems) : j ∈ s.project.children := by
  unfold selectAll at h
  rcases selectAll_fold_subset_basic _ _ j h with h1 | h1
  · simp [clearSelection] at h1
  · rwa [clearSelection_children_basic] at h1

end PaperJSEditor

/-- Claim C11: for every state in which an item's `selected` flag is set only if
the item is in `selectedItems` (the children of the layer being distinct items),
after `selectAll()` the list `selectedItems` consists of exactly the top-level
children of the active layer whose name is not `grid`, each exactly once and in
layer order; every one of them has its `selected` flag set, and no item named
`grid` is selected. -/
theorem selectAll_selects_layer (s : Editor)
    (hflag : ∀ i, (s.project.objects i).selected = true → i ∈ s.selectedItems)
    (hnodup : s.project.children.Nodup) :
    s.selectAll.selectedItems
      = s.project.children.filter (fun i => decide ((s.project.objects i).name ≠ some "grid")) ∧
    s.selectAll.selectedItems.Nodup ∧
    s.selectAll.project.children = s.project.children ∧
    (∀ i ∈ s.selectAll.selectedItems, (s.selectAll.project.objects i).selected = true) ∧
    (∀ i, (s.selectAll.project.objects i).name = some "grid" →
      (s.selectAll.project.objects i).selected = false ∧ i ∉ s.selectAll.selectedItems) := by
  have hclear : ∀ j, (s.clearSelection.project.objects j).selected = false := by
    intro j
    rw [Editor.clearSelection_objects]
    split
    · rfl
    · next h =>
      cases hs : (s.project.objects j).selected with
      | false => rfl
      | true => exact absurd (hflag j hs) h
  have hcname : ∀ j, (s.clearSelection.project.objects j).name = (s.project.objects j).name := by
    intro j
    rw [Editor.clearSelection_objects]
    split <;> rfl
  obtain ⟨h1, h2, h3, h4⟩ := Editor.selectAll_fold s.clearSelection.project.children s.clearSelection
  have hsel : s.selectAll.selectedItems
      = s.project.children.filter (fun i => decide ((s.project.objects i).name ≠ some "grid")) := by
    have h := h4 (by rw [Editor.clearSelection_children]; exact hnodup) (fun i _ => hclear i)
    have hnil : s.clearSelection.selectedItems = [] := rfl
    unfold Editor.selectAll
    rw [h, Editor.clearSelection_children, hnil, List.nil_append]
    apply List.filter_congr
    intro i _
    simp only [hcname]
  have hname : ∀ j, (s.selectAll.project.objects j).name = (s.project.objects j).name := by
    intro j
    unfold Editor.selectAll
    rw [h1, hcname]
  have hfl : ∀ j, (s.selectAll.project.objects j).selected
      = decide (j ∈ s.project.children ∧ (s.project.objects j).name ≠ some "grid") := by
    intro j
    unfold Editor.selectAll
    rw [h2, hclear, hcname, Editor.clearSelection_children]
    simp
  refine ⟨hsel, ?_, ?_, ?_, ?_⟩
  · rw [hsel]
    exact hnodup.filter _
  · unfold Editor.selectAll
    rw [h3, Editor.clearSelection_children]
  · intro i hi
    rw [hsel, List.mem_filter] at hi
    rw [hfl]
    simpa using hi
  · intro i hi
    rw [hname] at hi
    constructor
    · rw [hfl]
      simp [hi]
    · rw [hsel, List.mem_filter]
      simp [hi]

/-- Witness for C11: the demo scene with its grid, nothing selected before. -/
theorem selectAll_selects_layer_witness :
    (Editor.constructed demoGridProject).selectAll.selectedItems = [0] ∧
    (Editor.constructed demoGridProject).selectAll.selectedItems.Nodup ∧
    (Editor.constructed demoGridProject).selectAll.project.children = [1, 0] :=
  have h := selectAll_selects_layer (Editor.constructed demoGridProject)
    (by
      intro i hi
      simp only [Editor.constructed, demoGridProject] at hi
      split at hi
      · simp [demoRect, Item.blank] at hi
      · split at hi <;> simp [Item.blank] at hi)
    (by decide)
  ⟨by rw [h.1]; decide, h.2.1, h.2.2.1⟩

/-- Claim C12: after `deleteSelected()` every previously selected item is gone
from the scene, every other item is still in the scene (in its place), and
`selectedItems` is empty; a `selectAll()` issued right after yields a selection
that contains none of the deleted items. Likewise for `deleteSelectedItems()` and
`selectAll()` of `PaperJSEditor`. -/
theorem deleteSelected_then_selectAll (s : Editor) (t : PaperJSEditor) :
    (s.deleteSelected.project.children
        = s.project.children.filter (fun i => decide (i ∉ s.selectedItems)) ∧
     (∀ i ∈ s.selectedItems, i ∉ s.deleteSelected.project.children) ∧
     (∀ i ∈ s.project.children, i ∉ s.selectedItems → i ∈ s.deleteSelected.project.children) ∧
     s.deleteSelected.selectedItems = [] ∧
     (∀ i ∈ s.selectedItems, i ∉ s.deleteSelected.selectAll.selectedItems)) ∧
    (t.deleteSelectedItems.project.children
        = t.project.children.filter (fun i => decide (i ∉ t.selectedItems)) ∧
     (∀ i ∈ t.selectedItems, i ∉ t.deleteSelectedItems.project.children) ∧
     (∀ i ∈ t.project.children, i ∉ t.selectedItems →
        i ∈ t.deleteSelectedItems.project.children) ∧
     t.deleteSelectedItems.selectedItems = [] ∧
     (∀ i ∈ t.selectedItems, i ∉ t.deleteSelectedItems.selectAll.selectedItems)) := by
  have hs : s.deleteSelected.project.children
      = s.project.children.filter (fun i => decide (i ∉ s.selectedItems)) :=
    foldl_remove_children s.selectedItems s.project
  have ht : t.deleteSelectedItems.project.children
      = t.project.children.filter (fun i => decide (i ∉ t.selectedItems)) :=
    foldl_remove_children t.selectedItems t.project
  have hs1 : ∀ i ∈ s.selectedItems, i ∉ s.deleteSelected.project.children := by
    intro i hi hc
    rw [hs, List.mem_filter] at hc
    simp [hi] at hc
  have ht1 : ∀ i ∈ t.selectedItems, i ∉ t.deleteSelectedItems.project.children := by
    intro i hi hc
    rw [ht, List.mem_filter] at hc
    simp [hi] at hc
  refine ⟨⟨hs, hs1, ?_, rfl, ?_⟩, ⟨ht, ht1, ?_, rfl, ?_⟩⟩
  · intro i hi hn
    rw [hs, List.mem_filter]
    exact ⟨hi, by simpa using hn⟩
  · intro i hi hsel
    exact hs1 i hi (Editor.selectAll_subset_children _ i hsel)
  · intro i hi hn
    rw [ht, List.mem_filter]
    exact ⟨hi, by simpa using hn⟩
  · intro i hi hsel
    exact ht1 i hi (PaperJSEditor.selectAll_subset_children_basic _ i hsel)

/-! ## Claims about pointer-driven selection and the eyedropper -/

/-- Claim C13, evaluated at the failing input: after selecting the rectangle with
the select tool, switching to the eraser and clicking the rectangle, the
rectangle is gone from the scene and still in `selectedItems`; likewise after
selecting it and calling `undo()`, the selected object is not in the restored scene. -/
theorem erased_item_stays_selected :
    demoClicked.selectedItems = [0] ∧ demoClicked.project.children = [0] ∧
    (Editor.handleMouseDown demoValid (demoClicked.setTool "eraser")
      (demoClick (some 0) false)).state.project.children = [] ∧
    (Editor.handleMouseDown demoValid (demoClicked.setTool "eraser")
      (demoClick (some 0) false)).state.selectedItems = [0] ∧
    demoClicked.undo.project.children = [1] ∧
    demoClicked.undo.selectedItems = [0] := by
  decide

/-- Counterexample for C14: in the state reached by selecting the rectangle,
clicking beside it and `undo()`, the restored rectangle (object `1`) is a
selectable item of the scene that is not in `selectedItems` but carries the
`selected` flag; a shift-click on it leaves it out of `selectedItems`, and a
click without shift leaves the selection empty instead of holding the hit item. -/
theorem handleSelection_flag_mismatch :
    demoRestored.project.children = [1] ∧
    (demoRestored.project.objects 1).name ≠ some "grid" ∧
    (demoRestored.project.objects 1).selected = true ∧
    demoRestored.selectedItems = [] ∧
    (demoRestored.handleSelection (demoClick (some 1) true)).selectedItems = [] ∧
    (demoRestored.handleSelection (demoClick (some 1) false)).selectedItems = [] := by
  decide

namespace Editor

theorem handleSelection_shift_hit (s : Editor) (event : ToolEvent) (x : Nat)
    (hn : s.selectedItems.Nodup)
    (hf : (s.project.objects x).selected = true ↔ x ∈ s.selectedItems)
    (hshift : event.shift = true) (hhit : event.hit = some x)
    (hname : (s.project.objects x).name ≠ some "grid") :
    (x ∈ (s.handleSelection event).selectedItems ↔ x ∉ s.selectedItems) ∧
    (∀ j, j ≠ x → (j ∈ (s.handleSelection event).selectedItems ↔ j ∈ s.selectedItems)) := by
  unfold handleSelection
  simp only [hshift, hhit, Bool.not_true, Bool.false_eq_true, if_false, Bool.true_and]
  rw [if_pos hname]
  by_cases hx : (s.project.objects x).selected = true
  · have hmem : x ∈ s.selectedItems := hf.1 hx
    rw [if_pos hx]
    unfold deselectItem
    rw [if_pos hx]
    refine ⟨?_, ?_⟩
    · simp [hn.mem_erase_iff, hmem]
    · intro j hj
      simp [hn.mem_erase_iff, hj]
  · have hmem : x ∉ s.selectedItems := fun h => hx (hf.2 h)
    rw [if_neg hx]
    rw [selectItem_selectedItems]
    simp only [Bool.not_eq_true] at hx
    simp only [hx, Bool.false_eq_true, if_false, List.mem_append, List.mem_singleton]
    refine ⟨by simp [hmem], ?_⟩
    intro j hj
    simp [hj]

theorem handleSelection_shift_miss (s : Editor) (event : ToolEvent)
    (hshift : event.shift = true) (hhit : event.hit = none) :
    (s.handleSelection event).selectedItems = s.selectedItems := by
  unfold handleSelection
  simp [hshift, hhit]

theorem handleSelection_plain (s : Editor) (event : ToolEvent)
    (hf : ∀ i, (s.project.objects i).selected = true → i ∈ s.selectedItems)
    (hshift : event.shift = false) :
    (s.handleSelection event).selectedItems
      = match event.hit with
        | some x => if (s.project.objects x).name ≠ some "grid" then [x] else []
        | none => [] := by
  have hclear : ∀ j, (s.clearSelection.project.objects j).selected = false := by
    intro j
    rw [clearSelection_objects]
    split
    · rfl
    · next h =>
      cases hs : (s.project.objects j).selected with
      | false => rfl
      | true => exact absurd (hf j hs) h
  have hcname : ∀ j, (s.clearSelection.project.objects j).name = (s.project.objects j).name := by
    intro j
    rw [clearSelection_objects]
    split <;> rfl
  have hnil : s.clearSelection.selectedItems = [] := rfl
  unfold handleSelection
  simp only [hshift, Bool.not_false, if_true, Bool.false_and, Bool.false_eq_true, if_false]
  cases event.hit with
  | none => exact hnil
  | some x =>
    simp only [hcname]
    split
    · rw [selectItem_selectedItems, hclear, hnil]
      rfl
    · exact hnil

end Editor

namespace PaperJSEditor

theorem clearSelection_objects_basic (s : PaperJSEditor) (j : Nat) :
    (s.clearSelection.project.objects j)
      = if j ∈ s.selectedItems then { s.project.objects j with selected := false }
        else s.project.objects j :=
  foldl_modify_objects (fun it => { it with selected := false }) (fun _ => rfl)
    s.selectedItems s.project j

theorem handleSelection_shift_hit_basic (s : PaperJSEditor) (event : ToolEvent) (x : Nat)
    (hn : s.selectedItems.Nodup)
    (hf : (s.project.objects x).selected = true ↔ x ∈ s.selectedItems)
    (hshift : event.shift = true) (hhit : event.hit = some x) :
    (x ∈ (s.handleSelection event).selectedItems ↔ x ∉ s.selectedItems) ∧
    (∀ j, j ≠ x → (j ∈ (s.handleSelection event).selectedItems ↔ j ∈ s.selectedItems)) := by
  unfold handleSelection
  simp only [hshift, hhit, Bool.not_true, Bool.false_eq_true, if_false, Bool.true_and]
  by_cases hx : (s.project.objects x).selected = true
  · have hmem : x ∈ s.selectedItems := hf.1 hx
    rw [if_pos hx]
    unfold deselectItem
    rw [if_pos hx]
    refine ⟨?_, ?_⟩
    · simp [hn.mem_erase_iff, hmem]
    · intro j hj
      simp [hn.mem_erase_iff, hj]
  · have hmem : x ∉ s.selectedItems := fun h => hx (hf.2 h)
    rw [if_neg hx]
    rw [selectItem_selectedItems_basic]
    simp only [Bool.not_eq_true] at hx
    simp only [hx, Bool.false_eq_true, if_false, List.mem_append, List.mem_singleton]
    refine ⟨by simp [hmem], ?_⟩
    intro j hj
    simp [hj]

theorem handleSelection_shift_miss_basic (s : PaperJSEditor) (event : ToolEvent)
    (hshift : event.shift = true) (hhit : event.hit = none) :
    (s.handleSelection event).selectedItems = s.selectedItems := by
  unfold handleSelection
  simp [hshift, hhit]

theorem handleSelection_plain_basic (s : PaperJSEditor) (event : ToolEvent)
    (hf : ∀ i, (s.project.objects i).selected = true → i ∈ s.selectedItems)
    (hshift : event.shift = false) :
    (s.handleSelection event).selectedItems
      = match event.hit with
        | some x => [x]
        | none => [] := by
  have hclear : ∀ j, (s.clearSelection.project.objects j).selected = false := by
    intro j
    rw [clearSelection_objects_basic]
    split
    · rfl
    · next h =>
      cases hs : (s.project.objects j).selected with
      | false => rfl
      | true => exact absurd (hf j hs) h
  have hnil : s.clearSelection.selectedItems = [] := rfl
  unfold handleSelection
  simp only [hshift, Bool.not_false, if_true, Bool.false_and, Bool.false_eq_true, if_false]
  cases event.hit with
  | none => exact hnil
  | some x =>
    simp only []
    rw [selectItem_selectedItems_basic, hclear, hnil]
    rfl

end PaperJSEditor

/-- Claim C14 as amended: in a state where `selectedItems` has no repetition and
an item's `selected` flag is set exactly when the item is in `selectedItems`,
`handleSelection` for a shift-qualified click that hits a selectable item toggles
that item's membership in `selectedItems` and leaves the membership of every other
item unchanged; a shift-qualified click that hits nothing leaves the selection
unchanged; a click without shift replaces the selection, which afterwards is
exactly the hit item when a selectable item is hit, and empty when nothing (or,
in `ProfessionalPaperEditor`, the item named `grid`) is hit. In `PaperJSEditor`
every hit item is selectable. -/
theorem handleSelection_consistent (s : Editor) (t : PaperJSEditor) (event : ToolEvent)
    (hsn : s.selectedItems.Nodup)
    (hsf : ∀ i, (s.project.objects i).selected = true ↔ i ∈ s.selectedItems)
    (htn : t.selectedItems.Nodup)
    (htf : ∀ i, (t.project.objects i).selected = true ↔ i ∈ t.selectedItems) :
    (∀ x, event.shift = true → event.hit = some x →
      (s.project.objects x).name ≠ some "grid" →
        (x ∈ (s.handleSelection event).selectedItems ↔ x ∉ s.selectedItems) ∧
        (∀ j, j ≠ x → (j ∈ (s.handleSelection event).selectedItems ↔ j ∈ s.selectedItems))) ∧
    (event.shift = true → event.hit = none →
      (s.handleSelection event).selectedItems = s.selectedItems) ∧
    (∀ x, event.shift = false → event.hit = some x →
      (s.project.objects x).name ≠ some "grid" →
        (s.handleSelection event).selectedItems = [x]) ∧
    (∀ x, event.shift = false → event.hit = some x →
      (s.project.objects x).name = some "grid" →
        (s.handleSelection event).selectedItems = []) ∧
    (event.shift = false → event.hit = none → (s.handleSelection event).selectedItems = []) ∧
    (∀ x, event.shift = true → event.hit = some x →
        (x ∈ (t.handleSelection event).selectedItems ↔ x ∉ t.selectedItems) ∧
        (∀ j, j ≠ x → (j ∈ (t.handleSelection event).selectedItems ↔ j ∈ t.selectedItems))) ∧
    (event.shift = true → event.hit = none →
      (t.handleSelection event).selectedItems = t.selectedItems) ∧
    (∀ x, event.shift = false → event.hit = some x →
      (t.handleSelection event).selectedItems = [x]) ∧
    (event.shift = false → event.hit = none → (t.handleSelection event).selectedItems = []) := by
  refine ⟨?_, ?_, ?_, ?_, ?_, ?_, ?_, ?_, ?_⟩
  · intro x h1 h2 h3
    exact Editor.handleSelection_shift_hit s event x hsn (hsf x) h1 h2 h3
  · intro h1 h2
    exact Editor.handleSelection_shift_miss s event h1 h2
  · intro x h1 h2 h3
    rw [Editor.handleSelection_plain s event (fun i => (hsf i).1) h1, h2]
    simp [h3]
  · intro x h1 h2 h3
    rw [Editor.handleSelection_plain s event (fun i => (hsf i).1) h1, h2]
    simp [h3]
  · intro h1 h2
    rw [Editor.handleSelection_plain s event (fun i => (hsf i).1) h1, h2]
  · intro x h1 h2
    exact PaperJSEditor.handleSelection_shift_hit_basic t event x htn (htf x) h1 h2
  · intro h1 h2
    exact PaperJSEditor.handleSelection_shift_miss_basic t event h1 h2
  · intro x h1 h2
    rw [PaperJSEditor.handleSelection_plain_basic t event (fun i => (htf i).1) h1, h2]
  · intro h1 h2
    rw [PaperJSEditor.handleSelection_plain_basic t event (fun i => (htf i).1) h1, h2]

theorem demoProject_unselected (i : Nat) : (demoProject.objects i).selected = false := by
  unfold demoProject
  dsimp only
  split <;> rfl

/-- Witness for C14: a shift-click on the unselected rectangle of the demo scene. -/
theorem handleSelection_consistent_witness :
    ((Editor.constructed demoProject).handleSelection (demoClick (some 0) true)).selectedItems
      = [0] ∧
    (0 ∈ ((Editor.constructed demoProject).handleSelection
        (demoClick (some 0) true)).selectedItems ↔
      0 ∉ (Editor.constructed demoProject).selectedItems) ∧
    ((PaperJSEditor.constructed demoProject).handleSelection
        (demoClick (some 0) false)).selectedItems = [0] :=
  have h := handleSelection_consistent (Editor.constructed demoProject)
    (PaperJSEditor.constructed demoProject) (demoClick (some 0) true)
    List.nodup_nil
    (fun i => by
      have := demoProject_unselected i
      simp [Editor.constructed, this])
    List.nodup_nil
    (fun i => by
      have := demoProject_unselected i
      simp [PaperJSEditor.constructed, this])
  ⟨by decide, (h.1 0 rfl rfl (by decide)).1, by decide⟩

/-- Claim C15: in each eyedropper handler, when the hit item has a stroke colour
and no fill colour, the colour reported to the host is the hex form of the item's
stroke colour: `pickColor` and `handleColorPicker` (whose test `if (pickedColor)`
passes for every hex text, which is never empty) report exactly it, and
`tools.picker.onMouseDown` reports exactly it when the bridge is installed and
reports nothing otherwise. -/
theorem eyedropper_reports_stroke (s : Editor) (t : PaperJSEditor) (u : ProEditor)
    (event : ToolEvent) (i : Nat) (c : Color) (hhit : event.hit = some i) :
    ((s.project.objects i).fillColor = none → (s.project.objects i).strokeColor = some c →
      (s.pickColor event).colorPicked = s.colorPicked ++ [some c.toCSS]) ∧
    ((t.project.objects i).fillColor = none → (t.project.objects i).strokeColor = some c →
      c.toCSS ≠ "" →
      (t.handleColorPicker event).colorPicked = t.colorPicked ++ [c.toCSS]) ∧
    ((u.project.objects i).fillColor = none → (u.project.objects i).strokeColor = some c →
      (u.pickerOnMouseDown event).colorPicked
        = if u.bridge then u.colorPicked ++ [c.toCSS] else u.colorPicked) := by
  refine ⟨?_, ?_, ?_⟩
  · intro hfill hstroke
    unfold Editor.pickColor
    simp [hhit, hfill, hstroke]
  · intro hfill hstroke hne
    unfold PaperJSEditor.handleColorPicker
    simp [hhit, hfill, hstroke, hne]
  · intro hfill hstroke
    unfold ProEditor.pickerOnMouseDown
    simp only [hhit, hfill, hstroke]
    split <;> rfl

/-- Witness for C15: the demo rectangle with its fill removed, so that only the
stroke `#333333` is left. -/
theorem eyedropper_reports_stroke_witness :
    (Editor.pickColor
      { Editor.constructed demoProject with
        project := demoProject.modify 0 (fun it => { it with fillColor := none }) }
      (demoClick (some 0) false)).colorPicked = [some "#333333"] ∧
    (PaperJSEditor.handleColorPicker
      { PaperJSEditor.constructed demoProject with
        project := demoProject.modify 0 (fun it => { it with fillColor := none }) }
      (demoClick (some 0) false)).colorPicked = ([] : List String) ++ ["#333333"] :=
  have h := eyedropper_reports_stroke
    { Editor.constructed demoProject with
      project := demoProject.modify 0 (fun it => { it with fillColor := none }) }
    { PaperJSEditor.constructed demoProject with
      project := demoProject.modify 0 (fun it => { it with fillColor := none }) }
    { appState := { currentColor := ⟨"#000000", 1⟩, currentStrokeWidth := .number 2,
                    currentMode := none },
      project := demoProject.modify 0 (fun it => { it with fillColor := none }),
      activeTool := none, bridge := true, selectionChanged := [], colorPicked := [] }
    (demoClick (some 0) false) 0 ⟨"#333333", 1⟩ rfl
  ⟨h.1 (by decide) (by decide), h.2.1 (by decide) (by decide) (by decide)⟩

/-- Claim C16, evaluated at the failing input: `pickColor` on the rectangle with
fill `#e0e0e0` and stroke `#333333` passes `#333333`, the stroke colour, to
`notifyColorPicked`; whenever the hit item has both colours the second `if`
overwrites the picked fill colour with the stroke colour. -/
theorem pickColor_reports_stroke_over_fill :
    (demoProject.objects 0).fillColor = some ⟨"#e0e0e0", 1⟩ ∧
    (demoProject.objects 0).strokeColor = some ⟨"#333333", 1⟩ ∧
    (Editor.pickColor { Editor.constructed demoProject with currentTool := "eyedropper" }
      (demoClick (some 0) false)).colorPicked = [some "#333333"] ∧
    (Editor.handleMouseDown demoValid
      { Editor.constructed demoProject with currentTool := "eyedropper" }
      (demoClick (some 0) false)).state.colorPicked = [some "#333333"] ∧
    (∀ (s : Editor) (event : ToolEvent) (i : Nat) (f c : Color), event.hit = some i →
      (s.project.objects i).fillColor = some f → (s.project.objects i).strokeColor = some c →
      (s.pickColor event).colorPicked = s.colorPicked ++ [some c.toCSS]) := by
  refine ⟨by decide, by decide, by decide, by decide, ?_⟩
  intro s event i f c hhit hfill hstroke
  unfold Editor.pickColor
  simp [hhit, hfill, hstroke]

/-! ## Claims about the notifications of the pro editor -/

namespace ProEditor

theorem notify_selectionChanged (showNumber : Rat → String) (u : ProEditor) :
    (notifyPythonOfSelectionChange showNumber u).selectionChanged
      = (if u.bridge then
          u.selectionChanged ++ [jsonStringify showNumber (selectionProperties u.project)]
         else u.selectionChanged) ∧
    (notifyPythonOfSelectionChange showNumber u).project = u.project ∧
    (notifyPythonOfSelectionChange showNumber u).bridge = u.bridge := by
  unfold notifyPythonOfSelectionChange
  dsimp only
  split <;> simp_all

end ProEditor

/-- Counterexample for C17: without the host bridge (`window.pythonBridge` not
installed) a pointer-down of the select tool sends no notification, whether an
item is hit or not. -/
theorem select_pointer_down_without_bridge :
    (demoPro false).bridge = false ∧
    (ProEditor.selectOnMouseDown demoShowNumber (demoPro false)
      (demoClick (some 0) false)).selectionChanged = [] ∧
    (ProEditor.selectOnMouseDown demoShowNumber (demoPro false)
      (demoClick none false)).selectionChanged = [] := by
  decide

/-- Claim C17 as amended: `notifyPythonOfSelectionChange` builds a JSON object
that is empty when no item is selected and otherwise carries only attributes of
the first selected item (`fillColor` and `strokeColor`, each present exactly
when the item has that colour, `strokeWidth` and `opacity`), independent of any
other selected item; every pointer-down of the select tool sends exactly one
such text when the host bridge is installed, and none when it is not, whether or
not an item is hit. -/
theorem select_pointer_down_notifies (showNumber : Rat → String) (u : ProEditor)
    (event : ToolEvent) :
    jsonStringify showNumber SelectionProperties.empty = "\x7b\x7d" ∧
    (∀ p : Project, p.selectedItems = [] →
      ProEditor.selectionProperties p = SelectionProperties.empty) ∧
    (∀ (p : Project) (firstItem : Nat) (others : List Nat),
      p.selectedItems = firstItem :: others →
      ProEditor.selectionProperties p = SelectionProperties.ofItem (p.objects firstItem)) ∧
    (∀ it : Item,
      ((SelectionProperties.ofItem it).fillColor = it.fillColor.map Color.toCSS) ∧
      ((SelectionProperties.ofItem it).strokeColor = it.strokeColor.map Color.toCSS) ∧
      ((SelectionProperties.ofItem it).fillColor.isSome = it.fillColor.isSome) ∧
      ((SelectionProperties.ofItem it).strokeColor.isSome = it.strokeColor.isSome) ∧
      ((SelectionProperties.ofItem it).strokeWidth = some it.strokeWidth) ∧
      ((SelectionProperties.ofItem it).opacity = some it.opacity)) ∧
    (ProEditor.selectOnMouseDown showNumber u event).selectionChanged
      = (if u.bridge then
          u.selectionChanged ++ [jsonStringify showNumber
            (ProEditor.selectionProperties
              (ProEditor.selectOnMouseDown showNumber u event).project)]
         else u.selectionChanged) := by
  refine ⟨rfl, ?_, ?_, ?_, ?_⟩
  · intro p hp
    unfold ProEditor.selectionProperties
    rw [hp]
  · intro p firstItem others hp
    unfold ProEditor.selectionProperties
    rw [hp]
  · intro it
    refine ⟨rfl, rfl, ?_, ?_, rfl, rfl⟩
    · cases h : it.fillColor <;> simp [SelectionProperties.ofItem, h]
    · cases h : it.strokeColor <;> simp [SelectionProperties.ofItem, h]
  · unfold ProEditor.selectOnMouseDown
    dsimp only
    cases event.hit with
    | none =>
      dsimp only
      rw [(ProEditor.notify_selectionChanged showNumber _).1,
        (ProEditor.notify_selectionChanged showNumber _).2.1]
    | some item =>
      dsimp only
      rw [(ProEditor.notify_selectionChanged showNumber _).1,
        (ProEditor.notify_selectionChanged showNumber _).2.1]

/-- Witness for C17: with the bridge installed, a click of the select tool on the
demo rectangle sends its four attributes, and a click beside it sends the empty object. -/
theorem select_pointer_down_notifies_witness :
    (ProEditor.selectOnMouseDown demoShowNumber (demoPro true)
      (demoClick (some 0) false)).selectionChanged
      = ["\x7b\"fillColor\":\"#e0e0e0\",\"strokeColor\":\"#333333\",\"strokeWidth\":1,\"opacity\":1\x7d"] ∧
    (ProEditor.selectOnMouseDown demoShowNumber (demoPro true)
      (demoClick none false)).selectionChanged = ["\x7b\x7d"] :=
  ⟨(select_pointer_down_notifies demoShowNumber (demoPro true)
      (demoClick (some 0) false)).2.2.2.2.trans (by decide),
   (select_pointer_down_notifies demoShowNumber (demoPro true)
      (demoClick none false)).2.2.2.2.trans (by decide)⟩

/-! ## Claims about colours and the style state -/

theorem colourByMode_idem (mode : String) (c : Color) (it : Item) :
    colourByMode mode c (colourByMode mode c it) = colourByMode mode c it := by
  unfold colourByMode
  by_cases h1 : mode = "fill"
  · simp [h1]
  · by_cases h2 : mode = "stroke"
    · simp [h2]
    · by_cases h3 : mode = "both"
      · simp [h3]
      · simp [h1, h2, h3]

theorem modify_self (p : Project) (i : Nat) (f : Item → Item) (h : f (p.objects i) = p.objects i) :
    p.modify i f = p := by
  unfold Project.modify Project.setItem
  rw [h, Function.update_eq_self]

namespace Editor

theorem applyColorToItem_valid (valid : String → Bool) (s : Editor) (item : Nat)
    (color : String) (mode : Option String) (hv : valid color = true) :
    s.applyColorToItem valid item color mode
      = { s with project := s.project.modify item (colourByMode (mode.getD "fill") ⟨color, 1⟩) } := by
  unfold applyColorToItem newColor
  simp only [hv, if_true]
  by_cases h1 : mode.getD "fill" = "fill"
  · have hf : colourByMode "fill" ⟨color, 1⟩
        = fun it => { it with fillColor := some ⟨color, 1⟩ } := by
      funext it; simp [colourByMode]
    simp [h1, hf]
  · by_cases h2 : mode.getD "fill" = "stroke"
    · have hf : colourByMode "stroke" ⟨color, 1⟩
          = fun it => { it with strokeColor := some ⟨color, 1⟩ } := by
        funext it; simp [colourByMode]
      simp [h2, hf]
    · by_cases h3 : mode.getD "fill" = "both"
      · have hf : colourByMode "both" ⟨color, 1⟩
            = fun it => { it with fillColor := some ⟨color, 1⟩,
                                  strokeColor := some ⟨color, 1⟩ } := by
          funext it; simp [colourByMode]
        simp [h3, hf]
      · have hid : s.project.modify item (colourByMode (mode.getD "fill") ⟨color, 1⟩)
            = s.project := modify_self _ _ _ (by simp [colourByMode, h1, h2, h3])
        rw [hid]
        simp [h1, h2, h3]

theorem applyColorToItem_invalid (valid : String → Bool) (s : Editor) (item : Nat)
    (color : String) (mode : Option String) (hv : valid color = false) :
    s.applyColorToItem valid item color mode = s := by
  unfold applyColorToItem newColor
  simp [hv]

theorem foldl_applyColorToItem (valid : String → Bool) (color : String) (mode : Option String)
    (hv : valid color = true) (l : List Nat) :
    ∀ s : Editor, l.foldl (fun st item => st.applyColorToItem valid item color mode) s
      = { s with project := l.foldl (fun p i => p.modify i (colourByMode (mode.getD "fill") ⟨color, 1⟩)) s.project } := by
  induction l with
  | nil => intro s; rfl
  | cons x rest ih =>
    intro s
    rw [List.foldl_cons, List.foldl_cons, applyColorToItem_valid valid s x color mode hv, ih]

end Editor

namespace PaperJSEditor

theorem applyColorToItem_valid_basic (valid : String → Bool) (s : PaperJSEditor) (item : Nat)
    (color : String) (mode : Option String) (hv : valid color = true) :
    s.applyColorToItem valid item color mode
      = { s with project := s.project.modify item (colourByMode (mode.getD "fill") ⟨color, 1⟩) } := by
  unfold applyColorToItem newColor
  simp only [hv, if_true]
  by_cases h1 : mode.getD "fill" = "fill"
  · have hf : colourByMode "fill" ⟨color, 1⟩
        = fun it => { it with fillColor := some ⟨color, 1⟩ } := by
      funext it; simp [colourByMode]
    simp [h1, hf]
  · by_cases h2 : mode.getD "fill" = "stroke"
    · have hf : colourByMode "stroke" ⟨color, 1⟩
          = fun it => { it with strokeColor := some ⟨color, 1⟩ } := by
        funext it; simp [colourByMode]
      simp [h2, hf]
    · by_cases h3 : mode.getD "fill" = "both"
      · have hf : colourByMode "both" ⟨color, 1⟩
            = fun it => { it with fillColor := some ⟨color, 1⟩,
                                  strokeColor := some ⟨color, 1⟩ } := by
          funext it; simp [colourByMode]
        simp [h3, hf]
      · have hid : s.project.modify item (colourByMode (mode.getD "fill") ⟨color, 1⟩)
            = s.project := modify_self _ _ _ (by simp [colourByMode, h1, h2, h3])
        rw [hid]
        simp [h1, h2, h3]

theorem applyColorToItem_invalid_basic (valid : String → Bool) (s : PaperJSEditor) (item : Nat)
    (color : String) (mode : Option String) (hv : valid color = false) :
    s.applyColorToItem valid item color mode = s := by
  unfold applyColorToItem newColor
  simp [hv]

theorem foldl_applyColorToItem_basic (valid : String → Bool) (color : String)
    (mode : Option String) (hv : valid color = true) (l : List Nat) :
    ∀ s : PaperJSEditor, l.foldl (fun st item => st.applyColorToItem valid item color mode) s
      = { s with project := l.foldl (fun p i => p.modify i (colourByMode (mode.getD "fill") ⟨color, 1⟩)) s.project } := by
  induction l with
  | nil => intro s; rfl
  | cons x rest ih =>
    intro s
    rw [List.foldl_cons, List.foldl_cons, applyColorToItem_valid_basic valid s x color mode hv, ih]

end PaperJSEditor

/-- Counterexample for C18: with the mode argument omitted (`undefined`), which is
none of `fill`, `stroke` and `both`, `applyColorToSelected('#ff0000')` sets the
fill colour of the selected rectangle, in both editors: the default `mode = 'fill'`
applies. -/
theorem applyColorToSelected_default_mode :
    (demoSelected.project.objects 0).fillColor = some ⟨"#e0e0e0", 1⟩ ∧
    ((demoSelected.applyColorToSelected demoValid "#ff0000" none).1.project.objects 0).fillColor
      = some ⟨"#ff0000", 1⟩ ∧
    ((PaperJSEditor.applyColorToSelected demoValid
        ((PaperJSEditor.constructed demoProject).selectItem 0) "#ff0000"
        none).1.project.objects 0).fillColor = some ⟨"#ff0000", 1⟩ := by
  decide

/-- Claim C18 as amended: `applyColorToSelected(color, mode)` with a valid colour
sets, on every selected item, the fill colour only when `mode` is `fill` or is
omitted (the default), the stroke colour only when `mode` is `stroke`, and both
when `mode` is `both`; the other colour attribute of the selected items and every
attribute of non-selected items are unchanged; any other mode value that is
given changes nothing; and the call returns true exactly when the selection is
non-empty. -/
theorem applyColorToSelected_frame (valid : String → Bool) (s : Editor) (t : PaperJSEditor)
    (color : String) (mode : Option String) (hv : valid color = true) :
    (∀ (c : Color) (it : Item),
      colourByMode "fill" c it = { it with fillColor := some c } ∧
      colourByMode "stroke" c it = { it with strokeColor := some c } ∧
      colourByMode "both" c it = { it with fillColor := some c, strokeColor := some c } ∧
      (∀ m, m ≠ "fill" → m ≠ "stroke" → m ≠ "both" → colourByMode m c it = it)) ∧
    ((s.applyColorToSelected valid color mode).2 = decide (s.selectedItems ≠ []) ∧
     (∀ j, (s.applyColorToSelected valid color mode).1.project.objects j
        = if j ∈ s.selectedItems
          then colourByMode (mode.getD "fill") ⟨color, 1⟩ (s.project.objects j)
          else s.project.objects j) ∧
     (s.applyColorToSelected valid color mode).1.project.children = s.project.children ∧
     (s.applyColorToSelected valid color mode).1.selectedItems = s.selectedItems) ∧
    ((t.applyColorToSelected valid color mode).2 = decide (t.selectedItems ≠ []) ∧
     (∀ j, (t.applyColorToSelected valid color mode).1.project.objects j
        = if j ∈ t.selectedItems
          then colourByMode (mode.getD "fill") ⟨color, 1⟩ (t.project.objects j)
          else t.project.objects j) ∧
     (t.applyColorToSelected valid color mode).1.project.children = t.project.children ∧
     (t.applyColorToSelected valid color mode).1.selectedItems = t.selectedItems) := by
  refine ⟨?_, ⟨?_, ?_, ?_, ?_⟩, ?_⟩
  · intro c it
    refine ⟨by simp [colourByMode], by simp [colourByMode], by simp [colourByMode], ?_⟩
    intro m h1 h2 h3
    simp [colourByMode, h1, h2, h3]
  · unfold Editor.applyColorToSelected
    cases s.selectedItems <;> simp
  · intro j
    unfold Editor.applyColorToSelected
    rw [Editor.foldl_applyColorToItem valid color mode hv]
    exact foldl_modify_objects _ (colourByMode_idem _ _) _ _ _
  · unfold Editor.applyColorToSelected
    rw [Editor.foldl_applyColorToItem valid color mode hv]
    exact foldl_modify_children _ _ _
  · unfold Editor.applyColorToSelected
    rw [Editor.foldl_applyColorToItem valid color mode hv]
  · unfold PaperJSEditor.applyColorToSelected
    by_cases he : t.selectedItems.length = 0
    · have hnil : t.selectedItems = [] := List.length_eq_zero.1 he
      rw [if_pos he]
      simp [hnil]
    · have hne : t.selectedItems ≠ [] := fun h => he (by simp [h])
      rw [if_neg he]
      rw [PaperJSEditor.foldl_applyColorToItem_basic valid color (some (mode.getD "fill")) hv]
      refine ⟨by simp [hne], ?_, ?_, rfl⟩
      · intro j
        exact foldl_modify_objects _ (colourByMode_idem _ _) _ _ _
      · exact foldl_modify_children _ _ _

/-- Witness for C18: stroke mode on the selected demo rectangle. -/
theorem applyColorToSelected_frame_witness :
    demoValid "#ff0000" = true ∧
    (demoSelected.applyColorToSelected demoValid "#ff0000" (some "stroke")).2
      = decide (demoSelected.selectedItems ≠ []) ∧
    (demoSelected.applyColorToSelected demoValid "#ff0000" (some "stroke")).1.selectedItems
      = [0] :=
  ⟨by decide,
   (applyColorToSelected_frame demoValid demoSelected (PaperJSEditor.constructed demoProject)
      "#ff0000" (some "stroke") (by decide)).2.1.1,
   (applyColorToSelected_frame demoValid demoSelected (PaperJSEditor.constructed demoProject)
      "#ff0000" (some "stroke") (by decide)).2.1.2.2.2⟩

/-- Claim C19: `applyColorToItem(item, color, mode)` called with a colour text
that the colour constructor rejects changes nothing, for every mode: the item's
fill and stroke colours and the whole state stay as they were, and the call
returns normally (the exception is caught inside the method); in
`ProfessionalPaperEditor` and in `PaperJSEditor`. -/
theorem applyColorToItem_rejected_colour (valid : String → Bool) (s : Editor)
    (t : PaperJSEditor) (item : Nat) (color : String) (mode : Option String)
    (hv : valid color = false) :
    s.applyColorToItem valid item color mode = s ∧
    t.applyColorToItem valid item color mode = t ∧
    ((s.applyColorToItem valid item color mode).project.objects item).fillColor
      = (s.project.objects item).fillColor ∧
    ((s.applyColorToItem valid item color mode).project.objects item).strokeColor
      = (s.project.objects item).strokeColor := by
  have h1 := Editor.applyColorToItem_invalid valid s item color mode hv
  have h2 := PaperJSEditor.applyColorToItem_invalid_basic valid t item color mode hv
  exact ⟨h1, h2, by rw [h1], by rw [h1]⟩

/-- Witness for C19: the text `red!` is rejected by the demo validity test. -/
theorem applyColorToItem_rejected_colour_witness :
    demoValid "red!" = false ∧
    ((demoSelected.applyColorToItem demoValid 0 "red!" (some "both")).project.objects 0).fillColor
      = (demoSelected.project.objects 0).fillColor :=
  ⟨by decide,
   (applyColorToItem_rejected_colour demoValid demoSelected
      (PaperJSEditor.constructed demoProject) 0 "red!" (some "both") (by decide)).2.2.1⟩

theorem newColor_css (valid : String → Bool) (text : String) (c : Color)
    (h : newColor valid text = some c) : valid c.css = true ∧ c.css = text := by
  unfold newColor at h
  split at h
  · next hv =>
    cases h
    exact ⟨hv, rfl⟩
  · cases h

theorem newColor_rejected (valid : String → Bool) (text : String) (h : valid text = false) :
    newColor valid text = none := by
  unfold newColor
  simp [h]

namespace ProEditor

theorem setCurrentColor_valid (valid : String → Bool) (u : ProEditor) (hexColor : String)
    (hu : valid u.appState.currentColor.css = true) :
    valid (u.setCurrentColor valid hexColor).state.appState.currentColor.css = true := by
  unfold setCurrentColor
  cases h : newColor valid hexColor with
  | none => exact hu
  | some c => exact (newColor_css valid hexColor c h).1

theorem updateProperty_valid (valid : String → Bool) (parseFloat : String → Option Rat)
    (u : ProEditor) (key value : String) (hu : valid u.appState.currentColor.css = true) :
    valid (u.updateProperty valid parseFloat key value).state.appState.currentColor.css
      = true := by
  unfold updateProperty
  dsimp only
  split
  · split
    · cases h : newColor valid value <;> exact hu
    · split
      · cases h : newColor valid value <;> exact hu
      · split
        · cases h : parseFloat value <;> exact hu
        · exact hu
  · split
    · cases h : newColor valid value with
      | none => exact hu
      | some c => exact (newColor_css valid value c h).1
    · split
      · exact hu
      · exact hu

theorem updateProperty_rejected (valid : String → Bool) (parseFloat : String → Option Rat)
    (u : ProEditor) (value : String) (hv : valid value = false) :
    (u.updateProperty valid parseFloat "fillColor" value).state = u ∧
    (u.updateProperty valid parseFloat "fillColor" value).threw = true := by
  unfold updateProperty
  simp [newColor_rejected valid value hv]

theorem updateProperty_width (valid : String → Bool) (parseFloat : String → Option Rat)
    (u : ProEditor) (value : String) (hsel : u.project.selectedItems = []) :
    (u.updateProperty valid parseFloat "strokeWidth" value).state.appState.currentStrokeWidth
      = parsedWidth parseFloat value := by
  unfold updateProperty
  simp [hsel]

end ProEditor

/-- Counterexample for C20: `setStrokeWidth('wide')` of the pro editor stores the
text `wide` as the current stroke width, `updateProperty('strokeWidth', 'wide')`
stores `NaN`, and `window.setCurrentColor('red!')` of `ProfessionalPaperEditor`
stores a text the colour constructor rejects as the current fill colour: the
style state changes and is not valid afterwards. -/
theorem style_commands_store_unvalidated :
    ((demoPro true).setStrokeWidth (.text "wide")).appState.currentStrokeWidth
      = .text "wide" ∧
    JsValue.isNumeric (.text "wide") = false ∧
    (demoPro true).appState.currentStrokeWidth = .number 2 ∧
    ((demoPro true).updateProperty demoValid demoParseFloat "strokeWidth"
      "wide").state.appState.currentStrokeWidth = .nan ∧
    demoValid "red!" = false ∧
    ((Editor.constructed demoProject).setCurrentColor "red!").currentColors.fill = "red!" := by
  decide

theorem ProEditor.updateProperty_strokeColor_rejected (valid : String → Bool)
    (parseFloat : String → Option Rat) (u : ProEditor) (value : String)
    (hv : valid value = false) :
    (u.updateProperty valid parseFloat "strokeColor" value).state = u ∧
    (u.updateProperty valid parseFloat "strokeColor" value).threw
      = decide (u.project.selectedItems.length > 0) := by
  unfold ProEditor.updateProperty
  by_cases hsel : u.project.selectedItems.length > 0
  · simp [hsel, newColor_rejected valid value hv]
  · simp [hsel]

theorem ProEditor.updateProperty_rejected_colour (valid : String → Bool)
    (parseFloat : String → Option Rat) (u : ProEditor) (key value : String)
    (hv : valid value = false) :
    (u.updateProperty valid parseFloat key value).state.appState.currentColor
      = u.appState.currentColor := by
  unfold ProEditor.updateProperty
  dsimp only
  rw [newColor_rejected valid value hv]
  split
  · split
    · rfl
    · split
      · rfl
      · split
        · cases parseFloat value <;> rfl
        · rfl
  · split
    · rfl
    · split <;> rfl

/-- Claim C20 as amended: after any sequence of host commands of the pro editor
(`setCurrentColor`, `setStrokeWidth`, `updateProperty`) the current colour is a
value the colour constructor accepted. A command carrying a malformed colour
never changes the current colour, and a colour command with a malformed colour
(`setCurrentColor`, `updateProperty` with key `fillColor` or `strokeColor`)
leaves the whole state unchanged; it raises when it reaches the colour
constructor: `setCurrentColor(c)` and `updateProperty('fillColor', c)` always,
`updateProperty('strokeColor', c)` exactly when some item is selected, since
without a selection no branch handles that key and the call returns normally.
Widths are not validated: `setStrokeWidth(width)` stores its argument as given
and `updateProperty('strokeWidth', value)` without a selection stores
`parseFloat(value)`, which is `NaN` for a non-numeric text; `setCurrentColor` of
`ProfessionalPaperEditor` stores the colour text as given. -/
theorem host_commands_style_state (valid : String → Bool) (parseFloat : String → Option Rat)
    (u : ProEditor) (hu : valid u.appState.currentColor.css = true)
    (cmds : List HostCommand) :
    valid (runHostCommands valid parseFloat u cmds).appState.currentColor.css = true ∧
    (∀ (v : ProEditor) (hexColor : String), valid hexColor = false →
      (v.setCurrentColor valid hexColor).threw = true ∧
      (v.setCurrentColor valid hexColor).state = v) ∧
    (∀ (v : ProEditor) (value : String), valid value = false →
      (v.updateProperty valid parseFloat "fillColor" value).state = v ∧
      (v.updateProperty valid parseFloat "fillColor" value).threw = true) ∧
    (∀ (v : ProEditor) (value : String), valid value = false →
      (v.updateProperty valid parseFloat "strokeColor" value).state = v ∧
      (v.updateProperty valid parseFloat "strokeColor" value).threw
        = decide (v.project.selectedItems.length > 0)) ∧
    (∀ (v : ProEditor) (key value : String), valid value = false →
      (v.updateProperty valid parseFloat key value).state.appState.currentColor
        = v.appState.currentColor) ∧
    (∀ (v : ProEditor) (width : JsValue),
      (v.setStrokeWidth width).appState.currentStrokeWidth = width) ∧
    (∀ (v : ProEditor) (value : String), v.project.selectedItems = [] →
      (v.updateProperty valid parseFloat "strokeWidth" value).state.appState.currentStrokeWidth
        = ProEditor.parsedWidth parseFloat value) ∧
    (∀ (s : Editor) (color : String), (s.setCurrentColor color).currentColors.fill = color) := by
  refine ⟨?_, ?_, ?_, ?_, ?_, ?_, ?_, ?_⟩
  · revert u
    induction cmds with
    | nil => intro u hu; exact hu
    | cons c rest ih =>
      intro u hu
      have hstep : valid (c.run valid parseFloat u).appState.currentColor.css = true := by
        cases c with
        | setCurrentColor hexColor => exact ProEditor.setCurrentColor_valid valid u hexColor hu
        | setStrokeWidth width => exact hu
        | updateProperty key value =>
          exact ProEditor.updateProperty_valid valid parseFloat u key value hu
      exact ih _ hstep
  · intro v hexColor hv
    unfold ProEditor.setCurrentColor
    simp [newColor_rejected valid hexColor hv]
  · intro v value hv
    exact ProEditor.updateProperty_rejected valid parseFloat v value hv
  · intro v value hv
    exact ProEditor.updateProperty_strokeColor_rejected valid parseFloat v value hv
  · intro v key value hv
    exact ProEditor.updateProperty_rejected_colour valid parseFloat v key value hv
  · intro v width
    rfl
  · intro v value hsel
    exact ProEditor.updateProperty_width valid parseFloat v value hsel
  · intro s color
    rfl

/-- Witness for C20: three commands on the demo pro editor, one of them with a
malformed colour; with nothing selected `updateProperty('strokeColor', 'red!')`
returns normally and changes nothing. -/
theorem host_commands_style_state_witness :
    demoValid (demoPro true).appState.currentColor.css = true ∧
    demoValid (runHostCommands demoValid demoParseFloat (demoPro true)
      [.setCurrentColor "#ff0000", .setCurrentColor "red!",
       .updateProperty "strokeWidth" "3"]).appState.currentColor.css = true ∧
    (runHostCommands demoValid demoParseFloat (demoPro true)
      [.setCurrentColor "#ff0000", .setCurrentColor "red!",
       .updateProperty "strokeWidth" "3"]).appState.currentColor = ⟨"#ff0000", 1⟩ ∧
    demoValid "red!" = false ∧
    ((demoPro true).updateProperty demoValid demoParseFloat "strokeColor" "red!").state
      = demoPro true ∧
    ((demoPro true).updateProperty demoValid demoParseFloat "strokeColor" "red!").threw
      = false :=
  have h := host_commands_style_state demoValid demoParseFloat (demoPro true) (by decide)
      [.setCurrentColor "#ff0000", .setCurrentColor "red!",
       .updateProperty "strokeWidth" "3"]
  ⟨by decide, h.1, by decide, by decide,
   (h.2.2.2.1 (demoPro true) "red!" (by decide)).1, by decide⟩

/-! ## Claims about provisional items, the eyedropper notification and history entries -/

/-- Counterexample for C25: with a provisional rectangle in progress (object `1`),
`setTool('select')` leaves the item in the scene and `isDrawing` true, and
`setTool('pen')` also keeps `currentPath`. -/
theorem setTool_keeps_provisional_item :
    demoDrawing.currentPath = some 1 ∧ demoDrawing.isDrawing = true ∧
    demoDrawing.project.children = [0, 1] ∧
    (demoDrawing.setTool "select").project.children = [0, 1] ∧
    (demoDrawing.setTool "select").isDrawing = true ∧
    (demoDrawing.setTool "select").currentPath = none ∧
    (demoDrawing.setTool "pen").currentPath = some 1 := by
  decide

/-- Claim C25 as amended: when `setTool(name)` is called while a provisional item
is in progress, the item stays in the scene (the project is untouched),
`isDrawing` is left as it was, and `currentPath` becomes null for every target
tool name except `pen`, for which it is kept; `name` becomes the current tool. -/
theorem setTool_with_provisional_item (s : Editor) (name : String) (x : Nat)
    (h : s.currentPath = some x) :
    exportJSON (s.setTool name).project = exportJSON s.project ∧
    (s.setTool name).project.children = s.project.children ∧
    (s.setTool name).isDrawing = s.isDrawing ∧
    (s.setTool name).currentPath = (if name = "pen" then some x else none) ∧
    (s.setTool name).currentTool = name := by
  unfold Editor.setTool
  by_cases hn : name = "pen"
  · simp [h, hn]
  · simp [h, hn]

/-- Witness for C25: the provisional rectangle of the demo and the target `select`. -/
theorem setTool_with_provisional_item_witness :
    demoDrawing.currentPath = some 1 ∧
    (demoDrawing.setTool "select").project.children = demoDrawing.project.children ∧
    (demoDrawing.setTool "select").currentPath = none :=
  ⟨by decide, (setTool_with_provisional_item demoDrawing "select" 1 (by decide)).2.1,
   (setTool_with_provisional_item demoDrawing "select" 1 (by decide)).2.2.2.1⟩

/-- Claim C28, evaluated at the failing input: `pickColor` on a hit item that has
neither a fill colour nor a stroke colour calls `notifyColorPicked(null)`;
`currentColors` is unchanged. When nothing is hit there is no call. -/
theorem pickColor_notifies_null :
    (demoBareProject.objects 0).fillColor = none ∧
    (demoBareProject.objects 0).strokeColor = none ∧
    (Editor.pickColor (Editor.constructed demoBareProject)
      (demoClick (some 0) false)).colorPicked = [none] ∧
    (Editor.handleMouseDown demoValid
      { Editor.constructed demoBareProject with currentTool := "eyedropper" }
      (demoClick (some 0) false)).state.colorPicked = [none] ∧
    (Editor.pickColor (Editor.constructed demoBareProject)
      (demoClick (some 0) false)).currentColors
      = (Editor.constructed demoBareProject).currentColors ∧
    (∀ (s : Editor) (event : ToolEvent), event.hit = none → s.pickColor event = s) := by
  refine ⟨by decide, by decide, by decide, by decide, by decide, ?_⟩
  intro s event h
  unfold Editor.pickColor
  rw [h]

namespace Editor

theorem selectItem_unselected (s : Editor) (x j : Nat) :
    ((s.selectItem x).project.objects j).unselected = (s.project.objects j).unselected := by
  unfold selectItem
  split
  · simp only [modify_objects]
    split
    · next h => subst h; rfl
    · rfl
  · rfl

theorem deselectItem_unselected (s : Editor) (x j : Nat) :
    ((s.deselectItem x).project.objects j).unselected = (s.project.objects j).unselected := by
  unfold deselectItem
  split
  · simp only [modify_objects]
    split
    · next h => subst h; rfl
    · rfl
  · rfl

theorem deselectItem_children (s : Editor) (x : Nat) :
    (s.deselectItem x).project.children = s.project.children := by
  unfold deselectItem
  split <;> rfl

theorem clearSelection_unselected (s : Editor) (j : Nat) :
    (s.clearSelection.project.objects j).unselected = (s.project.objects j).unselected := by
  rw [clearSelection_objects]
  split <;> rfl

theorem handleSelection_scene (s : Editor) (event : ToolEvent) :
    (∀ j, ((s.handleSelection event).project.objects j).unselected
        = (s.project.objects j).unselected) ∧
    (s.handleSelection event).project.children = s.project.children := by
  have h1 : (∀ j, ((if !event.shift then s.clearSelection else s).project.objects j).unselected
        = (s.project.objects j).unselected) ∧
      (if !event.shift then s.clearSelection else s).project.children = s.project.children := by
    split
    · exact ⟨clearSelection_unselected s, clearSelection_children s⟩
    · exact ⟨fun _ => rfl, rfl⟩
  unfold handleSelection
  generalize (if !event.shift then s.clearSelection else s) = s1 at h1 ⊢
  dsimp only
  cases event.hit with
  | none => exact h1
  | some item =>
    dsimp only
    split
    · split
      · exact ⟨fun j => (deselectItem_unselected s1 item j).trans (h1.1 j),
          (deselectItem_children s1 item).trans h1.2⟩
      · exact ⟨fun j => (selectItem_unselected s1 item j).trans (h1.1 j),
          (selectItem_children s1 item).trans h1.2⟩
    · exact h1

theorem mouseDownTool_select (valid : String → Bool) (s : Editor) (event : ToolEvent)
    (h : s.currentTool = "select") :
    (mouseDownTool valid s event).state = s.handleSelection event := by
  unfold mouseDownTool
  rw [if_pos h]

theorem mouseDownTool_passive (valid : String → Bool) (s : Editor) (event : ToolEvent)
    (h : s.currentTool = "eyedropper" ∨ s.currentTool = "zoom" ∨ s.currentTool = "hand") :
    (mouseDownTool valid s event).state.project = s.project := by
  unfold mouseDownTool
  rcases h with h | h | h
  · simp only [h]
    simp only [String.reduceEq, if_false, if_true]
    unfold pickColor
    cases event.hit with
    | none => rfl
    | some i =>
      dsimp only
      cases (s.project.objects i).fillColor <;> cases (s.project.objects i).strokeColor <;> rfl
  · simp only [h]
    simp only [String.reduceEq, if_false, if_true]
    unfold zoomTool
    split <;> rfl
  · simp only [h]
    simp only [String.reduceEq, if_false, if_true]
    rfl

end Editor

theorem exportJSON_unselected (p q : Project) (hc : q.children = p.children)
    (ho : ∀ j, (q.objects j).unselected = (p.objects j).unselected) :
    (exportJSON q).map Item.unselected = (exportJSON p).map Item.unselected := by
  unfold exportJSON
  rw [hc, List.map_map, List.map_map]
  apply List.map_congr_left
  intro j _
  exact ho j

/-- Counterexample for C29: a click of the select tool on the unselected demo
rectangle pushes the snapshot with the rectangle unselected, and the scene that
remains has it selected; `undo()` right after the click changes the scene back. -/
theorem selection_click_changes_scene :
    (Editor.constructed demoProject).currentTool = "select" ∧
    demoClicked.undoStack = [[demoRect]] ∧
    exportJSON demoClicked.project = [{ demoRect with selected := true }] ∧
    exportJSON demoClicked.undo.project = [demoRect] ∧
    exportJSON demoClicked.undo.project ≠ exportJSON demoClicked.project := by
  decide

/-- Claim C29 as amended: `handleMouseDown` pushes a snapshot and empties the
redoStack for every active tool, so the next `redo()` is a no-op. For the tools
eyedropper, zoom and hand the pushed snapshot equals the scene that remains
afterwards, and an `undo()` right after leaves the scene unchanged. For the select
tool the scene that remains equals the pushed snapshot except for the `selected`
flags of the items, and an `undo()` right after the click restores the scene of
before the click, flags included. -/
theorem handleMouseDown_history_entry (valid : String → Bool) (s : Editor) (event : ToolEvent) :
    (Editor.handleMouseDown valid s event).state.undoStack.getLast? = some (exportJSON s.project) ∧
    (Editor.handleMouseDown valid s event).state.redoStack = [] ∧
    (Editor.handleMouseDown valid s event).state.redo = (Editor.handleMouseDown valid s event).state ∧
    exportJSON (Editor.handleMouseDown valid s event).state.undo.project = exportJSON s.project ∧
    (s.currentTool = "eyedropper" ∨ s.currentTool = "zoom" ∨ s.currentTool = "hand" →
      exportJSON (Editor.handleMouseDown valid s event).state.project = exportJSON s.project ∧
      exportJSON (Editor.handleMouseDown valid s event).state.undo.project
        = exportJSON (Editor.handleMouseDown valid s event).state.project) ∧
    (s.currentTool = "select" →
      (exportJSON (Editor.handleMouseDown valid s event).state.project).map Item.unselected
        = (exportJSON s.project).map Item.unselected) := by
  have hh := Editor.mouseDownTool_history valid s.saveState event
  have hl : (Editor.handleMouseDown valid s event).state.undoStack.getLast?
      = some (exportJSON s.project) := by
    unfold Editor.handleMouseDown
    rw [hh.1]
    exact Editor.saveState_getLast s
  have hr : (Editor.handleMouseDown valid s event).state.redoStack = [] := by
    unfold Editor.handleMouseDown
    rw [hh.2]
    rfl
  have hu : exportJSON (Editor.handleMouseDown valid s event).state.undo.project
      = exportJSON s.project := by
    rw [Editor.undo_of_getLast _ _ hl]
    exact exportJSON_importJSON _ _
  refine ⟨hl, hr, Editor.redo_of_empty _ hr, hu, ?_, ?_⟩
  · intro ht
    have hp : (Editor.handleMouseDown valid s event).state.project = s.project := by
      unfold Editor.handleMouseDown
      exact Editor.mouseDownTool_passive valid s.saveState event ht
    exact ⟨by rw [hp], by rw [hu, hp]⟩
  · intro ht
    have hs : (Editor.handleMouseDown valid s event).state = s.saveState.handleSelection event := by
      unfold Editor.handleMouseDown
      exact Editor.mouseDownTool_select valid s.saveState event ht
    rw [hs]
    obtain ⟨h1, h2⟩ := Editor.handleSelection_scene s.saveState event
    exact exportJSON_unselected s.project _ h2 h1

/-! ## Claims about drawing gestures -/

theorem modify_name (p : Project) (i : Nat) (f : Item → Item)
    (hf : ∀ it, (f it).name = it.name) (j : Nat) :
    ((p.modify i f).objects j).name = (p.objects j).name := by
  rw [modify_objects]
  split
  · next h => subst h; exact hf _
  · rfl

namespace Editor

theorem applyCurrentStyle_frame (valid : String → Bool) (s : Editor) (item : Option Nat) :
    (applyCurrentStyle valid s item).state.project.children = s.project.children ∧
    (applyCurrentStyle valid s item).state.project.nextId = s.project.nextId ∧
    (applyCurrentStyle valid s item).state.currentPath = s.currentPath ∧
    (applyCurrentStyle valid s item).state.currentTool = s.currentTool ∧
    (applyCurrentStyle valid s item).state.isDrawing = s.isDrawing ∧
    (∀ j, ((applyCurrentStyle valid s item).state.project.objects j).name
      = (s.project.objects j).name) := by
  cases item with
  | none => exact ⟨rfl, rfl, rfl, rfl, rfl, fun _ => rfl⟩
  | some i =>
    unfold applyCurrentStyle
    dsimp only
    cases newColor valid s.currentColors.fill with
    | none => exact ⟨rfl, rfl, rfl, rfl, rfl, fun _ => rfl⟩
    | some fc =>
      dsimp only
      cases newColor valid s.currentColors.stroke with
      | none =>
        refine ⟨rfl, rfl, rfl, rfl, rfl, fun j => ?_⟩
        dsimp only
        by_cases hj : j = i
        · subst hj; simp [modify_objects]
        · simp [modify_objects, hj]
      | some sc =>
        refine ⟨rfl, rfl, rfl, rfl, rfl, fun j => ?_⟩
        dsimp only
        by_cases hj : j = i
        · subst hj; simp [modify_objects]
        · simp [modify_objects, hj]

end Editor

namespace Editor

theorem gestureInv_frame {base : List Nat} {tool : String} {st st2 : Editor}
    (h : GestureInv base tool st)
    (h1 : st2.currentTool = st.currentTool) (h2 : st2.currentPath = st.currentPath)
    (h3 : st2.project.children = st.project.children)
    (h4 : st2.project.nextId = st.project.nextId)
    (h5 : ∀ j, (st2.project.objects j).name = (st.project.objects j).name) :
    GestureInv base tool st2 := by
  obtain ⟨ht, hb, x, hx, hxb, hcp, hch, hnm⟩ := h
  exact ⟨h1.trans ht, fun i hi => h4 ▸ hb i hi, x, h4 ▸ hx, hxb, h2.trans hcp, h3.trans hch,
    (h5 x).trans hnm⟩

theorem newCurrentPath_inv (base : List Nat) (tool : String) (st : Editor)
    (segments : List Point) (ht : st.currentTool = tool)
    (hb : ∀ i ∈ base, i < st.project.nextId) (hch : st.project.children = base) :
    GestureInv base tool (st.newCurrentPath segments).1 := by
  refine ⟨ht, ?_, st.project.nextId, ?_, ?_, rfl, ?_, ?_⟩
  · intro i hi
    have := hb i hi
    simp only [newCurrentPath, Project.create]
    omega
  · simp [newCurrentPath, Project.create]
  · intro hmem
    have := hb _ hmem
    omega
  · simp [newCurrentPath, Project.create, hch]
  · simp [newCurrentPath, Project.create, Item.blank]

theorem styled_inv (valid : String → Bool) {base : List Nat} {tool : String} {st : Editor}
    (item : Option Nat) (h : GestureInv base tool st) :
    GestureInv base tool (applyCurrentStyle valid st item).state :=
  have hf := applyCurrentStyle_frame valid st item
  gestureInv_frame h hf.2.2.2.1 hf.2.2.1 hf.1 hf.2.1 hf.2.2.2.2.2

theorem started_inv (valid : String → Bool) (base : List Nat) (tool : String) (st : Editor)
    (segments : List Point) (ht : st.currentTool = tool)
    (hb : ∀ i ∈ base, i < st.project.nextId) (hch : st.project.children = base) :
    GestureInv base tool
      (let s1 := (st.newCurrentPath segments).1
       let o := applyCurrentStyle valid s1 s1.currentPath
       if o.threw then o else ⟨{ o.state with isDrawing := true }, false⟩ : Outcome Editor).state := by
  have h1 := styled_inv valid (st.newCurrentPath segments).1.currentPath
    (newCurrentPath_inv base tool st segments ht hb hch)
  dsimp only
  split
  · exact h1
  · exact gestureInv_frame h1 rfl rfl rfl rfl (fun _ => rfl)

theorem remove_last (base : List Nat) (x : Nat) (hx : x ∉ base) :
    (base ++ [x]).filter (fun j => j != x) = base := by
  rw [List.filter_append]
  have h1 : base.filter (fun j => j != x) = base := by
    apply List.filter_eq_self.2
    intro a ha
    have : a ≠ x := fun h => hx (h ▸ ha)
    simpa using this
  simp [h1]

theorem redrawn_inv (valid : String → Bool) {base : List Nat} {tool : String} {st : Editor}
    (segments : List Point) (h : GestureInv base tool st) (cp : Nat)
    (hcp : st.currentPath = some cp) :
    GestureInv base tool
      (let s1 := { st with project := st.project.remove cp }
       let s2 := (s1.newCurrentPath segments).1
       applyCurrentStyle valid s2 s2.currentPath).state := by
  obtain ⟨ht, hb, x, hx, hxb, hcp2, hch, hnm⟩ := h
  have hxe : cp = x := by
    rw [hcp] at hcp2
    exact Option.some.inj hcp2
  subst hxe
  dsimp only
  apply styled_inv
  apply newCurrentPath_inv
  · exact ht
  · exact hb
  · show (st.project.children.filter (fun j => j != cp)) = base
    rw [hch]
    exact remove_last base cp hxb

end Editor

namespace Editor

theorem modified_inv {base : List Nat} {tool : String} {st : Editor} (i : Nat)
    (f : Item → Item) (hf : ∀ it, (f it).name = it.name) (b : Bool)
    (h : GestureInv base tool st) :
    GestureInv base tool { st with project := st.project.modify i f, isDrawing := b } :=
  gestureInv_frame h rfl rfl rfl rfl (fun j => modify_name st.project i f hf j)

theorem down_inv (valid : String → Bool) (s : Editor) (event : ToolEvent)
    (hwf : ∀ i ∈ s.project.children, i < s.project.nextId) :
    (s.currentTool = "rectangle" ∨ s.currentTool = "circle" ∨ s.currentTool = "path" ∨
        s.currentTool = "brush" →
      GestureInv s.project.children s.currentTool (handleMouseDown valid s event).state) ∧
    (s.currentTool = "pen" → s.currentPath = none →
      GestureInv s.project.children s.currentTool (handleMouseDown valid s event).state) := by
  have hwf2 : ∀ i ∈ s.project.children, i < s.saveState.project.nextId := hwf
  have hch : s.saveState.project.children = s.project.children := rfl
  constructor
  · intro ht
    unfold handleMouseDown mouseDownTool
    rcases ht with ht | ht | ht | ht
    · have ht2 : s.saveState.currentTool = "rectangle" := ht
      simp only [ht2, ht]
      simp only [String.reduceEq, if_false, if_true]
      exact started_inv valid _ _ s.saveState _ ht2 hwf2 hch
    · have ht2 : s.saveState.currentTool = "circle" := ht
      simp only [ht2, ht]
      simp only [String.reduceEq, if_false, if_true]
      exact started_inv valid _ _ s.saveState _ ht2 hwf2 hch
    · have ht2 : s.saveState.currentTool = "path" := ht
      simp only [ht2, ht]
      simp only [String.reduceEq, if_false, if_true]
      exact started_inv valid _ _ s.saveState _ ht2 hwf2 hch
    · have ht2 : s.saveState.currentTool = "brush" := ht
      simp only [ht2, ht]
      simp only [String.reduceEq, if_false, if_true]
      have h1 := styled_inv valid (some (s.saveState.newCurrentPath [event.point]).2)
        (newCurrentPath_inv s.project.children "brush" s.saveState [event.point] ht2 hwf2 hch)
      unfold startBrush
      dsimp only
      split
      · exact h1
      · exact gestureInv_frame h1 rfl rfl rfl rfl
          (fun j => by
          rw [modify_objects]
          split
          · next hj => subst hj; rfl
          · rfl)
  · intro ht hcp
    have ht2 : s.saveState.currentTool = "pen" := ht
    have hcp2 : s.saveState.currentPath = none := hcp
    unfold handleMouseDown mouseDownTool
    simp only [ht2, ht]
    simp only [String.reduceEq, if_false, if_true]
    have h1 := styled_inv valid (some (s.saveState.newCurrentPath []).2)
      (newCurrentPath_inv s.project.children "pen" s.saveState [] ht2 hwf2 hch)
    unfold handlePenTool
    rw [hcp2]
    dsimp only
    split
    · exact h1
    · exact gestureInv_frame h1 rfl rfl rfl rfl
        (fun j => by
          rw [modify_objects]
          split
          · next hj => subst hj; rfl
          · rfl)

theorem drag_inv (valid : String → Bool) (getDistance : Point → Point → Rat)
    {base : List Nat} {tool : String} {st : Editor} (event : ToolEvent)
    (h : GestureInv base tool st) :
    GestureInv base tool (handleMouseDrag valid getDistance st event).state := by
  have hcp : ∃ x, st.currentPath = some x := by
    obtain ⟨_, _, x, _, _, hcp, _⟩ := h
    exact ⟨x, hcp⟩
  obtain ⟨cp, hcp⟩ := hcp
  unfold handleMouseDrag
  split
  · unfold updateRectangle
    rw [hcp]
    dsimp only
    split
    · exact redrawn_inv valid _ h cp hcp
    · exact h
  · split
    · unfold updateCircle
      rw [hcp]
      dsimp only
      split
      · exact redrawn_inv valid _ h cp hcp
      · exact h
    · split
      · unfold updatePath
        rw [hcp]
        dsimp only
        split
        · exact gestureInv_frame h rfl hcp.symm rfl rfl
            (fun j => by
          rw [modify_objects]
          split
          · next hj => subst hj; rfl
          · rfl)
        · exact h
      · split
        · unfold updateBrush
          rw [hcp]
          dsimp only
          split
          · exact gestureInv_frame h rfl hcp.symm rfl rfl
              (fun j => by
          rw [modify_objects]
          split
          · next hj => subst hj; rfl
          · rfl)
          · exact h
        · split
          · unfold updatePan
            split
            · exact gestureInv_frame h rfl rfl rfl rfl (fun _ => rfl)
            · exact h
          · exact h

theorem runDrags_inv (valid : String → Bool) (getDistance : Point → Point → Rat)
    {base : List Nat} {tool : String} (drags : List ToolEvent) :
    ∀ st : Editor, GestureInv base tool st →
      GestureInv base tool (runDrags valid getDistance st drags) := by
  induction drags with
  | nil => intro st h; exact h
  | cons e rest ih =>
    intro st h
    exact ih _ (drag_inv valid getDistance e h)

theorem up_named {base : List Nat} {tool : String} {st : Editor} (event : ToolEvent)
    (h : GestureInv base tool st)
    (ht : tool = "rectangle" ∨ tool = "circle" ∨ tool = "path" ∨ tool = "brush") :
    ∃ x, x ∉ base ∧ (st.handleMouseUp event).project.children = base ++ [x] ∧
      ((st.handleMouseUp event).project.objects x).name
        = some (tool ++ "_" ++ toString event.now) ∧
      (st.handleMouseUp event).currentPath = none ∧
      (st.handleMouseUp event).isDrawing = false := by
  obtain ⟨htool, _, x, _, hxb, hcp, hch, _⟩ := h
  refine ⟨x, hxb, ?_, ?_, rfl, rfl⟩
  · unfold handleMouseUp
    rcases ht with ht | ht | ht | ht <;> subst ht <;>
      simp [htool, finishRectangle, finishCircle, finishPath, finishBrush, finishNamed, hcp,
        Project.modify, Project.setItem, hch]
  · unfold handleMouseUp
    rcases ht with ht | ht | ht | ht <;> subst ht <;>
      simp [htool, finishRectangle, finishCircle, finishPath, finishBrush, finishNamed, hcp,
        modify_objects]

theorem up_pen {base : List Nat} {st : Editor} (event : ToolEvent)
    (h : GestureInv base "pen" st) :
    ∃ x, x ∉ base ∧ (st.handleMouseUp event).project.children = base ++ [x] ∧
      ((st.handleMouseUp event).project.objects x).name = none ∧
      (st.handleMouseUp event).currentPath = none ∧
      (st.handleMouseUp event).isDrawing = false := by
  obtain ⟨htool, _, x, _, hxb, hcp, hch, hnm⟩ := h
  refine ⟨x, hxb, ?_, ?_, rfl, rfl⟩
  · unfold handleMouseUp
    simp [htool, hch]
  · unfold handleMouseUp
    simp [htool, hnm]

end Editor

/-- The drawing gestures: from a state without stale references, for each of
the tools rectangle, circle, path and brush a pointer-down followed by any
number of drags and a pointer-up adds exactly one new item on top of the scene,
named `<tool>_<timestamp>` on finish; for the pen tool (started with
`currentPath` null) the gesture adds exactly one new item and leaves it
unnamed. Afterwards `currentPath` is null and `isDrawing` is false. -/
theorem drawing_gesture (valid : String → Bool) (getDistance : Point → Point → Rat)
    (s : Editor) (down : ToolEvent) (drags : List ToolEvent) (up : ToolEvent)
    (hwf : ∀ i ∈ s.project.children, i < s.project.nextId) :
    (s.currentTool = "rectangle" ∨ s.currentTool = "circle" ∨ s.currentTool = "path" ∨
        s.currentTool = "brush" →
      ∃ x, x ∉ s.project.children ∧
        (s.gesture valid getDistance down drags up).project.children
          = s.project.children ++ [x] ∧
        ((s.gesture valid getDistance down drags up).project.objects x).name
          = some (s.currentTool ++ "_" ++ toString up.now) ∧
        (s.gesture valid getDistance down drags up).currentPath = none ∧
        (s.gesture valid getDistance down drags up).isDrawing = false) ∧
    (s.currentTool = "pen" → s.currentPath = none →
      ∃ x, x ∉ s.project.children ∧
        (s.gesture valid getDistance down drags up).project.children
          = s.project.children ++ [x] ∧
        ((s.gesture valid getDistance down drags up).project.objects x).name = none ∧
        (s.gesture valid getDistance down drags up).currentPath = none ∧
        (s.gesture valid getDistance down drags up).isDrawing = false) := by
  constructor
  · intro ht
    have h1 := (Editor.down_inv valid s down hwf).1 ht
    have h2 := Editor.runDrags_inv valid getDistance drags _ h1
    exact Editor.up_named up h2 ht
  · intro ht hcp
    have h1 := (Editor.down_inv valid s down hwf).2 ht hcp
    have h2 := Editor.runDrags_inv valid getDistance drags _ h1
    rw [ht] at h2
    exact Editor.up_pen up h2

/-- A rectangle gesture with two drags on the demo scene: the new item is object
`3` and carries the generated name. -/
theorem rectangle_gesture_example :
    (∀ i ∈ (demoWithTool "rectangle").project.children,
      i < (demoWithTool "rectangle").project.nextId) ∧
    (∃ x, x ∉ (demoWithTool "rectangle").project.children ∧
      ((demoWithTool "rectangle").gesture demoValid demoDistance (demoClick none false)
        [demoClick none false, demoClick none false] demoUp).project.children
        = (demoWithTool "rectangle").project.children ++ [x] ∧
      (((demoWithTool "rectangle").gesture demoValid demoDistance (demoClick none false)
        [demoClick none false, demoClick none false] demoUp).project.objects x).name
        = some ((demoWithTool "rectangle").currentTool ++ "_" ++ toString demoUp.now) ∧
      ((demoWithTool "rectangle").gesture demoValid demoDistance (demoClick none false)
        [demoClick none false, demoClick none false] demoUp).currentPath = none ∧
      ((demoWithTool "rectangle").gesture demoValid demoDistance (demoClick none false)
        [demoClick none false, demoClick none false] demoUp).isDrawing = false) ∧
    (((demoWithTool "rectangle").gesture demoValid demoDistance (demoClick none false)
        [demoClick none false, demoClick none false] demoUp).project.objects 3).name
      = some "rectangle_1700000000000" :=
  ⟨by decide,
   (drawing_gesture demoValid demoDistance (demoWithTool "rectangle") (demoClick none false)
      [demoClick none false, demoClick none false] demoUp (by decide)).1 (Or.inl rfl),
   by decide⟩

/-- Claim C24, evaluated at the failing input: with the pen tool, a click at
(60, 60) and a click at (100, 100) (each a pointer-down and a pointer-up) leave
two separate items of one point each, both unnamed. `handleMouseUp` has no case
for the pen tool and sets `currentPath` to null after every click, so the branch
of `handlePenTool` that extends the current path is never taken at the next
pointer-down and no name is ever generated, whereas the same gesture of the
rectangle tool ends with a named item. For every state, a pen gesture adds one
item and leaves it unnamed. -/
theorem pen_gesture_leaves_item_unnamed :
    demoPenClicks.project.children = [0, 1, 2] ∧
    (demoPenClicks.project.objects 1).segments = [⟨60, 60⟩] ∧
    (demoPenClicks.project.objects 2).segments = [⟨100, 100⟩] ∧
    (demoPenClicks.project.objects 1).name = none ∧
    (demoPenClicks.project.objects 2).name = none ∧
    demoPenClicks.currentPath = none ∧
    (((demoWithTool "rectangle").gesture demoValid demoDistance (demoClickAt ⟨60, 60⟩) []
      demoUp).project.objects 1).name = some "rectangle_1700000000000" ∧
    (∀ (s : Editor) (up : ToolEvent), (s.handleMouseUp up).currentPath = none) ∧
    (∀ (valid : String → Bool) (getDistance : Point → Point → Rat) (s : Editor)
        (down : ToolEvent) (drags : List ToolEvent) (up : ToolEvent),
      (∀ i ∈ s.project.children, i < s.project.nextId) →
      s.currentTool = "pen" → s.currentPath = none →
      ∃ x, x ∉ s.project.children ∧
        (s.gesture valid getDistance down drags up).project.children
          = s.project.children ++ [x] ∧
        ((s.gesture valid getDistance down drags up).project.objects x).name = none) := by
  refine ⟨by decide, by decide, by decide, by decide, by decide, by decide, by decide, ?_, ?_⟩
  · intro s up
    rfl
  · intro valid getDistance s down drags up hwf ht hcp
    obtain ⟨x, hx, hc, hn, _, _⟩ :=
      (drawing_gesture valid getDistance s down drags up hwf).2 ht hcp
    exact ⟨x, hx, hc, hn⟩

/-- Witness for C29: a pointer-down of the zoom tool on the demo scene. -/
theorem handleMouseDown_history_entry_witness :
    exportJSON (Editor.handleMouseDown demoValid (demoWithTool "zoom")
      (demoClick none false)).state.project = exportJSON (demoWithTool "zoom").project ∧
    exportJSON (Editor.handleMouseDown demoValid (demoWithTool "zoom")
      (demoClick none false)).state.undo.project
      = exportJSON (Editor.handleMouseDown demoValid (demoWithTool "zoom")
          (demoClick none false)).state.project :=
  (handleMouseDown_history_entry demoValid (demoWithTool "zoom") (demoClick none false)).2.2.2.2.1
    (Or.inr (Or.inl rfl))

/-! ## Fitting the content to the canvas -/

theorem foldl_min_map (g : Rat → Rat) (hg : Monotone g) (l : List Rat) (a : Rat) :
    (l.map g).foldl min (g a) = g (l.foldl min a) := by
  induction l generalizing a with
  | nil => rfl
  | cons x xs ih =>
    simp only [List.map_cons, List.foldl_cons]
    rw [← hg.map_min]
    exact ih _

theorem foldl_max_map (g : Rat → Rat) (hg : Monotone g) (l : List Rat) (a : Rat) :
    (l.map g).foldl max (g a) = g (l.foldl max a) := by
  induction l generalizing a with
  | nil => rfl
  | cons x xs ih =>
    simp only [List.map_cons, List.foldl_cons]
    rw [← hg.map_max]
    exact ih _

theorem boundsOfPoints_map (gx gy : Rat → Rat) (hx : Monotone gx) (hy : Monotone gy)
    (l : List Point) (hl : l ≠ []) :
    boundsOfPoints (l.map (fun q => ⟨gx q.x, gy q.y⟩)) =
      ⟨gx (boundsOfPoints l).x, gy (boundsOfPoints l).y,
        gx ((boundsOfPoints l).x + (boundsOfPoints l).width) - gx (boundsOfPoints l).x,
        gy ((boundsOfPoints l).y + (boundsOfPoints l).height) - gy (boundsOfPoints l).y⟩ := by
  cases l with
  | nil => exact absurd rfl hl
  | cons q qs =>
    simp only [boundsOfPoints, List.map_cons, List.map_map, add_sub_cancel]
    have e1 : (Point.x ∘ fun q : Point => (⟨gx q.x, gy q.y⟩ : Point)) = gx ∘ Point.x := rfl
    have e2 : (Point.y ∘ fun q : Point => (⟨gx q.x, gy q.y⟩ : Point)) = gy ∘ Point.y := rfl
    rw [e1, e2, ← List.map_map, ← List.map_map, foldl_min_map gx hx, foldl_max_map gx hx,
      foldl_min_map gy hy, foldl_max_map gy hy]

theorem boundsOfPoints_scaleAbout (c : Point) (k : Rat) (hk : 0 ≤ k) (l : List Point)
    (hl : l ≠ []) :
    boundsOfPoints (l.map (Point.scaleAbout c k)) =
      ⟨c.x + k * ((boundsOfPoints l).x - c.x), c.y + k * ((boundsOfPoints l).y - c.y),
        k * (boundsOfPoints l).width, k * (boundsOfPoints l).height⟩ := by
  have hm : ∀ a : Rat, Monotone (fun x => a + k * (x - a)) := fun a x y h =>
    add_le_add_left (mul_le_mul_of_nonneg_left (sub_le_sub_right h _) hk) _
  have e : Point.scaleAbout c k
      = fun q => ⟨(fun x => c.x + k * (x - c.x)) q.x, (fun y => c.y + k * (y - c.y)) q.y⟩ := rfl
  rw [e, boundsOfPoints_map _ _ (hm c.x) (hm c.y) l hl]
  congr 1 <;> ring

theorem boundsOfPoints_translate (d : Point) (l : List Point) (hl : l ≠ []) :
    boundsOfPoints (l.map (Point.translate d)) =
      ⟨(boundsOfPoints l).x + d.x, (boundsOfPoints l).y + d.y,
        (boundsOfPoints l).width, (boundsOfPoints l).height⟩ := by
  have hm : ∀ a : Rat, Monotone (fun x => x + a) := fun a x y h => add_le_add_right h _
  have e : Point.translate d
      = fun q => ⟨(fun x => x + d.x) q.x, (fun y => y + d.y) q.y⟩ := rfl
  rw [e, boundsOfPoints_map _ _ (hm d.x) (hm d.y) l hl]
  congr 1 <;> ring

theorem points_transform (p : Project) (items : List Nat) (f : Point → Point) :
    (p.transform items f).points items = (p.points items).map f := by
  unfold Project.points Project.transform
  rw [List.map_flatten, List.map_map]
  congr 1
  apply List.map_congr_left
  intro i hi
  simp [hi]

theorem bounds_scale (p : Project) (items : List Nat) (k : Rat) (hk : 0 ≤ k)
    (hl : p.points items ≠ []) :
    (p.scale items k).bounds items =
      ⟨(p.bounds items).center.x - k * (p.bounds items).width / 2,
        (p.bounds items).center.y - k * (p.bounds items).height / 2,
        k * (p.bounds items).width, k * (p.bounds items).height⟩ := by
  unfold Project.scale
  rw [Project.bounds, points_transform, boundsOfPoints_scaleAbout _ k hk _ hl]
  simp only [Project.bounds, Rectangle.center]
  congr 1 <;> ring

theorem bounds_centerAt (p : Project) (items : List Nat) (center : Point)
    (hl : p.points items ≠ []) :
    ((p.centerAt items center).bounds items).width = (p.bounds items).width ∧
    ((p.centerAt items center).bounds items).height = (p.bounds items).height ∧
    ((p.centerAt items center).bounds items).center = center := by
  unfold Project.centerAt
  rw [Project.bounds, points_transform, boundsOfPoints_translate _ _ hl]
  simp only [Project.bounds, Rectangle.center, true_and]
  cases center
  congr 1 <;> ring

theorem points_ne_nil (p : Project) (items : List Nat) (h : 0 < (p.bounds items).width) :
    p.points items ≠ [] := by
  intro hnil
  rw [Project.bounds, hnil] at h
  exact lt_irrefl _ h

/-- The fit of a group: with positive bounds and a positive canvas, the scaled
and centred project has bounds `k` times the old ones with `0 < k ≤ 1`, within
the fraction `m` of the canvas, centred on the canvas. -/
theorem fit_bounds (p : Project) (items : List Nat) (canvasSize : Size) (m : Rat) (hm : 0 < m)
    (hcw : 0 < canvasSize.width) (hch : 0 < canvasSize.height)
    (hbw : 0 < (p.bounds items).width) (hbh : 0 < (p.bounds items).height) :
    let scale := min (canvasSize.width / (p.bounds items).width * m)
      (canvasSize.height / (p.bounds items).height * m)
    let q := (if scale < 1 then p.scale items scale else p).centerAt items
      ⟨canvasSize.width / 2, canvasSize.height / 2⟩
    (∃ k : Rat, 0 < k ∧ k ≤ 1 ∧ (q.bounds items).width = k * (p.bounds items).width ∧
      (q.bounds items).height = k * (p.bounds items).height) ∧
    (q.bounds items).width ≤ m * canvasSize.width ∧
    (q.bounds items).height ≤ m * canvasSize.height ∧
    (q.bounds items).center = ⟨canvasSize.width / 2, canvasSize.height / 2⟩ := by
  intro scale q
  have hl := points_ne_nil p items hbw
  have hsx : 0 < canvasSize.width / (p.bounds items).width * m :=
    mul_pos (div_pos hcw hbw) hm
  have hsy : 0 < canvasSize.height / (p.bounds items).height * m :=
    mul_pos (div_pos hch hbh) hm
  have hs : 0 < scale := lt_min hsx hsy
  have hx : scale * (p.bounds items).width ≤ m * canvasSize.width := by
    have h1 : scale ≤ canvasSize.width / (p.bounds items).width * m := min_le_left _ _
    calc scale * (p.bounds items).width
        ≤ canvasSize.width / (p.bounds items).width * m * (p.bounds items).width :=
          mul_le_mul_of_nonneg_right h1 hbw.le
      _ = m * canvasSize.width := by field_simp; ring
  have hy : scale * (p.bounds items).height ≤ m * canvasSize.height := by
    have h1 : scale ≤ canvasSize.height / (p.bounds items).height * m := min_le_right _ _
    calc scale * (p.bounds items).height
        ≤ canvasSize.height / (p.bounds items).height * m * (p.bounds items).height :=
          mul_le_mul_of_nonneg_right h1 hbh.le
      _ = m * canvasSize.height := by field_simp; ring
  by_cases hlt : scale < 1
  · have hq : q = (p.scale items scale).centerAt items
        ⟨canvasSize.width / 2, canvasSize.height / 2⟩ := by
      show (if scale < 1 then p.scale items scale else p).centerAt items _ = _
      rw [if_pos hlt]
    have hb := bounds_scale p items scale hs.le hl
    have hl2 : (p.scale items scale).points items ≠ [] := by
      apply points_ne_nil
      rw [hb]
      exact mul_pos hs hbw
    obtain ⟨w, h, c⟩ := bounds_centerAt (p.scale items scale) items
      ⟨canvasSize.width / 2, canvasSize.height / 2⟩ hl2
    rw [hq, w, h, c, hb]
    exact ⟨⟨scale, hs, hlt.le, rfl, rfl⟩, hx, hy, rfl⟩
  · have hq : q = p.centerAt items ⟨canvasSize.width / 2, canvasSize.height / 2⟩ := by
      show (if scale < 1 then p.scale items scale else p).centerAt items _ = _
      rw [if_neg hlt]
    obtain ⟨w, h, c⟩ := bounds_centerAt p items ⟨canvasSize.width / 2, canvasSize.height / 2⟩ hl
    rw [hq, w, h, c]
    have h1 : (1 : Rat) ≤ scale := not_lt.mp hlt
    refine ⟨⟨1, one_pos, le_refl _, (one_mul _).symm, (one_mul _).symm⟩, ?_, ?_, rfl⟩
    · calc (p.bounds items).width = 1 * (p.bounds items).width := (one_mul _).symm
        _ ≤ scale * (p.bounds items).width := mul_le_mul_of_nonneg_right h1 hbw.le
        _ ≤ _ := hx
    · calc (p.bounds items).height = 1 * (p.bounds items).height := (one_mul _).symm
        _ ≤ scale * (p.bounds items).height := mul_le_mul_of_nonneg_right h1 hbh.le
        _ ≤ _ := hy

theorem transform_name (p : Project) (items : List Nat) (f : Point → Point) (j : Nat) :
    ((p.transform items f).objects j).name = (p.objects j).name := by
  unfold Project.transform
  dsimp only
  split <;> rfl

theorem content_regroup (p q : Project)
    (hn : ∀ j, (q.objects j).name = (p.objects j).name) (hc : q.children = p.children) :
    Project.content
      { q with children := q.children.filter (fun j => decide (j ∉ p.content)) ++ p.content }
      = p.content := by
  unfold Project.content
  simp only [List.filter_append, hn, hc, List.filter_filter]
  have h1 : p.children.filter (fun a => (decide ((p.objects a).name ≠ some "grid") &&
      decide (a ∉ p.children.filter (fun i => decide ((p.objects i).name ≠ some "grid"))))) = [] := by
    rw [List.filter_eq_nil_iff]
    intro a ha
    simp only [List.mem_filter, ha, true_and, Bool.and_eq_true, decide_eq_true_eq, not_and]
    intro h1 h2
    exact h2 h1
  have h2 : p.children.filter (fun a => (decide ((p.objects a).name ≠ some "grid") &&
      decide ((p.objects a).name ≠ some "grid"))) =
      p.children.filter (fun i => decide ((p.objects i).name ≠ some "grid")) := by
    simp only [Bool.and_self]
  rw [h1, h2, List.nil_append]

theorem fit_name (p : Project) (items : List Nat) (c : Point) (k : Rat) (b : Bool) (j : Nat) :
    (((if b then p.scale items k else p).centerAt items c).objects j).name
      = (p.objects j).name := by
  unfold Project.centerAt
  rw [transform_name]
  cases b
  · rfl
  · exact transform_name _ _ _ _

theorem fit_advanced (canvasSize : Size) (s : Editor)
    (hcw : 0 < canvasSize.width) (hch : 0 < canvasSize.height) :
    ((0 < (s.project.bounds s.project.content).width ∧
        0 < (s.project.bounds s.project.content).height) →
      (s.fitContentToCanvas canvasSize).project.content = s.project.content ∧
      (∃ k : Rat, 0 < k ∧ k ≤ 1 ∧
        ((s.fitContentToCanvas canvasSize).project.bounds s.project.content).width
          = k * (s.project.bounds s.project.content).width ∧
        ((s.fitContentToCanvas canvasSize).project.bounds s.project.content).height
          = k * (s.project.bounds s.project.content).height) ∧
      ((s.fitContentToCanvas canvasSize).project.bounds s.project.content).width
        ≤ 4 / 5 * canvasSize.width ∧
      ((s.fitContentToCanvas canvasSize).project.bounds s.project.content).height
        ≤ 4 / 5 * canvasSize.height ∧
      ((s.fitContentToCanvas canvasSize).project.bounds s.project.content).center
        = ⟨canvasSize.width / 2, canvasSize.height / 2⟩) ∧
    (((s.project.bounds s.project.content).width = 0 ∨
        (s.project.bounds s.project.content).height = 0) →
      (s.fitContentToCanvas canvasSize).project.objects = s.project.objects ∧
      (s.fitContentToCanvas canvasSize).project.content = s.project.content) := by
  constructor
  · intro hb
    have hne : ¬ s.project.content.length = 0 := by
      intro h0
      have := points_ne_nil _ _ hb.1
      rw [List.length_eq_zero] at h0
      rw [h0] at this
      exact this rfl
    have hfit := fit_bounds s.project s.project.content canvasSize (4 / 5) (by norm_num)
      hcw hch hb.1 hb.2
    unfold Editor.fitContentToCanvas
    simp only [hne, if_false, hb, and_self, if_true]
    refine ⟨?_, hfit⟩
    exact content_regroup s.project _ (fun j => by
      unfold Project.centerAt
      rw [transform_name]
      split
      · exact transform_name _ _ _ _
      · rfl) (by
      unfold Project.centerAt Project.transform
      dsimp only
      split <;> rfl)
  · intro hz
    have hnb : ¬ (0 < (s.project.bounds s.project.content).width ∧
        0 < (s.project.bounds s.project.content).height) := by
      rintro ⟨h1, h2⟩
      rcases hz with h | h
      · rw [h] at h1; exact lt_irrefl _ h1
      · rw [h] at h2; exact lt_irrefl _ h2
    unfold Editor.fitContentToCanvas
    by_cases hne : s.project.content.length = 0
    · simp only [hne, if_true, and_self]
    · simp only [hne, if_false, hnb]
      exact ⟨trivial, content_regroup s.project s.project (fun _ => rfl) rfl⟩

theorem fit_basic (canvasSize : Size) (t : PaperJSEditor)
    (hcw : 0 < canvasSize.width) (hch : 0 < canvasSize.height) :
    ((0 < (t.project.bounds t.project.children).width ∧
        0 < (t.project.bounds t.project.children).height) →
      (t.fitContentToCanvas canvasSize).project.children = t.project.children ∧
      (∃ k : Rat, 0 < k ∧ k ≤ 1 ∧
        ((t.fitContentToCanvas canvasSize).project.bounds t.project.children).width
          = k * (t.project.bounds t.project.children).width ∧
        ((t.fitContentToCanvas canvasSize).project.bounds t.project.children).height
          = k * (t.project.bounds t.project.children).height) ∧
      ((t.fitContentToCanvas canvasSize).project.bounds t.project.children).width
        ≤ 9 / 10 * canvasSize.width ∧
      ((t.fitContentToCanvas canvasSize).project.bounds t.project.children).height
        ≤ 9 / 10 * canvasSize.height ∧
      ((t.fitContentToCanvas canvasSize).project.bounds t.project.children).center
        = ⟨canvasSize.width / 2, canvasSize.height / 2⟩) ∧
    (((t.project.bounds t.project.children).width = 0 ∨
        (t.project.bounds t.project.children).height = 0) →
      t.fitContentToCanvas canvasSize = t) := by
  constructor
  · intro hb
    have hfit := fit_bounds t.project t.project.children canvasSize (9 / 10) (by norm_num)
      hcw hch hb.1 hb.2
    unfold PaperJSEditor.fitContentToCanvas
    simp only [hb, and_self, if_true]
    refine ⟨?_, hfit⟩
    unfold Project.centerAt Project.transform
    dsimp only
    split <;> rfl
  · intro hz
    have hnb : ¬ (0 < (t.project.bounds t.project.children).width ∧
        0 < (t.project.bounds t.project.children).height) := by
      rintro ⟨h1, h2⟩
      rcases hz with h | h
      · rw [h] at h1; exact lt_irrefl _ h1
      · rw [h] at h2; exact lt_irrefl _ h2
    unfold PaperJSEditor.fitContentToCanvas
    simp only [hnb, if_false]

theorem demoWide_bounds :
    demoWideProject.bounds demoWideProject.content = ⟨0, 0, 2000, 1000⟩ ∧
    demoWideProject.bounds demoWideProject.children = ⟨0, 0, 2000, 1000⟩ := by
  have h1 : demoWideProject.points demoWideProject.content
      = [⟨0, 0⟩, ⟨2000, 0⟩, ⟨2000, 1000⟩] := by decide
  have h2 : demoWideProject.points demoWideProject.children
      = [⟨0, 0⟩, ⟨2000, 0⟩, ⟨2000, 1000⟩] := by decide
  rw [Project.bounds, Project.bounds, h1, h2]
  norm_num [boundsOfPoints]

/-- The path of 2000 by 1000 units on the canvas of 800 by 600 units is scaled
by 8/25 and ends at (80, 140) with size 640 by 320. -/
theorem demoWide_fit :
    ((Editor.constructed demoWideProject).fitContentToCanvas demoCanvas).project.bounds
      demoWideProject.content = ⟨80, 140, 640, 320⟩ := by
  have hc : demoWideProject.content = [1] := by decide
  have hb := demoWide_bounds.1
  rw [hc] at hb
  have e : (Editor.constructed demoWideProject).project = demoWideProject := rfl
  unfold Editor.fitContentToCanvas
  simp only [e, hc, hb, demoCanvas]
  norm_num
  simp only [Project.bounds, Project.centerAt, Project.scale, points_transform, hb]
  have h1 : demoWideProject.points [1] = [⟨0, 0⟩, ⟨2000, 0⟩, ⟨2000, 1000⟩] := by decide
  simp only [Project.bounds] at hb
  simp only [h1, hb]
  have hp : ∀ (p : Project) (c : List Nat) (items : List Nat),
      Project.points { objects := p.objects, children := c, nextId := p.nextId } items
        = p.points items := fun _ _ _ => rfl
  simp only [hp, points_transform, h1]
  norm_num [boundsOfPoints, Point.scaleAbout, Point.translate, Rectangle.center]

/-- Claim C26: over exact rational arithmetic and for a canvas of positive size,
`fitContentToCanvas` of the advanced editor (content = the items not named
`grid`, factor 4/5) and of `PaperJSEditor` (content = the whole layer, factor
9/10) maps content whose bounding box has positive width and height to the same
items with a bounding box `k` times as wide and as high for some `0 < k ≤ 1`
(never enlarged), at most the factor times the canvas width and height, and
centred on the canvas centre; content with zero width or height keeps every
field of every object (in `PaperJSEditor` the whole state is unchanged). -/
theorem fitContentToCanvas_fits (canvasSize : Size) (s : Editor) (t : PaperJSEditor)
    (hcw : 0 < canvasSize.width) (hch : 0 < canvasSize.height) :
    (((0 < (s.project.bounds s.project.content).width ∧
        0 < (s.project.bounds s.project.content).height) →
      (s.fitContentToCanvas canvasSize).project.content = s.project.content ∧
      (∃ k : Rat, 0 < k ∧ k ≤ 1 ∧
        ((s.fitContentToCanvas canvasSize).project.bounds s.project.content).width
          = k * (s.project.bounds s.project.content).width ∧
        ((s.fitContentToCanvas canvasSize).project.bounds s.project.content).height
          = k * (s.project.bounds s.project.content).height) ∧
      ((s.fitContentToCanvas canvasSize).project.bounds s.project.content).width
        ≤ 4 / 5 * canvasSize.width ∧
      ((s.fitContentToCanvas canvasSize).project.bounds s.project.content).height
        ≤ 4 / 5 * canvasSize.height ∧
      ((s.fitContentToCanvas canvasSize).project.bounds s.project.content).center
        = ⟨canvasSize.width / 2, canvasSize.height / 2⟩) ∧
    (((s.project.bounds s.project.content).width = 0 ∨
        (s.project.bounds s.project.content).height = 0) →
      (s.fitContentToCanvas canvasSize).project.objects = s.project.objects ∧
      (s.fitContentToCanvas canvasSize).project.content = s.project.content)) ∧
    (((0 < (t.project.bounds t.project.children).width ∧
        0 < (t.project.bounds t.project.children).height) →
      (t.fitContentToCanvas canvasSize).project.children = t.project.children ∧
      (∃ k : Rat, 0 < k ∧ k ≤ 1 ∧
        ((t.fitContentToCanvas canvasSize).project.bounds t.project.children).width
          = k * (t.project.bounds t.project.children).width ∧
        ((t.fitContentToCanvas canvasSize).project.bounds t.project.children).height
          = k * (t.project.bounds t.project.children).height) ∧
      ((t.fitContentToCanvas canvasSize).project.bounds t.project.children).width
        ≤ 9 / 10 * canvasSize.width ∧
      ((t.fitContentToCanvas canvasSize).project.bounds t.project.children).height
        ≤ 9 / 10 * canvasSize.height ∧
      ((t.fitContentToCanvas canvasSize).project.bounds t.project.children).center
        = ⟨canvasSize.width / 2, canvasSize.height / 2⟩) ∧
    (((t.project.bounds t.project.children).width = 0 ∨
        (t.project.bounds t.project.children).height = 0) →
      t.fitContentToCanvas canvasSize = t)) :=
  ⟨fit_advanced canvasSize s hcw hch, fit_basic canvasSize t hcw hch⟩

/-- Witness for C26: the path of 2000 by 1000 units of the demo, on a canvas of
800 by 600 units, in both editors. -/
theorem fitContentToCanvas_fits_witness :
    (0 < demoCanvas.width ∧ 0 < demoCanvas.height ∧
      0 < (demoWideProject.bounds demoWideProject.content).width ∧
      0 < (demoWideProject.bounds demoWideProject.content).height ∧
      0 < (demoWideProject.bounds demoWideProject.children).width ∧
      0 < (demoWideProject.bounds demoWideProject.children).height) ∧
    (((Editor.constructed demoWideProject).fitContentToCanvas demoCanvas).project.bounds
        demoWideProject.content).width ≤ 4 / 5 * demoCanvas.width ∧
    (((Editor.constructed demoWideProject).fitContentToCanvas demoCanvas).project.bounds
        demoWideProject.content).center = ⟨demoCanvas.width / 2, demoCanvas.height / 2⟩ ∧
    (((PaperJSEditor.constructed demoWideProject).fitContentToCanvas demoCanvas).project.bounds
        demoWideProject.children).width ≤ 9 / 10 * demoCanvas.width ∧
    (((PaperJSEditor.constructed demoWideProject).fitContentToCanvas demoCanvas).project.bounds
        demoWideProject.children).center = ⟨demoCanvas.width / 2, demoCanvas.height / 2⟩ := by
  have hcw : 0 < demoCanvas.width := by decide
  have hch : 0 < demoCanvas.height := by decide
  have hA : 0 < (demoWideProject.bounds demoWideProject.content).width ∧
      0 < (demoWideProject.bounds demoWideProject.content).height := by
    rw [demoWide_bounds.1]; norm_num
  have hB : 0 < (demoWideProject.bounds demoWideProject.children).width ∧
      0 < (demoWideProject.bounds demoWideProject.children).height := by
    rw [demoWide_bounds.2]; norm_num
  have h := fitContentToCanvas_fits demoCanvas (Editor.constructed demoWideProject)
    (PaperJSEditor.constructed demoWideProject) hcw hch
  have ha := h.1.1 hA
  have hb := h.2.1 hB
  exact ⟨⟨hcw, hch, hA.1, hA.2, hB.1, hB.2⟩, ha.2.2.1, ha.2.2.2.2, hb.2.2.1, hb.2.2.2.2⟩

/-! ## Document load -/

/-- Counterexample for C21: a load whose import fails without raising (nothing
returned; `onError` invoked in the pro editor) removes the demo rectangle from
the scene and returns normally, in each of the three editors. -/
theorem failed_import_clears_scene :
    (exportJSON (Editor.loadSvgContent demoCanvas (fun _ => ImportAnswer.nothing)
        (Editor.constructed demoGridProject) "<svg></svg>").state.project
      ≠ exportJSON demoGridProject ∧
     (Editor.loadSvgContent demoCanvas (fun _ => ImportAnswer.nothing)
        (Editor.constructed demoGridProject) "<svg></svg>").threw = false) ∧
    (exportJSON (PaperJSEditor.loadSvgContent demoCanvas (fun _ => ImportAnswer.nothing)
        (PaperJSEditor.constructed demoProject) "<svg></svg>").state.project
      ≠ exportJSON demoProject ∧
     (PaperJSEditor.loadSvgContent demoCanvas (fun _ => ImportAnswer.nothing)
        (PaperJSEditor.constructed demoProject) "<svg></svg>").threw = false) ∧
    (exportJSON (ProEditor.loadSvg demoCanvas ⟨400, 300⟩ (fun _ => ImportAnswer.error)
        (demoPro true) "<svg></svg>").state.project
      ≠ exportJSON (demoPro true).project ∧
     (ProEditor.loadSvg demoCanvas ⟨400, 300⟩ (fun _ => ImportAnswer.error)
        (demoPro true) "<svg></svg>").threw = false) := by
  decide

theorem grids_content (p : Project) : Project.content { p with children := p.grids } = [] := by
  unfold Project.content Project.grids
  rw [List.filter_eq_nil_iff]
  intro a ha
  simp only [List.mem_filter, decide_eq_true_eq] at ha
  simp only [decide_eq_true_eq, not_not]
  exact ha.2

theorem Editor.createGrid_content (s : Editor) (h : s.project.content = []) :
    s.createGrid.project.content = [] := by
  unfold Project.content at h
  rw [List.filter_eq_nil_iff] at h
  unfold Editor.createGrid Project.content Project.create
  rw [List.filter_eq_nil_iff]
  intro a ha
  simp only [List.mem_cons, List.mem_filter, List.mem_append, List.mem_singleton,
    bne_iff_ne, ne_eq] at ha
  simp only [decide_eq_true_eq, not_not]
  rcases ha with ha | ⟨ha, hne⟩
  · subst ha
    simp only [Function.update_same]
  · rw [Function.update_noteq hne]
    rcases ha with ha | ha
    · have := h a ha
      simpa using this
    · exact absurd (by simpa using ha) hne

theorem Editor.clearSelection_content (s : Editor) :
    s.clearSelection.project.content = s.project.content := by
  unfold Project.content
  rw [Editor.clearSelection_children]
  apply List.filter_congr
  intro a _
  rw [Editor.clearSelection_objects]
  split <;> rfl

theorem Editor.load_finish_content (s : Editor) (h : s.project.content = []) :
    s.createGrid.clearSelection.project.content = [] := by
  rw [Editor.clearSelection_content]
  exact Editor.createGrid_content s h

/-- Claim C21 as amended: when the import fails during a document load (`importSVG`
returns nothing, reports an error or raises), the old content is gone and is not
restored, and the caller gets no report: `loadSvgContent` of the advanced editor
returns normally with no item other than grid items on the layer,
`loadSvgContent` of `PaperJSEditor` returns normally with an empty layer, and
`window.loadSvg` of the pro editor leaves an empty layer and lets an exception
reach the caller exactly when `importSVG` itself raises. -/
theorem failed_import_outcome (canvasSize viewSize : Size) (viewCenter : Point)
    (importSVG : String → ImportAnswer) (svgString : String)
    (s : Editor) (t : PaperJSEditor) (u : ProEditor)
    (hfail : ∀ item, importSVG svgString ≠ ImportAnswer.imported item) :
    ((Editor.loadSvgContent canvasSize importSVG s svgString).threw = false ∧
      (Editor.loadSvgContent canvasSize importSVG s svgString).state.project.content = []) ∧
    ((PaperJSEditor.loadSvgContent canvasSize importSVG t svgString).threw = false ∧
      (PaperJSEditor.loadSvgContent canvasSize importSVG t svgString).state.project.children
        = []) ∧
    ((ProEditor.loadSvg viewSize viewCenter importSVG u svgString).state.project.children = [] ∧
      (ProEditor.loadSvg viewSize viewCenter importSVG u svgString).threw
        = decide (importSVG svgString = ImportAnswer.raises)) := by
  have h0 := grids_content s.project
  refine ⟨?_, ?_, ?_⟩
  · unfold Editor.loadSvgContent
    dsimp only
    split
    · cases hi : importSVG svgString with
      | imported item => exact absurd hi (hfail item)
      | nothing => exact ⟨rfl, Editor.load_finish_content _ h0⟩
      | error => exact ⟨rfl, h0⟩
      | raises => exact ⟨rfl, h0⟩
    · exact ⟨rfl, Editor.load_finish_content _ h0⟩
  · unfold PaperJSEditor.loadSvgContent
    dsimp only
    split
    · cases hi : importSVG svgString with
      | imported item => exact absurd hi (hfail item)
      | nothing => exact ⟨rfl, PaperJSEditor.clearSelection_children_basic _⟩
      | error => exact ⟨rfl, rfl⟩
      | raises => exact ⟨rfl, rfl⟩
    · exact ⟨rfl, PaperJSEditor.clearSelection_children_basic _⟩
  · unfold ProEditor.loadSvg
    dsimp only
    cases hi : importSVG svgString with
    | imported item => exact absurd hi (hfail item)
    | nothing => exact ⟨rfl, rfl⟩
    | error => exact ⟨rfl, rfl⟩
    | raises => exact ⟨rfl, rfl⟩

/-- Witness for C21: an import that raises, on the demo scenes. -/
theorem failed_import_outcome_witness :
    (∀ item, (fun _ : String => ImportAnswer.raises) "<svg></svg>" ≠ ImportAnswer.imported item) ∧
    (Editor.loadSvgContent demoCanvas (fun _ => ImportAnswer.raises)
      (Editor.constructed demoGridProject) "<svg></svg>").state.project.content = [] ∧
    (PaperJSEditor.loadSvgContent demoCanvas (fun _ => ImportAnswer.raises)
      (PaperJSEditor.constructed demoProject) "<svg></svg>").state.project.children = [] ∧
    (ProEditor.loadSvg demoCanvas ⟨400, 300⟩ (fun _ => ImportAnswer.raises)
      (demoPro true) "<svg></svg>").threw = true :=
  have hf : ∀ item, (fun _ : String => ImportAnswer.raises) "<svg></svg>"
      ≠ ImportAnswer.imported item := fun _ h => ImportAnswer.noConfusion h
  have h := failed_import_outcome demoCanvas demoCanvas ⟨400, 300⟩ (fun _ => ImportAnswer.raises)
    "<svg></svg>" (Editor.constructed demoGridProject) (PaperJSEditor.constructed demoProject)
    (demoPro true) hf
  ⟨hf, h.1.2, h.2.1.2, h.2.2.2⟩

/-- Claim C22, evaluated at the failing input: a load whose import raises leaves
the selection as it was: the
`clearSelection()` call is the last statement of the `try` block, so it is
skipped, and `selectedItems` still holds the item of the old document, which is
no longer on the layer (both editors). On every other path of `loadSvgContent`
the selection is empty afterwards. -/
theorem load_keeps_stale_selection :
    ((Editor.loadSvgContent demoCanvas (fun _ => ImportAnswer.raises) demoSelected
        "<svg></svg>").threw = false ∧
      (Editor.loadSvgContent demoCanvas (fun _ => ImportAnswer.raises) demoSelected
        "<svg></svg>").state.selectedItems = [0] ∧
      0 ∉ (Editor.loadSvgContent demoCanvas (fun _ => ImportAnswer.raises) demoSelected
        "<svg></svg>").state.project.children) ∧
    ((PaperJSEditor.loadSvgContent demoCanvas (fun _ => ImportAnswer.raises) demoSelectedBasic
        "<svg></svg>").threw = false ∧
      (PaperJSEditor.loadSvgContent demoCanvas (fun _ => ImportAnswer.raises) demoSelectedBasic
        "<svg></svg>").state.selectedItems = [0] ∧
      0 ∉ (PaperJSEditor.loadSvgContent demoCanvas (fun _ => ImportAnswer.raises)
        demoSelectedBasic "<svg></svg>").state.project.children) ∧
    (∀ (canvasSize : Size) (importSVG : String → ImportAnswer) (s : Editor) (t : PaperJSEditor)
        (svgString : String),
      (Editor.loadSvgContent canvasSize importSVG s svgString).state.selectedItems
        = (if hasContent svgString = true ∧ (importSVG svgString = ImportAnswer.raises ∨
              importSVG svgString = ImportAnswer.error) then s.selectedItems else []) ∧
      (PaperJSEditor.loadSvgContent canvasSize importSVG t svgString).state.selectedItems
        = (if hasContent svgString = true ∧ (importSVG svgString = ImportAnswer.raises ∨
              importSVG svgString = ImportAnswer.error) then t.selectedItems else [])) := by
  refine ⟨by decide, by decide, ?_⟩
  intro canvasSize importSVG s t svgString
  unfold Editor.loadSvgContent PaperJSEditor.loadSvgContent
  dsimp only
  by_cases hc : hasContent svgString = true
  · simp only [hc, if_true, true_and]
    cases importSVG svgString <;> simp [Editor.clearSelection, PaperJSEditor.clearSelection]
  · simp only [hc, if_false, false_and]
    exact ⟨rfl, rfl⟩

/-! ## The background grid -/

theorem Editor.createGrid_grids (s : Editor)
    (hwf : ∀ i ∈ s.project.children, i < s.project.nextId) :
    s.createGrid.project.grids = s.project.nextId :: s.project.grids ∧
    (∀ i ∈ s.createGrid.project.children, i < s.createGrid.project.nextId) := by
  have hfresh : s.project.nextId ∉ s.project.children := fun h => lt_irrefl _ (hwf _ h)
  have hch : (s.project.children ++ [s.project.nextId]).filter (fun j => j != s.project.nextId)
      = s.project.children := by
    rw [List.filter_append, List.filter_eq_self.mpr, List.filter_eq_nil_iff.mpr, List.append_nil]
    · intro a ha
      simp only [List.mem_singleton] at ha
      simp [ha]
    · intro a ha
      simp only [bne_iff_ne, ne_eq]
      intro h
      exact hfresh (h ▸ ha)
  unfold Editor.createGrid Project.grids Project.create
  dsimp only
  rw [hch]
  constructor
  · rw [List.filter_cons]
    simp only [Function.update_same, decide_True, if_true]
    congr 1
    apply List.filter_congr
    intro a ha
    have hne : a ≠ s.project.nextId := fun h => hfresh (h ▸ ha)
    rw [Function.update_noteq hne]
  · intro i hi
    simp only [List.mem_cons] at hi
    rcases hi with hi | hi
    · rw [hi]; exact Nat.lt_succ_self _
    · exact Nat.lt_succ_of_lt (hwf i hi)

theorem Editor.clearSelection_grids (s : Editor) :
    s.clearSelection.project.grids = s.project.grids := by
  unfold Project.grids
  rw [Editor.clearSelection_children]
  apply List.filter_congr
  intro a _
  rw [Editor.clearSelection_objects]
  split <;> rfl

theorem Editor.clearSelection_nextId (s : Editor) :
    s.clearSelection.project.nextId = s.project.nextId := by
  unfold Editor.clearSelection
  dsimp only
  generalize s.project = p
  induction s.selectedItems generalizing p with
  | nil => rfl
  | cons x rest ih => rw [List.foldl_cons, ih]; rfl

theorem grids_grids (p : Project) : Project.grids { p with children := p.grids } = p.grids := by
  unfold Project.grids
  simp only [List.filter_filter, Bool.and_self]

/-- A load without import (blank text, or `importSVG` returning nothing) keeps
every grid of the layer and adds one. -/
theorem Editor.load_adds_grid (canvasSize : Size) (importSVG : String → ImportAnswer)
    (s : Editor) (svgString : String)
    (hwf : ∀ i ∈ s.project.children, i < s.project.nextId)
    (h : hasContent svgString = false ∨ importSVG svgString = ImportAnswer.nothing) :
    (Editor.loadSvgContent canvasSize importSVG s svgString).state.project.grids
      = s.project.nextId :: s.project.grids ∧
    (∀ i ∈ (Editor.loadSvgContent canvasSize importSVG s svgString).state.project.children,
      i < (Editor.loadSvgContent canvasSize importSVG s svgString).state.project.nextId) := by
  have hwf1 : ∀ i ∈ ({ s with project := { s.project with children := s.project.grids } }
      : Editor).project.children,
      i < ({ s with project := { s.project with children := s.project.grids } }
        : Editor).project.nextId := by
    intro i hi
    exact hwf i (List.mem_of_mem_filter hi)
  have key := Editor.createGrid_grids _ hwf1
  have hfin : (Editor.loadSvgContent canvasSize importSVG s svgString).state
      = (Editor.createGrid { s with project := { s.project with children := s.project.grids } }
          ).clearSelection := by
    unfold Editor.loadSvgContent
    dsimp only
    rcases h with h | h
    · simp only [h, Bool.false_eq_true, if_false]
    · split
      · simp only [h]
      · rfl
  rw [hfin, Editor.clearSelection_grids, Editor.clearSelection_children,
    Editor.clearSelection_nextId, key.1]
  exact ⟨by rw [grids_grids], key.2⟩

theorem Editor.loads_add_grids (canvasSize : Size) (importSVG : String → ImportAnswer)
    (n : Nat) : ∀ s : Editor, (∀ i ∈ s.project.children, i < s.project.nextId) →
    ((fun st => (Editor.loadSvgContent canvasSize importSVG st "").state)^[n] s).project.grids.length
      = s.project.grids.length + n := by
  induction n with
  | zero => intro s _; rfl
  | succ k ih =>
    intro s hwf
    have h1 := Editor.load_adds_grid canvasSize importSVG s "" hwf (Or.inl rfl)
    rw [Function.iterate_succ_apply, ih _ h1.2, h1.1, List.length_cons]
    omega

/-- Claim C27, evaluated at the failing input: the grid is duplicated. `loadSvgContent` keeps the grids of the layer
and calls `createGrid()` again, and `init()` calls `createGrid()` once more after
its own load: after `init()` the layer holds two items named `grid` (one when
the initial import raises), every further load without import adds one, and
`getSvgContent`, which hides the first grid only, serializes a scene with a
visible grid. -/
theorem grid_duplicated_by_load :
    (Editor.init demoCanvas demoImport).project.grids.length = 2 ∧
    (Editor.init demoCanvas (fun _ => ImportAnswer.raises)).project.grids.length = 1 ∧
    visibleGrids (Editor.init demoCanvas demoImport).exportedScene = 1 ∧
    visibleGrids (Editor.loadSvgContent demoCanvas demoImport
      (Editor.init demoCanvas (fun _ => ImportAnswer.raises)) "").state.exportedScene = 1 ∧
    (∀ (exportSVG : Snapshot → Option String) (s : Editor),
      (Editor.getSvgContent exportSVG s).2 = (exportSVG s.exportedScene).getD "") ∧
    (∀ (canvasSize : Size) (importSVG : String → ImportAnswer) (s : Editor) (n : Nat),
      (∀ i ∈ s.project.children, i < s.project.nextId) →
      ((fun st => (Editor.loadSvgContent canvasSize importSVG st "").state)^[n]
          s).project.grids.length = s.project.grids.length + n) := by
  refine ⟨by decide, by decide, by decide, by decide, ?_, ?_⟩
  · intro exportSVG s
    unfold Editor.getSvgContent Editor.exportedScene
    dsimp only
    cases s.project.children.find? (fun i => (s.project.objects i).name = some "grid") with
    | none =>
      dsimp only
      cases exportSVG (exportJSON s.project) <;> rfl
    | some g =>
      dsimp only
      cases exportSVG (exportJSON (s.project.modify g (fun it => { it with visible := false })))
        <;> rfl
  · intro canvasSize importSVG s n hwf
    exact Editor.loads_add_grids canvasSize importSVG n s hwf

/-! ## The fallback viewer of `editor.js` -/

/-- Claim C23, evaluated at the failing input: with none of `window.SvgCanvas`, `window.svgcanvas` and
`window.svgcanvas_global` defined, `getSvgCanvasCtor()` returns the built-in
`Object` (the `constructor` property of the empty module object), `new Ctor(...)`
returns an object without raising, so `init()` sets `canvas` and does not install
the fallback viewer; `svgEditorLoad(text)` is then ignored and `svgEditorGet()`
returns the empty text. When the constructor found raises both ways, or no
constructor is found, the fallback viewer is installed and returns the loaded
text; `svgEditorGet()` never raises. -/
theorem fallback_missing_without_engine :
    SvgEditor.getSvgCanvasCtor ⟨none, none, none⟩ = some SvgEditor.objectCtor ∧
    SvgEditor.init ⟨none, none, none⟩ = { canvas := .plain, fallback := none } ∧
    SvgEditor.svgEditorGet (SvgEditor.svgEditorLoad (SvgEditor.init ⟨none, none, none⟩)
      "<svg><rect/></svg>") = some "" ∧
    (∀ g : SvgEditor.Window,
      (SvgEditor.getSvgCanvasCtor g = none ∨
        SvgEditor.getSvgCanvasCtor g = some ⟨.throws, .throws⟩) →
      SvgEditor.init g = { canvas := .undefined, fallback := some SvgEditor.initialText } ∧
      ∀ svgText : String,
        SvgEditor.svgEditorGet (SvgEditor.svgEditorLoad (SvgEditor.init g) svgText)
          = some svgText) ∧
    (∀ st : SvgEditor.State, ∃ text, SvgEditor.svgEditorGet st = some text) := by
  refine ⟨by decide, by decide, by decide, ?_, ?_⟩
  · intro g hg
    have hi : SvgEditor.init g
        = { canvas := .undefined, fallback := some SvgEditor.initialText } := by
      unfold SvgEditor.init
      rcases hg with hg | hg <;> rw [hg]
    rw [hi]
    exact ⟨rfl, fun _ => rfl⟩
  · intro st
    unfold SvgEditor.svgEditorGet
    cases SvgEditor.svgEditorGetBody st with
    | none => exact ⟨"", rfl⟩
    | some text => exact ⟨text, rfl⟩

end RasterVectorStudio
